import Mathlib

/-!
Squared matrix element of g g > t t~: diagram assembly, helicity filter and evaluation
harness.

Shallow embedding of `epochX/kokkos/gg_tt/SubProcesses/P1_Sigma_sm_gg_ttx/CPPProcess.h`
(`calculate_wavefunctions`, `sigmaKin_setup`, `sigmaKin`) together with the complex
helpers of `mgOnGpuTypes.h` and, from `epochX/kokkos/ee_mumu/src/HelAmps_sm.h`, the
amplitudes `FFV1_0`, `FFV2_0`, `FFV4_0`, `FFV2_4_0`, the currents `FFV1P0_3`, `FFV2_3`,
`FFV4_3`, `FFV2_4_3` and the wavefunctions `ixxxxx`, `ipzxxx`, `imzxxx`, `ixzxxx`, `vxxxxx`,
`oxxxxx`, `opzxxx`, `omzxxx`, `oxzxxx`.

Modelling conventions.

* `fptype` is an arbitrary linearly ordered field `K` (exact arithmetic: rounding,
  overflow and NaN of IEEE numbers are outside the model).  Every definition is
  computable and can be evaluated at `K := ℚ`.
* Where a statement depends on the rounding of the accumulation `allMEs += deltaMEs`, the
  routines `calculate_wavefunctions_rounded` and `sigmaKin_setup_rounded` take the addition
  `fpadd` of `fptype` as a parameter; with the exact addition they are
  `calculate_wavefunctions` and `sigmaKin_setup`.
* `cxtype` is the pair (real part, imaginary part) over `K`.
* The square root `fpsqrt` is a parameter of the routines that use it; statements about
  limits take `K` to be the real numbers and `fpsqrt` their square root.
* A quotient by zero is 0 in `K`; where a statement is about a division being defined,
  the guarded routines `ixxxxx_checked` and `vxxxxx_checked` return no value when a divisor
  is zero, a square root has a negative argument or an array index is out of range.
* Integers (`int` helicities, indices and sizes) are unbounded; array indices and sizes are
  natural numbers.
* A Kokkos view is a total function of its indices; writing an element is
  `Function.update`.  A batch of `league_size * team_size` events occupies the
  indices `ievt < league_size * team_size`.
* `Kokkos::parallel_for` over a team policy is the sequential loop over
  `league_rank` and then `team_rank`.
* The wavefunction and vertex routines that `calculate_wavefunctions` calls live in
  `gg_tt/src/HelAmps_sm.h`; they are taken as parameters (`HelAmps_sm`), so every
  statement below holds for whatever these routines compute.
-/

set_option linter.unusedSectionVars false

namespace mg5amcGpu

/-! ## Complex numbers (`mgOnGpuTypes.h`) -/

/-- Complex number `cxtype`: two `fptype` values, real and imaginary part. -/
structure cxtype (K : Type) where
  re : K
  im : K
deriving DecidableEq

section Complex

variable {K : Type} [LinearOrderedField K]

/-- Constructor `cxmake( r, i )`. -/
def cxmake (r i : K) : cxtype K := ⟨r, i⟩

/-- Real part `cxreal( c )`. -/
def cxreal (c : cxtype K) : K := c.re

/-- Imaginary part `cximag( c )`. -/
def cximag (c : cxtype K) : K := c.im

/-- Complex conjugate `cxconj( c )`: `cxmake( cxreal( c ), -cximag( c ) )`. -/
def cxconj (c : cxtype K) : cxtype K := cxmake (cxreal c) (-cximag c)

/-- The zero complex number `cxzero_sv()`. -/
def cxzero_sv : cxtype K := cxmake 0 0

instance : Zero (cxtype K) := ⟨cxzero_sv⟩

instance : Add (cxtype K) := ⟨fun a b => cxmake (a.re + b.re) (a.im + b.im)⟩

instance : Sub (cxtype K) := ⟨fun a b => cxmake (a.re - b.re) (a.im - b.im)⟩

instance : Mul (cxtype K) :=
  ⟨fun a b => cxmake (a.re * b.re - a.im * b.im) (a.re * b.im + a.im * b.re)⟩

/-- Unary minus `operator-( a )`: `cxmake( -cxreal(a), -cximag(a) )`. -/
instance : Neg (cxtype K) := ⟨fun a => cxmake (-cxreal a) (-cximag a)⟩

/-- Mixed product `operator*( fptype a, cxtype b )`: `cxmake( a, 0 ) * b`. -/
def fpcxmul (a : K) (b : cxtype K) : cxtype K := cxmake a 0 * b

/-- Mixed product `operator*( cxtype a, fptype b )`: `a * cxmake( b, 0 )`. -/
def cxfpmul (a : cxtype K) (b : K) : cxtype K := a * cxmake b 0

/-- Complex quotient `operator/( a, b )`: `a * conj( b ) / |b|^2`, componentwise in the
field `K` (where a quotient by 0 is 0). -/
instance : Div (cxtype K) :=
  ⟨fun a b => cxmake ((a.re * b.re + a.im * b.im) / (b.re * b.re + b.im * b.im))
    ((a.im * b.re - a.re * b.im) / (b.re * b.re + b.im * b.im))⟩

/-- Mixed quotient `operator/( cxtype a, fptype b )`: `a / cxmake( b, 0 )`. -/
def cxfpdiv (a : cxtype K) (b : K) : cxtype K := a / cxmake b 0

/-- Mixed sum `operator+( fptype a, cxtype b )`: `cxmake( a, 0 ) + b`. -/
def fpcxadd (a : K) (b : cxtype K) : cxtype K := cxmake a 0 + b

/-- Mixed difference `operator-( fptype a, cxtype b )`: `cxmake( a, 0 ) - b`. -/
def fpcxsub (a : K) (b : cxtype K) : cxtype K := cxmake a 0 - b

/-- Mixed quotient `operator/( fptype a, cxtype b )`: `cxmake( a, 0 ) / b`. -/
def fpcxdiv (a : K) (b : cxtype K) : cxtype K := cxmake a 0 / b

/-- Minimum `fpmin( a, b )`. -/
def fpmin (a b : K) : K := min a b

/-- Maximum `fpmax( a, b )`. -/
def fpmax (a b : K) : K := max a b

end Complex

/-! ## Wavefunctions and the routines of `HelAmps_sm.h` -/

/-- Wavefunction `cxtype_sv w[nw6]` with `nw6 = 6` complex components. -/
abbrev wavefunction (K : Type) := Fin 6 → cxtype K

/-- Four-momentum `pvec(0..3)` of one particle: E, px, py, pz. -/
abbrev pvec_t (K : Type) := Nat → K

/-- Momenta of one event, `local_mom(ipar, 0..3)`. -/
abbrev mom_t (K : Type) := Nat → pvec_t K

/-- Helicity row `local_cHel(ipar)`. -/
abbrev hel_t := Nat → Int

section HelAmps

variable {K : Type} [LinearOrderedField K]

/-- Amplitude `FFV1_0( F1, F2, V3, COUP, vertex )` of `HelAmps_sm.h`; the value stored into
`*vertex` is returned. -/
def FFV1_0 (F1 F2 V3 : wavefunction K) (COUP : cxtype K) : cxtype K :=
  let cI : cxtype K := cxmake 0 1
  let TMP0 : cxtype K :=
    ( F1 2 * ( F2 4 * ( V3 2 + V3 5 ) + F2 5 * ( V3 3 + cI * ( V3 4 ) ) )
      + ( F1 3 * ( F2 4 * ( V3 3 - cI * ( V3 4 ) ) + F2 5 * ( V3 2 - V3 5 ) )
        + ( F1 4 * ( F2 2 * ( V3 2 - V3 5 ) - F2 3 * ( V3 3 + cI * ( V3 4 ) ) )
          + F1 5 * ( F2 2 * ( -V3 3 + cI * ( V3 4 ) ) + F2 3 * ( V3 2 + V3 5 ) ) ) ) )
  COUP * (-cI) * TMP0

/-- Amplitude `FFV2_0( F1, F2, V3, COUP, vertex )` of `HelAmps_sm.h`. -/
def FFV2_0 (F1 F2 V3 : wavefunction K) (COUP : cxtype K) : cxtype K :=
  let cI : cxtype K := cxmake 0 1
  let TMP1 : cxtype K :=
    ( F1 2 * ( F2 4 * ( V3 2 + V3 5 ) + F2 5 * ( V3 3 + cI * ( V3 4 ) ) )
      + F1 3 * ( F2 4 * ( V3 3 - cI * ( V3 4 ) ) + F2 5 * ( V3 2 - V3 5 ) ) )
  COUP * (-cI) * TMP1

/-- Amplitude `FFV4_0( F1, F2, V3, COUP, vertex )` of `HelAmps_sm.h`; `one` and `two` are
the `fptype` constants 1 and 2. -/
def FFV4_0 (F1 F2 V3 : wavefunction K) (COUP : cxtype K) : cxtype K :=
  let cI : cxtype K := cxmake 0 1
  let one : K := 1
  let two : K := 2
  let TMP3 : cxtype K :=
    ( F1 2 * ( F2 4 * ( V3 2 + V3 5 ) + F2 5 * ( V3 3 + cI * ( V3 4 ) ) )
      + F1 3 * ( F2 4 * ( V3 3 - cI * ( V3 4 ) ) + F2 5 * ( V3 2 - V3 5 ) ) )
  let TMP4 : cxtype K :=
    ( F1 4 * ( F2 2 * ( V3 2 - V3 5 ) - F2 3 * ( V3 3 + cI * ( V3 4 ) ) )
      + F1 5 * ( F2 2 * ( -V3 3 + cI * ( V3 4 ) ) + F2 3 * ( V3 2 + V3 5 ) ) )
  cxfpmul COUP (-one) * ( cI * ( TMP3 ) + fpcxmul two cI * ( TMP4 ) )

/-- Amplitude `FFV2_4_0( F1, F2, V3, COUP1, COUP2, vertex )` of `HelAmps_sm.h`. -/
def FFV2_4_0 (F1 F2 V3 : wavefunction K) (COUP1 COUP2 : cxtype K) : cxtype K :=
  let cI : cxtype K := cxmake 0 1
  let one : K := 1
  let two : K := 2
  let TMP3 : cxtype K :=
    ( F1 2 * ( F2 4 * ( V3 2 + V3 5 ) + F2 5 * ( V3 3 + cI * ( V3 4 ) ) )
      + F1 3 * ( F2 4 * ( V3 3 - cI * ( V3 4 ) ) + F2 5 * ( V3 2 - V3 5 ) ) )
  let TMP4 : cxtype K :=
    ( F1 4 * ( F2 2 * ( V3 2 - V3 5 ) - F2 3 * ( V3 3 + cI * ( V3 4 ) ) )
      + F1 5 * ( F2 2 * ( -V3 3 + cI * ( V3 4 ) ) + F2 3 * ( V3 2 + V3 5 ) ) )
  fpcxmul (-one)
    ( COUP2 * ( cI * ( TMP3 ) + fpcxmul two cI * ( TMP4 ) ) + cI * ( TMP3 * COUP1 ) )

/-- Element `a[i]` of a two-element array `{a0, a1}` indexed by an `int`. -/
def arr2 {A : Type} (a0 a1 : A) (i : Int) : A := if i = 0 then a0 else a1

/-- Index `ip = ( 1 + nh ) / 2` of `ixxxxx` (integer division of C++). -/
def ixxxxx_ip (nh : Int) : Int := Int.tdiv (1 + nh) 2

/-- Index `im = ( 1 - nh ) / 2` of `ixxxxx` (integer division of C++). -/
def ixxxxx_im (nh : Int) : Int := Int.tdiv (1 - nh) 2

/-- Wavefunction `ixxxxx( pvec, fmass, nhel, nsf, fi )` of `HelAmps_sm.h`, returning `fi`;
the square root `fpsqrt` of the number type is a parameter, `fpternary` and `cxternary`
select their second argument when the condition holds and their third otherwise. -/
def ixxxxx (fpsqrt : K → K) (pvec : pvec_t K) (fmass : K) (nhel nsf : Int) : wavefunction K :=
  let fi0 : cxtype K := cxmake (-pvec 0 * (nsf : K)) (-pvec 3 * (nsf : K))
  let fi1 : cxtype K := cxmake (-pvec 1 * (nsf : K)) (-pvec 2 * (nsf : K))
  let nh : Int := nhel * nsf
  if fmass ≠ 0 then
    let pp : K :=
      fpmin (pvec 0) (fpsqrt (pvec 1 * pvec 1 + pvec 2 * pvec 2 + pvec 3 * pvec 3))
    if pp = 0 then
      let sqm0 : K := fpsqrt |fmass|
      let sqm1 : K := if fmass < 0 then -sqm0 else sqm0
      let sqm : Int → K := arr2 sqm0 sqm1
      let ip : Int := ixxxxx_ip nh
      let im : Int := ixxxxx_im nh
      ![fi0, fi1,
        cxmake ((ip : K) * sqm ip) 0,
        cxmake (((im * nsf : Int) : K) * sqm ip) 0,
        cxmake (((ip * nsf : Int) : K) * sqm im) 0,
        cxmake ((im : K) * sqm im) 0]
    else
      let sf : Int → K := arr2
        (((1 + nsf + (1 - nsf) * nh : Int) : K) * (1 / 2))
        (((1 + nsf - (1 - nsf) * nh : Int) : K) * (1 / 2))
      let omega0 : K := fpsqrt (pvec 0 + pp)
      let omega1 : K := fmass / omega0
      let omega : Int → K := arr2 omega0 omega1
      let ip : Int := ixxxxx_ip nh
      let im : Int := ixxxxx_im nh
      let sfomega : Int → K := arr2 (sf 0 * omega ip) (sf 1 * omega im)
      let pp3 : K := fpmax (pp + pvec 3) 0
      let chi : Int → cxtype K := arr2
        (cxmake (fpsqrt (pp3 * (1 / 2) / pp)) 0)
        (if pp3 = 0 then cxmake (-(nh : K)) 0
          else cxfpdiv (cxmake ((nh : K) * pvec 1) (pvec 2)) (fpsqrt (2 * pp * pp3)))
      ![fi0, fi1,
        fpcxmul (sfomega 0) (chi im),
        fpcxmul (sfomega 0) (chi ip),
        fpcxmul (sfomega 1) (chi im),
        fpcxmul (sfomega 1) (chi ip)]
  else
    let sqp0p3 : K :=
      if pvec 1 = 0 ∧ pvec 2 = 0 ∧ pvec 3 < 0 then 0
        else fpsqrt (fpmax (pvec 0 + pvec 3) 0) * (nsf : K)
    let chi0 : cxtype K := cxmake sqp0p3 0
    let chi1 : cxtype K :=
      if sqp0p3 = 0 then cxmake (-(nhel : K) * fpsqrt (2 * pvec 0)) 0
        else cxfpdiv (cxmake ((nh : K) * pvec 1) (pvec 2)) sqp0p3
    if nh = 1 then ![fi0, fi1, cxzero_sv, cxzero_sv, chi0, chi1]
    else ![fi0, fi1, chi1, chi0, cxzero_sv, cxzero_sv]

/-- Wavefunction `ipzxxx( pvec, nhel, nsf, fi )` of `HelAmps_sm.h`, returning `fi`
(source assumptions: `FMASS == 0`, `PX == PY == 0` and `E == +PZ > 0`). -/
def ipzxxx (fpsqrt : K → K) (pvec : pvec_t K) (nhel nsf : Int) : wavefunction K :=
  let pvec3 : K := pvec 3
  let fi0 : cxtype K := cxmake (-pvec3 * (nsf : K)) (-pvec3 * (nsf : K))
  let fi1 : cxtype K := cxzero_sv
  let nh : Int := nhel * nsf
  let sqp0p3 : cxtype K := cxmake (fpsqrt (2 * pvec3) * (nsf : K)) 0
  let fi2 : cxtype K := fi1
  let fi5 : cxtype K := fi1
  if nh = 1 then ![fi0, fi1, fi2, fi1, sqp0p3, fi5]
  else ![fi0, fi1, fi2, sqp0p3, fi1, fi5]

/-- Wavefunction `imzxxx( pvec, nhel, nsf, fi )` of `HelAmps_sm.h`, returning `fi`
(source assumptions: `FMASS == 0`, `PX == PY == 0` and `E == -PZ > 0`). -/
def imzxxx (fpsqrt : K → K) (pvec : pvec_t K) (nhel nsf : Int) : wavefunction K :=
  let pvec3 : K := pvec 3
  let fi0 : cxtype K := cxmake (pvec3 * (nsf : K)) (-pvec3 * (nsf : K))
  let fi1 : cxtype K := cxzero_sv
  let nh : Int := nhel * nsf
  let chi : cxtype K := cxmake (-(nhel : K) * fpsqrt (-2 * pvec3)) 0
  let fi3 : cxtype K := cxzero_sv
  let fi4 : cxtype K := cxzero_sv
  if nh = 1 then ![fi0, fi1, cxzero_sv, fi3, fi4, chi]
  else ![fi0, fi1, chi, fi3, fi4, cxzero_sv]

/-- Wavefunction `ixzxxx( pvec, nhel, nsf, fi )` of `HelAmps_sm.h`, returning `fi`
(source assumptions: `FMASS == 0` and `PT > 0`). -/
def ixzxxx (fpsqrt : K → K) (pvec : pvec_t K) (nhel nsf : Int) : wavefunction K :=
  let pvec0 : K := pvec 0
  let pvec1 : K := pvec 1
  let pvec2 : K := pvec 2
  let pvec3 : K := pvec 3
  let fi0 : cxtype K := cxmake (-pvec0 * (nsf : K)) (-pvec3 * (nsf : K))
  let fi1 : cxtype K := cxmake (-pvec1 * (nsf : K)) (-pvec2 * (nsf : K))
  let nh : Int := nhel * nsf
  let sqp0p3 : K := fpsqrt (pvec0 + pvec3) * (nsf : K)
  let chi0 : cxtype K := cxmake sqp0p3 0
  let chi1 : cxtype K := cxmake ((nh : K) * pvec1 / sqp0p3) (pvec2 / sqp0p3)
  if nh = 1 then ![fi0, fi1, cxzero_sv, cxzero_sv, chi0, chi1]
  else ![fi0, fi1, chi1, chi0, cxzero_sv, cxzero_sv]

/-- Index `ip = -( ( 1 - nh ) / 2 ) * nhel` of the rest branch of `oxxxxx`. -/
def oxxxxx_ip (nh nhel : Int) : Int := -(Int.tdiv (1 - nh) 2) * nhel

/-- Index `im = ( 1 + nh ) / 2 * nhel` of the rest branch of `oxxxxx`. -/
def oxxxxx_im (nh nhel : Int) : Int := Int.tdiv (1 + nh) 2 * nhel

/-- Wavefunction `oxxxxx( pvec, fmass, nhel, nsf, fo )` of `HelAmps_sm.h`, returning `fo`;
conventions as for `ixxxxx`, `std::abs` of an `int` is `|.|`. -/
def oxxxxx (fpsqrt : K → K) (pvec : pvec_t K) (fmass : K) (nhel nsf : Int) : wavefunction K :=
  let pvec0 : K := pvec 0
  let pvec1 : K := pvec 1
  let pvec2 : K := pvec 2
  let pvec3 : K := pvec 3
  let fo0 : cxtype K := cxmake (pvec0 * (nsf : K)) (pvec3 * (nsf : K))
  let fo1 : cxtype K := cxmake (pvec1 * (nsf : K)) (pvec2 * (nsf : K))
  let nh : Int := nhel * nsf
  if fmass ≠ 0 then
    let pp : K := fpmin pvec0 (fpsqrt (pvec1 * pvec1 + pvec2 * pvec2 + pvec3 * pvec3))
    if pp = 0 then
      let sqm0 : K := fpsqrt |fmass|
      let sqm1 : K := if fmass < 0 then -sqm0 else sqm0
      let sqm : Int → K := arr2 sqm0 sqm1
      let ip : Int := oxxxxx_ip nh nhel
      let im : Int := oxxxxx_im nh nhel
      ![fo0, fo1,
        cxmake ((im : K) * sqm |ip|) 0,
        cxmake (((ip * nsf : Int) : K) * sqm |ip|) 0,
        cxmake (((im * nsf : Int) : K) * sqm |im|) 0,
        cxmake ((ip : K) * sqm |im|) 0]
    else
      let sf : Int → K := arr2
        (((1 + nsf + (1 - nsf) * nh : Int) : K) * (1 / 2))
        (((1 + nsf - (1 - nsf) * nh : Int) : K) * (1 / 2))
      let omega0 : K := fpsqrt (pvec0 + pp)
      let omega1 : K := fmass / omega0
      let omega : Int → K := arr2 omega0 omega1
      let ip : Int := ixxxxx_ip nh
      let im : Int := ixxxxx_im nh
      let sfomeg : Int → K := arr2 (sf 0 * omega ip) (sf 1 * omega im)
      let pp3 : K := fpmax (pp + pvec3) 0
      let chi : Int → cxtype K := arr2
        (cxmake (fpsqrt (pp3 * (1 / 2) / pp)) 0)
        (if pp3 = 0 then cxmake (-(nh : K)) 0
          else cxfpdiv (cxmake ((nh : K) * pvec1) (-pvec2)) (fpsqrt (2 * pp * pp3)))
      ![fo0, fo1,
        fpcxmul (sfomeg 1) (chi im),
        fpcxmul (sfomeg 1) (chi ip),
        fpcxmul (sfomeg 0) (chi im),
        fpcxmul (sfomeg 0) (chi ip)]
  else
    let sqp0p3 : K :=
      if pvec1 = 0 ∧ pvec2 = 0 ∧ pvec3 < 0 then 0
        else fpsqrt (fpmax (pvec0 + pvec3) 0) * (nsf : K)
    let chi0 : cxtype K := cxmake sqp0p3 0
    let chi1 : cxtype K :=
      if sqp0p3 = 0 then cxfpmul (cxmake (-(nhel : K)) 0) (fpsqrt (2 * pvec0))
        else cxfpdiv (cxmake ((nh : K) * pvec1) (-pvec2)) sqp0p3
    if nh = 1 then ![fo0, fo1, chi0, chi1, cxzero_sv, cxzero_sv]
    else ![fo0, fo1, cxzero_sv, cxzero_sv, chi1, chi0]

/-- Wavefunction `opzxxx( pvec, nhel, nsf, fo )` of `HelAmps_sm.h`, returning `fo`
(source assumptions: `FMASS == 0`, `PX == PY == 0` and `E == +PZ > 0`). -/
def opzxxx (fpsqrt : K → K) (pvec : pvec_t K) (nhel nsf : Int) : wavefunction K :=
  let pvec3 : K := pvec 3
  let fo0 : cxtype K := cxmake (pvec3 * (nsf : K)) (pvec3 * (nsf : K))
  let fo1 : cxtype K := cxzero_sv
  let nh : Int := nhel * nsf
  let csqp0p3 : cxtype K := cxmake (fpsqrt (2 * pvec3) * (nsf : K)) 0
  let fo3 : cxtype K := cxzero_sv
  let fo4 : cxtype K := cxzero_sv
  if nh = 1 then ![fo0, fo1, csqp0p3, fo3, fo4, cxzero_sv]
  else ![fo0, fo1, cxzero_sv, fo3, fo4, csqp0p3]

/-- Wavefunction `omzxxx( pvec, nhel, nsf, fo )` of `HelAmps_sm.h`, returning `fo`
(source assumptions: `FMASS == 0`, `PX == PY == 0` and `E == -PZ > 0`). -/
def omzxxx (fpsqrt : K → K) (pvec : pvec_t K) (nhel nsf : Int) : wavefunction K :=
  let pvec3 : K := pvec 3
  let fo0 : cxtype K := cxmake (-pvec3 * (nsf : K)) (pvec3 * (nsf : K))
  let fo1 : cxtype K := cxzero_sv
  let nh : Int := nhel * nsf
  let chi1 : cxtype K := cxfpmul (cxmake (-(nhel : K)) 0) (fpsqrt (-2 * pvec3))
  if nh = 1 then ![fo0, fo1, cxzero_sv, chi1, cxzero_sv, cxzero_sv]
  else ![fo0, fo1, cxzero_sv, cxzero_sv, chi1, cxzero_sv]

/-- Wavefunction `oxzxxx( pvec, nhel, nsf, fo )` of `HelAmps_sm.h`, returning `fo`
(source assumptions: `FMASS == 0` and `PT > 0`). -/
def oxzxxx (fpsqrt : K → K) (pvec : pvec_t K) (nhel nsf : Int) : wavefunction K :=
  let pvec0 : K := pvec 0
  let pvec1 : K := pvec 1
  let pvec2 : K := pvec 2
  let pvec3 : K := pvec 3
  let fo0 : cxtype K := cxmake (pvec0 * (nsf : K)) (pvec3 * (nsf : K))
  let fo1 : cxtype K := cxmake (pvec1 * (nsf : K)) (pvec2 * (nsf : K))
  let nh : Int := nhel * nsf
  let sqp0p3 : K := fpsqrt (pvec0 + pvec3) * (nsf : K)
  let chi0 : cxtype K := cxmake sqp0p3 0
  let chi1 : cxtype K := cxmake ((nh : K) * pvec1 / sqp0p3) (-pvec2 / sqp0p3)
  if nh = 1 then ![fo0, fo1, chi0, chi1, cxzero_sv, cxzero_sv]
  else ![fo0, fo1, cxzero_sv, cxzero_sv, chi1, chi0]

/-- Wavefunction `vxxxxx( pvec, vmass, nhel, nsv, vc )` of `HelAmps_sm.h`, returning `vc`;
`hel` is `nhel` as an `fptype`, `0.5` is `1 / 2`, and `nsvahl = nsv * std::abs( hel )` is the
integer `nsv * |nhel|`. -/
def vxxxxx (fpsqrt : K → K) (pvec : pvec_t K) (vmass : K) (nhel nsv : Int) : wavefunction K :=
  let sqh : K := fpsqrt (1 / 2)
  let hel : K := (nhel : K)
  let vc0 : cxtype K := cxmake (pvec 0 * (nsv : K)) (pvec 3 * (nsv : K))
  let vc1 : cxtype K := cxmake (pvec 1 * (nsv : K)) (pvec 2 * (nsv : K))
  if vmass ≠ 0 then
    let nsvahl : Int := nsv * |nhel|
    let pt2 : K := ( pvec 1 * pvec 1 ) + ( pvec 2 * pvec 2 )
    let pp : K := fpmin (pvec 0) (fpsqrt ( pt2 + ( pvec 3 * pvec 3 ) ))
    let pt : K := fpmin pp (fpsqrt pt2)
    let hel0 : K := 1 - |hel|
    if pp = 0 then
      ![vc0, vc1,
        cxmake 0 0,
        cxmake (-hel * sqh) 0,
        cxmake 0 ((nsvahl : K) * sqh),
        cxmake hel0 0]
    else
      let emp : K := pvec 0 / ( vmass * pp )
      let vc2 : cxtype K := cxmake (hel0 * pp / vmass) 0
      let vc5 : cxtype K := cxmake (hel0 * pvec 3 * emp + hel * pt / pp * sqh) 0
      if pt ≠ 0 then
        let pzpt : K := pvec 3 / ( pp * pt ) * sqh * hel
        ![vc0, vc1, vc2,
          cxmake (hel0 * pvec 1 * emp - pvec 1 * pzpt)
            (((-nsvahl : Int) : K) * pvec 2 / pt * sqh),
          cxmake (hel0 * pvec 2 * emp - pvec 2 * pzpt) ((nsvahl : K) * pvec 1 / pt * sqh),
          vc5]
      else
        ![vc0, vc1, vc2,
          cxmake (-hel * sqh) 0,
          cxmake 0 ((nsvahl : K) * (if pvec 3 < 0 then -sqh else sqh)),
          vc5]
  else
    let pp : K := pvec 0
    let pt : K := fpsqrt ( ( pvec 1 * pvec 1 ) + ( pvec 2 * pvec 2 ) )
    let vc2 : cxtype K := cxzero_sv
    let vc5 : cxtype K := cxmake (hel * pt / pp * sqh) 0
    if pt ≠ 0 then
      let pzpt : K := pvec 3 / ( pp * pt ) * sqh * hel
      ![vc0, vc1, vc2,
        cxmake (-pvec 1 * pzpt) (((-nsv : Int) : K) * pvec 2 / pt * sqh),
        cxmake (-pvec 2 * pzpt) ((nsv : K) * pvec 1 / pt * sqh),
        vc5]
    else
      ![vc0, vc1, vc2,
        cxmake (-hel * sqh) 0,
        cxmake 0 ((nsv : K) * (if pvec 3 < 0 then -sqh else sqh)),
        vc5]

/-- The divisor of the `denom` line shared by `FFV1P0_3`, `FFV2_3`, `FFV4_3` and `FFV2_4_3`:
`( P3[0] * P3[0] ) - ( P3[1] * P3[1] ) - ( P3[2] * P3[2] ) - ( P3[3] * P3[3] )
- M3 * ( M3 - cI * W3 )`, a real number minus a complex one. -/
def propagator_denominator (P3 : Fin 4 → K) (M3 W3 : K) : cxtype K :=
  let cI : cxtype K := cxmake 0 1
  fpcxsub ( ( P3 0 * P3 0 ) - ( P3 1 * P3 1 ) - ( P3 2 * P3 2 ) - ( P3 3 * P3 3 ) )
    ( fpcxmul M3 ( fpcxsub M3 ( cxfpmul cI W3 ) ) )

/-- Wavefunction `FFV1P0_3( F1, F2, COUP, M3, W3, V3 )` of `HelAmps_sm.h`, returning `V3`. -/
def FFV1P0_3 (F1 F2 : wavefunction K) (COUP : cxtype K) (M3 W3 : K) : wavefunction K :=
  let cI : cxtype K := cxmake 0 1
  let V3_0 : cxtype K := F1 0 + F2 0
  let V3_1 : cxtype K := F1 1 + F2 1
  let P3 : Fin 4 → K := ![-cxreal V3_0, -cxreal V3_1, -cximag V3_1, -cximag V3_0]
  let denom : cxtype K := COUP / propagator_denominator P3 M3 W3
  ![V3_0, V3_1,
    denom * (-cI) * ( F1 2 * F2 4 + F1 3 * F2 5 + F1 4 * F2 2 + F1 5 * F2 3 ),
    denom * (-cI) * ( -F1 2 * F2 5 - F1 3 * F2 4 + F1 4 * F2 3 + F1 5 * F2 2 ),
    denom * (-cI)
      * ( -cI * ( F1 2 * F2 5 + F1 5 * F2 2 ) + cI * ( F1 3 * F2 4 + F1 4 * F2 3 ) ),
    denom * (-cI) * ( -F1 2 * F2 4 - F1 5 * F2 3 + F1 3 * F2 5 + F1 4 * F2 2 )]

/-- Wavefunction `FFV2_3( F1, F2, COUP, M3, W3, V3 )` of `HelAmps_sm.h`, returning `V3`. -/
def FFV2_3 (F1 F2 : wavefunction K) (COUP : cxtype K) (M3 W3 : K) : wavefunction K :=
  let cI : cxtype K := cxmake 0 1
  let OM3 : K := if M3 ≠ 0 then 1 / ( M3 * M3 ) else 0
  let V3_0 : cxtype K := F1 0 + F2 0
  let V3_1 : cxtype K := F1 1 + F2 1
  let P3 : Fin 4 → K := ![-cxreal V3_0, -cxreal V3_1, -cximag V3_1, -cximag V3_0]
  let TMP2 : cxtype K :=
    ( F1 2 * ( cxfpmul (F2 4) ( P3 0 + P3 3 ) + F2 5 * ( fpcxadd (P3 1) (cxfpmul cI ( P3 2 )) ) )
      + F1 3 * ( F2 4 * ( fpcxsub (P3 1) (cxfpmul cI ( P3 2 )) )
        + cxfpmul (F2 5) ( P3 0 - P3 3 ) ) )
  let denom : cxtype K := COUP / propagator_denominator P3 M3 W3
  ![V3_0, V3_1,
    denom * (-cI) * ( F1 2 * F2 4 + F1 3 * F2 5 - fpcxmul (P3 0 * OM3) TMP2 ),
    denom * (-cI) * ( -F1 2 * F2 5 - F1 3 * F2 4 - fpcxmul (P3 1 * OM3) TMP2 ),
    denom * (-cI)
      * ( -cI * ( F1 2 * F2 5 ) + cI * ( F1 3 * F2 4 ) - fpcxmul (P3 2 * OM3) TMP2 ),
    denom * (-cI) * ( -F1 2 * F2 4 - fpcxmul (P3 3 * OM3) TMP2 + F1 3 * F2 5 )]

/-- Wavefunction `FFV4_3( F1, F2, COUP, M3, W3, V3 )` of `HelAmps_sm.h`, returning `V3`;
`two` and `half` are the `fptype` constants 2 and 1/2. -/
def FFV4_3 (F1 F2 : wavefunction K) (COUP : cxtype K) (M3 W3 : K) : wavefunction K :=
  let cI : cxtype K := cxmake 0 1
  let OM3 : K := if M3 ≠ 0 then 1 / ( M3 * M3 ) else 0
  let V3_0 : cxtype K := F1 0 + F2 0
  let V3_1 : cxtype K := F1 1 + F2 1
  let P3 : Fin 4 → K := ![-cxreal V3_0, -cxreal V3_1, -cximag V3_1, -cximag V3_0]
  let two : K := 2
  let half : K := 1 / 2
  let TMP2 : cxtype K :=
    ( F1 2 * ( cxfpmul (F2 4) ( P3 0 + P3 3 ) + F2 5 * ( fpcxadd (P3 1) (cxfpmul cI ( P3 2 )) ) )
      + F1 3 * ( F2 4 * ( fpcxsub (P3 1) (cxfpmul cI ( P3 2 )) )
        + cxfpmul (F2 5) ( P3 0 - P3 3 ) ) )
  let TMP5 : cxtype K :=
    ( F1 4 * ( cxfpmul (F2 2) ( P3 0 - P3 3 ) - F2 3 * ( fpcxadd (P3 1) (cxfpmul cI ( P3 2 )) ) )
      + F1 5 * ( F2 2 * ( fpcxadd (-P3 1) (cxfpmul cI ( P3 2 )) )
        + cxfpmul (F2 3) ( P3 0 + P3 3 ) ) )
  let denom : cxtype K := COUP / propagator_denominator P3 M3 W3
  ![V3_0, V3_1,
    denom * ( fpcxmul (-two) cI )
      * ( fpcxmul (OM3 * -half * P3 0) ( TMP2 + fpcxmul two ( TMP5 ) )
        + ( fpcxmul half ( F1 2 * F2 4 + F1 3 * F2 5 ) + F1 4 * F2 2 + F1 5 * F2 3 ) ),
    denom * ( fpcxmul (-two) cI )
      * ( fpcxmul (OM3 * -half * P3 1) ( TMP2 + fpcxmul two ( TMP5 ) )
        + ( fpcxmul (-half) ( F1 2 * F2 5 + F1 3 * F2 4 ) + F1 4 * F2 3 + F1 5 * F2 2 ) ),
    cxfpmul denom two * cI
      * ( fpcxmul (OM3 * half * P3 2) ( TMP2 + fpcxmul two ( TMP5 ) )
        + ( fpcxmul half cI * ( F1 2 * F2 5 ) - fpcxmul half cI * ( F1 3 * F2 4 )
          - cI * ( F1 4 * F2 3 ) + cI * ( F1 5 * F2 2 ) ) ),
    cxfpmul denom two * cI
      * ( fpcxmul (OM3 * half * P3 3) ( TMP2 + fpcxmul two ( TMP5 ) )
        + ( fpcxmul half ( F1 2 * F2 4 ) - fpcxmul half ( F1 3 * F2 5 ) - F1 4 * F2 2
          + F1 5 * F2 3 ) )]

/-- Wavefunction `FFV2_4_3( F1, F2, COUP1, COUP2, M3, W3, V3 )` of `HelAmps_sm.h`,
returning `V3`; `one`, `two` and `half` are the `fptype` constants 1, 2 and 1/2. -/
def FFV2_4_3 (F1 F2 : wavefunction K) (COUP1 COUP2 : cxtype K) (M3 W3 : K) :
    wavefunction K :=
  let cI : cxtype K := cxmake 0 1
  let OM3 : K := if M3 ≠ 0 then 1 / ( M3 * M3 ) else 0
  let V3_0 : cxtype K := F1 0 + F2 0
  let V3_1 : cxtype K := F1 1 + F2 1
  let P3 : Fin 4 → K := ![-cxreal V3_0, -cxreal V3_1, -cximag V3_1, -cximag V3_0]
  let one : K := 1
  let two : K := 2
  let half : K := 1 / 2
  let TMP2 : cxtype K :=
    ( F1 2 * ( cxfpmul (F2 4) ( P3 0 + P3 3 ) + F2 5 * ( fpcxadd (P3 1) (cxfpmul cI ( P3 2 )) ) )
      + F1 3 * ( F2 4 * ( fpcxsub (P3 1) (cxfpmul cI ( P3 2 )) )
        + cxfpmul (F2 5) ( P3 0 - P3 3 ) ) )
  let TMP5 : cxtype K :=
    ( F1 4 * ( cxfpmul (F2 2) ( P3 0 - P3 3 ) - F2 3 * ( fpcxadd (P3 1) (cxfpmul cI ( P3 2 )) ) )
      + F1 5 * ( F2 2 * ( fpcxadd (-P3 1) (cxfpmul cI ( P3 2 )) )
        + cxfpmul (F2 3) ( P3 0 + P3 3 ) ) )
  let denom : cxtype K := fpcxdiv one ( propagator_denominator P3 M3 W3 )
  ![V3_0, V3_1,
    denom * ( fpcxmul (-two) cI )
      * ( COUP2 * ( fpcxmul (OM3 * -half * P3 0) ( TMP2 + fpcxmul two ( TMP5 ) )
          + ( fpcxmul half ( F1 2 * F2 4 + F1 3 * F2 5 ) + F1 4 * F2 2 + F1 5 * F2 3 ) )
        + fpcxmul half
          ( COUP1 * ( F1 2 * F2 4 + F1 3 * F2 5 - fpcxmul (P3 0 * OM3) TMP2 ) ) ),
    denom * ( fpcxmul (-two) cI )
      * ( COUP2 * ( fpcxmul (OM3 * -half * P3 1) ( TMP2 + fpcxmul two ( TMP5 ) )
          + ( fpcxmul (-half) ( F1 2 * F2 5 + F1 3 * F2 4 ) + F1 4 * F2 3 + F1 5 * F2 2 ) )
        - fpcxmul half
          ( COUP1 * ( F1 2 * F2 5 + F1 3 * F2 4 + fpcxmul (P3 1 * OM3) TMP2 ) ) ),
    denom * cI
      * ( COUP2 * ( fpcxmul (OM3 * P3 2) ( TMP2 + fpcxmul two ( TMP5 ) )
          + ( cI * ( F1 2 * F2 5 ) - cI * ( F1 3 * F2 4 ) - fpcxmul two cI * ( F1 4 * F2 3 )
            + fpcxmul two cI * ( F1 5 * F2 2 ) ) )
        + COUP1 * ( cI * ( F1 2 * F2 5 ) - cI * ( F1 3 * F2 4 )
          + fpcxmul (P3 2 * OM3) TMP2 ) ),
    cxfpmul denom two * cI
      * ( COUP2 * ( fpcxmul (OM3 * half * P3 3) ( TMP2 + fpcxmul two ( TMP5 ) )
          + ( fpcxmul half ( F1 2 * F2 4 ) - fpcxmul half ( F1 3 * F2 5 ) - F1 4 * F2 2
            + F1 5 * F2 3 ) )
        + fpcxmul half
          ( COUP1 * ( F1 2 * F2 4 + fpcxmul (P3 3 * OM3) TMP2 - F1 3 * F2 5 ) ) )]

/-- Square root with a guard: no value when the argument is negative. -/
def sqrt_checked (fpsqrt : K → K) (x : K) : Option K :=
  if x < 0 then none else some (fpsqrt x)

/-- Quotient `a / b` of two `fptype` with a guard: no value when the divisor is zero. -/
def div_checked (a b : K) : Option K :=
  if b = 0 then none else some (a / b)

/-- Mixed quotient `operator/( cxtype a, fptype b )` with a guard: no value when the
divisor is zero. -/
def cxfpdiv_checked (a : cxtype K) (b : K) : Option (cxtype K) :=
  if b = 0 then none else some (cxfpdiv a b)

/-- Element `a[i]` of a two-element array with a guard: no value unless `i` is 0 or 1. -/
def arr2_checked {A : Type} (a0 a1 : A) (i : Int) : Option A :=
  if i = 0 then some a0 else if i = 1 then some a1 else none

/-- The routine `ixxxxx` with every partial operation guarded: each `fpsqrt` the source
evaluates (also in an operand that `fpternary` or `cxternary` then discards) goes through
`sqrt_checked`, each array access through `arr2_checked`, and each division whose quotient
enters the returned wavefunction through `div_checked` or `cxfpdiv_checked`. The quotient
`cxmake( nh * pvec(1), pvec(2) ) / sqp0p3` is an operand of `cxternary` and is selected
only when `sqp0p3 != 0`; when it is not selected it does not enter the returned value and
is not guarded. The result is `none` as soon as one guard fails. -/
def ixxxxx_checked (fpsqrt : K → K) (pvec : pvec_t K) (fmass : K) (nhel nsf : Int) :
    Option (wavefunction K) :=
  let fi0 : cxtype K := cxmake (-pvec 0 * (nsf : K)) (-pvec 3 * (nsf : K))
  let fi1 : cxtype K := cxmake (-pvec 1 * (nsf : K)) (-pvec 2 * (nsf : K))
  let nh : Int := nhel * nsf
  if fmass ≠ 0 then
    (sqrt_checked fpsqrt (pvec 1 * pvec 1 + pvec 2 * pvec 2 + pvec 3 * pvec 3)).bind fun p =>
    let pp : K := fpmin (pvec 0) p
    if pp = 0 then
      (sqrt_checked fpsqrt |fmass|).bind fun sqm0 =>
      let sqm1 : K := if fmass < 0 then -sqm0 else sqm0
      let ip : Int := ixxxxx_ip nh
      let im : Int := ixxxxx_im nh
      (arr2_checked sqm0 sqm1 ip).bind fun sqm_ip =>
      (arr2_checked sqm0 sqm1 im).bind fun sqm_im =>
      some ![fi0, fi1,
        cxmake ((ip : K) * sqm_ip) 0,
        cxmake (((im * nsf : Int) : K) * sqm_ip) 0,
        cxmake (((ip * nsf : Int) : K) * sqm_im) 0,
        cxmake ((im : K) * sqm_im) 0]
    else
      let sf0 : K := ((1 + nsf + (1 - nsf) * nh : Int) : K) * (1 / 2)
      let sf1 : K := ((1 + nsf - (1 - nsf) * nh : Int) : K) * (1 / 2)
      (sqrt_checked fpsqrt (pvec 0 + pp)).bind fun omega0 =>
      (div_checked fmass omega0).bind fun omega1 =>
      let ip : Int := ixxxxx_ip nh
      let im : Int := ixxxxx_im nh
      (arr2_checked omega0 omega1 ip).bind fun omega_ip =>
      (arr2_checked omega0 omega1 im).bind fun omega_im =>
      let sfomega0 : K := sf0 * omega_ip
      let sfomega1 : K := sf1 * omega_im
      let pp3 : K := fpmax (pp + pvec 3) 0
      (div_checked (pp3 * (1 / 2)) pp).bind fun q =>
      (sqrt_checked fpsqrt q).bind fun r =>
      let chi0 : cxtype K := cxmake r 0
      (if pp3 = 0 then some (cxmake (-(nh : K)) 0)
        else (sqrt_checked fpsqrt (2 * pp * pp3)).bind fun d =>
          cxfpdiv_checked (cxmake ((nh : K) * pvec 1) (pvec 2)) d).bind fun chi1 =>
      (arr2_checked chi0 chi1 im).bind fun chi_im =>
      (arr2_checked chi0 chi1 ip).bind fun chi_ip =>
      some ![fi0, fi1,
        fpcxmul sfomega0 chi_im,
        fpcxmul sfomega0 chi_ip,
        fpcxmul sfomega1 chi_im,
        fpcxmul sfomega1 chi_ip]
  else
    (sqrt_checked fpsqrt (fpmax (pvec 0 + pvec 3) 0)).bind fun s =>
    let sqp0p3 : K := if pvec 1 = 0 ∧ pvec 2 = 0 ∧ pvec 3 < 0 then 0 else s * (nsf : K)
    let chi0 : cxtype K := cxmake sqp0p3 0
    (sqrt_checked fpsqrt (2 * pvec 0)).bind fun t =>
    (if sqp0p3 = 0 then some (cxmake (-(nhel : K) * t) 0)
      else cxfpdiv_checked (cxmake ((nh : K) * pvec 1) (pvec 2)) sqp0p3).bind fun chi1 =>
    some (if nh = 1 then ![fi0, fi1, cxzero_sv, cxzero_sv, chi0, chi1]
      else ![fi0, fi1, chi1, chi0, cxzero_sv, cxzero_sv])

/-- The routine `vxxxxx` with every partial operation guarded: each `fpsqrt` the source
evaluates goes through `sqrt_checked` and each division through `div_checked`, in the order
of the source. The result is `none` as soon as one guard fails. -/
def vxxxxx_checked (fpsqrt : K → K) (pvec : pvec_t K) (vmass : K) (nhel nsv : Int) :
    Option (wavefunction K) :=
  match sqrt_checked fpsqrt (1 / 2) with
  | none => none
  | some sqh =>
  let hel : K := (nhel : K)
  let vc0 : cxtype K := cxmake (pvec 0 * (nsv : K)) (pvec 3 * (nsv : K))
  let vc1 : cxtype K := cxmake (pvec 1 * (nsv : K)) (pvec 2 * (nsv : K))
  if vmass ≠ 0 then
    let nsvahl : Int := nsv * |nhel|
    let pt2 : K := ( pvec 1 * pvec 1 ) + ( pvec 2 * pvec 2 )
    match sqrt_checked fpsqrt ( pt2 + ( pvec 3 * pvec 3 ) ) with
    | none => none
    | some p =>
    let pp : K := fpmin (pvec 0) p
    match sqrt_checked fpsqrt pt2 with
    | none => none
    | some q =>
    let pt : K := fpmin pp q
    let hel0 : K := 1 - |hel|
    if pp = 0 then
      some ![vc0, vc1,
        cxmake 0 0,
        cxmake (-hel * sqh) 0,
        cxmake 0 ((nsvahl : K) * sqh),
        cxmake hel0 0]
    else
      match div_checked (pvec 0) ( vmass * pp ) with
      | none => none
      | some emp =>
      match div_checked (hel0 * pp) vmass with
      | none => none
      | some vc2re =>
      let vc2 : cxtype K := cxmake vc2re 0
      match div_checked (hel * pt) pp with
      | none => none
      | some helptpp =>
      let vc5 : cxtype K := cxmake (hel0 * pvec 3 * emp + helptpp * sqh) 0
      if pt ≠ 0 then
        match div_checked (pvec 3) ( pp * pt ) with
        | none => none
        | some pzpp =>
        let pzpt : K := pzpp * sqh * hel
        match div_checked (((-nsvahl : Int) : K) * pvec 2) pt with
        | none => none
        | some vc3im =>
        match div_checked ((nsvahl : K) * pvec 1) pt with
        | none => none
        | some vc4im =>
        some ![vc0, vc1, vc2,
          cxmake (hel0 * pvec 1 * emp - pvec 1 * pzpt) (vc3im * sqh),
          cxmake (hel0 * pvec 2 * emp - pvec 2 * pzpt) (vc4im * sqh),
          vc5]
      else
        some ![vc0, vc1, vc2,
          cxmake (-hel * sqh) 0,
          cxmake 0 ((nsvahl : K) * (if pvec 3 < 0 then -sqh else sqh)),
          vc5]
  else
    let pp : K := pvec 0
    match sqrt_checked fpsqrt ( ( pvec 1 * pvec 1 ) + ( pvec 2 * pvec 2 ) ) with
    | none => none
    | some pt =>
    let vc2 : cxtype K := cxzero_sv
    match div_checked (hel * pt) pp with
    | none => none
    | some helptpp =>
    let vc5 : cxtype K := cxmake (helptpp * sqh) 0
    if pt ≠ 0 then
      match div_checked (pvec 3) ( pp * pt ) with
      | none => none
      | some pzpp =>
      let pzpt : K := pzpp * sqh * hel
      match div_checked (((-nsv : Int) : K) * pvec 2) pt with
      | none => none
      | some vc3im =>
      match div_checked ((nsv : K) * pvec 1) pt with
      | none => none
      | some vc4im =>
      some ![vc0, vc1, vc2,
        cxmake (-pvec 1 * pzpt) (vc3im * sqh),
        cxmake (-pvec 2 * pzpt) (vc4im * sqh),
        vc5]
    else
      some ![vc0, vc1, vc2,
        cxmake (-hel * sqh) 0,
        cxmake 0 ((nsv : K) * (if pvec 3 < 0 then -sqh else sqh)),
        vc5]

/-- The routines of `gg_tt/src/HelAmps_sm.h` called by `calculate_wavefunctions`, each
returning the array it fills: `vxxxxx(pvec, vmass, nhel, nsv)`, `oxxxxx(pvec, fmass, nhel, nsf)`,
`ixxxxx(pvec, fmass, nhel, nsf)`, `VVV1P0_1(V2, V3, COUP, M1, W1)`, `FFV1_0(F1, F2, V3, COUP)`,
`FFV1_1(F2, V3, COUP, M1, W1)` and `FFV1_2(F1, V3, COUP, M2, W2)`. -/
structure HelAmps_sm (K : Type) where
  vxxxxx : pvec_t K → K → Int → Int → wavefunction K
  oxxxxx : pvec_t K → K → Int → Int → wavefunction K
  ixxxxx : pvec_t K → K → Int → Int → wavefunction K
  VVV1P0_1 : wavefunction K → wavefunction K → cxtype K → K → K → wavefunction K
  FFV1_0 : wavefunction K → wavefunction K → wavefunction K → cxtype K → cxtype K
  FFV1_1 : wavefunction K → wavefunction K → cxtype K → K → K → wavefunction K
  FFV1_2 : wavefunction K → wavefunction K → cxtype K → K → K → wavefunction K

end HelAmps

/-! ## Diagram assembly and colour algebra (`calculate_wavefunctions`) -/

section Assembly

variable {K : Type} [LinearOrderedField K]

/-- The number of colours, `ncolor`. -/
abbrev ncolor : Nat := 2

/-- Colour-flow totals `jamp_sv[ncolor]` after the three diagrams of g g > t t~
(`calculate_wavefunctions`, lines 156-198). -/
def jamp_sv (H : HelAmps_sm K) (allmomenta : mom_t K) (cHel : hel_t) (cIPD cIPC : Nat → K) :
    Fin 2 → cxtype K :=
  let jamp0 : cxtype K := cxzero_sv
  let jamp1 : cxtype K := cxzero_sv
  -- *** DIAGRAM 1 OF 3 ***
  let w0 := H.vxxxxx (allmomenta 0) 0 (cHel 0) (-1)
  let w1 := H.vxxxxx (allmomenta 1) 0 (cHel 1) (-1)
  let w2 := H.oxxxxx (allmomenta 2) (cIPD 0) (cHel 2) 1
  let w3 := H.ixxxxx (allmomenta 3) (cIPD 0) (cHel 3) (-1)
  let w4 := H.VVV1P0_1 w0 w1 (cxmake (cIPC 0) (cIPC 1)) 0 0
  let amp := H.FFV1_0 w3 w2 w4 (cxmake (cIPC 2) (cIPC 3))
  let jamp0 := jamp0 + cxmake 0 1 * amp
  let jamp1 := jamp1 - cxmake 0 1 * amp
  -- *** DIAGRAM 2 OF 3 ***
  let w4 := H.FFV1_1 w2 w0 (cxmake (cIPC 2) (cIPC 3)) (cIPD 0) (cIPD 1)
  let amp := H.FFV1_0 w3 w4 w1 (cxmake (cIPC 2) (cIPC 3))
  let jamp0 := jamp0 - amp
  -- *** DIAGRAM 3 OF 3 ***
  let w4 := H.FFV1_2 w3 w0 (cxmake (cIPC 2) (cIPC 3)) (cIPD 0) (cIPD 1)
  let amp := H.FFV1_0 w4 w2 w1 (cxmake (cIPC 2) (cIPC 3))
  let jamp1 := jamp1 - amp
  ![jamp0, jamp1]

/-- The three values stored in turn into `amp_sv[0]` by `calculate_wavefunctions`: the
invariant amplitudes of diagrams 1, 2 and 3 (lines 167-197). -/
def amp_sv (H : HelAmps_sm K) (allmomenta : mom_t K) (cHel : hel_t) (cIPD cIPC : Nat → K) :
    Fin 3 → cxtype K :=
  let w0 := H.vxxxxx (allmomenta 0) 0 (cHel 0) (-1)
  let w1 := H.vxxxxx (allmomenta 1) 0 (cHel 1) (-1)
  let w2 := H.oxxxxx (allmomenta 2) (cIPD 0) (cHel 2) 1
  let w3 := H.ixxxxx (allmomenta 3) (cIPD 0) (cHel 3) (-1)
  let w4 := H.VVV1P0_1 w0 w1 (cxmake (cIPC 0) (cIPC 1)) 0 0
  let amp1 := H.FFV1_0 w3 w2 w4 (cxmake (cIPC 2) (cIPC 3))
  let w4 := H.FFV1_1 w2 w0 (cxmake (cIPC 2) (cIPC 3)) (cIPD 0) (cIPD 1)
  let amp2 := H.FFV1_0 w3 w4 w1 (cxmake (cIPC 2) (cIPC 3))
  let w4 := H.FFV1_2 w3 w0 (cxmake (cIPC 2) (cIPC 3)) (cIPD 0) (cIPD 1)
  let amp3 := H.FFV1_0 w4 w2 w1 (cxmake (cIPC 2) (cIPC 3))
  ![amp1, amp2, amp3]

/-- Colour denominators `denom[ncolor] = {3, 3}`. -/
def denom : Fin 2 → K := ![3, 3]

/-- Colour matrix `cf[ncolor][ncolor] = {{16, -2}, {-2, 16}}`. -/
def cf : Fin 2 → Fin 2 → K := ![![16, -2], ![-2, 16]]

/-- Row sum `ztemp_sv` of the colour algebra: the inner `jcol` loop. -/
def ztemp_sv (jamp : Fin 2 → cxtype K) (icol : Fin 2) : cxtype K :=
  (List.finRange ncolor).foldl (fun z jcol => z + fpcxmul (cf icol jcol) (jamp jcol)) cxzero_sv

/-- Contribution `deltaMEs` of one helicity configuration: the `icol` loop of the colour
algebra (`calculate_wavefunctions`, lines 203-218). -/
def deltaMEs (jamp : Fin 2 → cxtype K) : K :=
  (List.finRange ncolor).foldl
    (fun d icol => d + cxreal (ztemp_sv jamp icol * cxconj (jamp icol)) / denom icol) 0

/-- Body of `calculate_wavefunctions`: the new value of the accumulator `allMEs` (passed by
reference in the source) after `allMEs += deltaMEs`. -/
def calculate_wavefunctions (H : HelAmps_sm K) (allmomenta : mom_t K) (cHel : hel_t)
    (cIPD cIPC : Nat → K) (allMEs : K) : K :=
  allMEs + deltaMEs (jamp_sv H allmomenta cHel cIPD cIPC)

/-- Body of `calculate_wavefunctions` with the sum of `allMEs += deltaMEs` (line 229) formed
by `fpadd`, the addition of `fptype`, whose result is rounded. -/
def calculate_wavefunctions_rounded (fpadd : K → K → K) (H : HelAmps_sm K)
    (allmomenta : mom_t K) (cHel : hel_t) (cIPD cIPC : Nat → K) (allMEs : K) : K :=
  fpadd allMEs (deltaMEs (jamp_sv H allmomenta cHel cIPD cIPC))

end Assembly

/-! ## Helicity filter and evaluation harness (`sigmaKin_setup`, `sigmaKin`) -/

section Harness

variable {K : Type} [LinearOrderedField K]

/-- Sequential model of `Kokkos::parallel_for` over `TeamPolicy( league_size, team_size )`: the
body is run once for every `league_rank < league_size` and `team_rank < team_size`; it
receives `league_rank`, `team_size` and `team_rank` of its team member. -/
def parallel_for_team {S : Type} (league_size team_size : Nat)
    (body : Nat → Nat → Nat → S → S) (s : S) : S :=
  (List.range league_size).foldl
    (fun s league_rank =>
      (List.range team_size).foldl (fun s team_rank => body league_rank team_size team_rank s) s)
    s

/-- Event index of a team member:
`ievt = league_rank() * team_size() + team_rank()`. -/
def ievt_of (league_rank team_size team_rank : Nat) : Nat :=
  league_rank * team_size + team_rank

/-- The averaging denominator `denominators = 512` of `sigmaKin`. -/
def denominators : Nat := 512

/-- One iteration of the helicity loop of `sigmaKin` (lines 463-464) for event `ievt`. -/
def sigmaKin_hel_step (H : HelAmps_sm K) (local_mom : mom_t K) (cHel : Nat → hel_t)
    (cIPD cIPC : Nat → K) (iGoodHel : Nat → Nat) (ievt : Nat) (allMEs : Nat → K) (ighel : Nat) :
    Nat → K :=
  let local_cHel := cHel (iGoodHel ighel)
  Function.update allMEs ievt
    (calculate_wavefunctions H local_mom local_cHel cIPD cIPC (allMEs ievt))

/-- The lambda of `sigmaKin` for one event (lines 451-471): zero the slot, run the loop over
the `nGoodHel(0)` cached good helicities, divide by `denominators`. -/
def sigmaKin_event (H : HelAmps_sm K) (momenta : Nat → mom_t K) (cHel : Nat → hel_t)
    (cIPD cIPC : Nat → K) (iGoodHel : Nat → Nat) (nGoodHel : Nat) (ievt : Nat)
    (allMEs : Nat → K) : Nat → K :=
  let allMEs := Function.update allMEs ievt 0
  let local_mom := momenta ievt
  let allMEs :=
    (List.range nGoodHel).foldl (sigmaKin_hel_step H local_mom cHel cIPD cIPC iGoodHel ievt) allMEs
  Function.update allMEs ievt (allMEs ievt / (denominators : K))

/-- The kernel `sigmaKin`: the new content of the output view `allMEs`.  (The argument
`ncomb` of the source is not used by its body.) -/
def sigmaKin (H : HelAmps_sm K) (momenta : Nat → mom_t K) (allMEs : Nat → K)
    (cHel : Nat → hel_t) (cIPD cIPC : Nat → K) (iGoodHel : Nat → Nat) (nGoodHel : Nat)
    (league_size team_size : Nat) : Nat → K :=
  parallel_for_team league_size team_size
    (fun league_rank team_size team_rank allMEs =>
      sigmaKin_event H momenta cHel cIPD cIPC iGoodHel nGoodHel
        (ievt_of league_rank team_size team_rank) allMEs)
    allMEs

/-- State threaded through the helicity loop of `sigmaKin_setup`: the output view, the view
`isGoodHel` and the local variable `allMEsLast`. -/
structure SetupLoopState (K : Type) where
  allMEs : Nat → K
  isGoodHel : Nat → Int
  allMEsLast : K

/-- One iteration of the helicity loop of `sigmaKin_setup` (lines 413-419) for event `ievt`. -/
def sigmaKin_setup_hel_step (H : HelAmps_sm K) (local_mom : mom_t K) (cHel : Nat → hel_t)
    (cIPD cIPC : Nat → K) (ievt : Nat) (s : SetupLoopState K) (ihel : Nat) : SetupLoopState K :=
  let local_cHel := cHel ihel
  let allMEs := Function.update s.allMEs ievt
    (calculate_wavefunctions H local_mom local_cHel cIPD cIPC (s.allMEs ievt))
  let isGoodHel :=
    if allMEs ievt ≠ s.allMEsLast then Function.update s.isGoodHel ihel 1 else s.isGoodHel
  { allMEs := allMEs, isGoodHel := isGoodHel, allMEsLast := allMEs ievt }

/-- The first lambda of `sigmaKin_setup` for one event (lines 407-420), acting on the pair
(output view, `isGoodHel`): `allMEsLast` starts at 0 and every helicity `ihel < ncomb` is
evaluated in index order. -/
def sigmaKin_setup_event (H : HelAmps_sm K) (momenta : Nat → mom_t K) (cHel : Nat → hel_t)
    (cIPD cIPC : Nat → K) (ncomb : Nat) (ievt : Nat) (s : (Nat → K) × (Nat → Int)) :
    (Nat → K) × (Nat → Int) :=
  let local_mom := momenta ievt
  let r := (List.range ncomb).foldl (sigmaKin_setup_hel_step H local_mom cHel cIPD cIPC ievt)
    { allMEs := s.1, isGoodHel := s.2, allMEsLast := 0 }
  (r.allMEs, r.isGoodHel)

/-- First kernel of `sigmaKin_setup` (lines 401-421): `isGoodHel` is a fresh view, which
Kokkos initialises to zero; the result is the output view and the marks `isGoodHel`. -/
def sigmaKin_setup_marks (H : HelAmps_sm K) (momenta : Nat → mom_t K) (allMEs : Nat → K)
    (cHel : Nat → hel_t) (cIPD cIPC : Nat → K) (ncomb league_size team_size : Nat) :
    (Nat → K) × (Nat → Int) :=
  parallel_for_team league_size team_size
    (fun league_rank team_size team_rank s =>
      sigmaKin_setup_event H momenta cHel cIPD cIPC ncomb
        (ievt_of league_rank team_size team_rank) s)
    (allMEs, fun _ => 0)

/-- One iteration of the compaction loop of `sigmaKin_setup` (lines 427-430) on the pair
(`iGoodHel`, `nGoodHel(0)`). -/
def sigmaKin_setup_compact_step (isGoodHel : Nat → Int) (s : (Nat → Nat) × Nat) (ihel : Nat) :
    (Nat → Nat) × Nat :=
  if isGoodHel ihel ≠ 0 then (Function.update s.1 s.2 ihel, s.2 + 1) else s

/-- Second kernel of `sigmaKin_setup` (lines 423-433): a single work item running the
compaction loop over `ihel < ncomb`. -/
def sigmaKin_setup_compact (isGoodHel : Nat → Int) (ncomb : Nat) (iGoodHel : Nat → Nat)
    (nGoodHel : Nat) : (Nat → Nat) × Nat :=
  (List.range ncomb).foldl (sigmaKin_setup_compact_step isGoodHel) (iGoodHel, nGoodHel)

/-- Result of `sigmaKin_setup`: the views it writes. -/
structure SetupResult (K : Type) where
  allMEs : Nat → K
  iGoodHel : Nat → Nat
  nGoodHel : Nat

/-- The function `sigmaKin_setup`: both kernels in sequence. -/
def sigmaKin_setup (H : HelAmps_sm K) (momenta : Nat → mom_t K) (allMEs : Nat → K)
    (cHel : Nat → hel_t) (cIPD cIPC : Nat → K) (iGoodHel : Nat → Nat) (nGoodHel : Nat)
    (ncomb league_size team_size : Nat) : SetupResult K :=
  let m := sigmaKin_setup_marks H momenta allMEs cHel cIPD cIPC ncomb league_size team_size
  let c := sigmaKin_setup_compact m.2 ncomb iGoodHel nGoodHel
  { allMEs := m.1, iGoodHel := c.1, nGoodHel := c.2 }

/-- One iteration of the helicity loop of `sigmaKin_setup` (lines 413-419) for event `ievt`,
the accumulation using the addition `fpadd`. -/
def sigmaKin_setup_hel_step_rounded (fpadd : K → K → K) (H : HelAmps_sm K)
    (local_mom : mom_t K) (cHel : Nat → hel_t) (cIPD cIPC : Nat → K) (ievt : Nat)
    (s : SetupLoopState K) (ihel : Nat) : SetupLoopState K :=
  let local_cHel := cHel ihel
  let allMEs := Function.update s.allMEs ievt
    (calculate_wavefunctions_rounded fpadd H local_mom local_cHel cIPD cIPC (s.allMEs ievt))
  let isGoodHel :=
    if allMEs ievt ≠ s.allMEsLast then Function.update s.isGoodHel ihel 1 else s.isGoodHel
  { allMEs := allMEs, isGoodHel := isGoodHel, allMEsLast := allMEs ievt }

/-- The first lambda of `sigmaKin_setup` for one event (lines 407-420), the accumulation
using the addition `fpadd`. -/
def sigmaKin_setup_event_rounded (fpadd : K → K → K) (H : HelAmps_sm K)
    (momenta : Nat → mom_t K) (cHel : Nat → hel_t) (cIPD cIPC : Nat → K) (ncomb : Nat)
    (ievt : Nat) (s : (Nat → K) × (Nat → Int)) : (Nat → K) × (Nat → Int) :=
  let local_mom := momenta ievt
  let r := (List.range ncomb).foldl
    (sigmaKin_setup_hel_step_rounded fpadd H local_mom cHel cIPD cIPC ievt)
    { allMEs := s.1, isGoodHel := s.2, allMEsLast := 0 }
  (r.allMEs, r.isGoodHel)

/-- First kernel of `sigmaKin_setup` (lines 401-421), the accumulation using the addition
`fpadd`. -/
def sigmaKin_setup_marks_rounded (fpadd : K → K → K) (H : HelAmps_sm K)
    (momenta : Nat → mom_t K) (allMEs : Nat → K) (cHel : Nat → hel_t) (cIPD cIPC : Nat → K)
    (ncomb league_size team_size : Nat) : (Nat → K) × (Nat → Int) :=
  parallel_for_team league_size team_size
    (fun league_rank team_size team_rank s =>
      sigmaKin_setup_event_rounded fpadd H momenta cHel cIPD cIPC ncomb
        (ievt_of league_rank team_size team_rank) s)
    (allMEs, fun _ => 0)

/-- The function `sigmaKin_setup`, both kernels in sequence, the accumulation using the
addition `fpadd`. -/
def sigmaKin_setup_rounded (fpadd : K → K → K) (H : HelAmps_sm K) (momenta : Nat → mom_t K)
    (allMEs : Nat → K) (cHel : Nat → hel_t) (cIPD cIPC : Nat → K) (iGoodHel : Nat → Nat)
    (nGoodHel : Nat) (ncomb league_size team_size : Nat) : SetupResult K :=
  let m := sigmaKin_setup_marks_rounded fpadd H momenta allMEs cHel cIPD cIPC ncomb league_size
    team_size
  let c := sigmaKin_setup_compact m.2 ncomb iGoodHel nGoodHel
  { allMEs := m.1, iGoodHel := c.1, nGoodHel := c.2 }

end Harness

/-! ## Quantities the statements speak about -/

section Quantities

variable {K : Type} [LinearOrderedField K]

/-- Contribution of the helicity row `hel` for the momenta `local_mom`: the `deltaMEs` that
`calculate_wavefunctions` computes from its colour-flow totals. -/
def contribution (H : HelAmps_sm K) (local_mom : mom_t K) (hel : hel_t) (cIPD cIPC : Nat → K) :
    K :=
  deltaMEs (jamp_sv H local_mom hel cIPD cIPC)

/-- Accumulator of one event after the first `n` helicity configurations have been
evaluated on it by `calculate_wavefunctions`, starting from the value `a`. -/
def accumulator (H : HelAmps_sm K) (local_mom : mom_t K) (cHel : Nat → hel_t)
    (cIPD cIPC : Nat → K) (a : K) (n : Nat) : K :=
  (List.range n).foldl
    (fun acc ihel => calculate_wavefunctions H local_mom (cHel ihel) cIPD cIPC acc) a

/-- Value of the local variable `allMEsLast` of `sigmaKin_setup` when helicity `ihel` is
compared: 0 before the first configuration, the accumulator left by the previous
configuration afterwards. -/
def allMEsLast_at (H : HelAmps_sm K) (local_mom : mom_t K) (cHel : Nat → hel_t)
    (cIPD cIPC : Nat → K) (a : K) (ihel : Nat) : K :=
  if ihel = 0 then 0 else accumulator H local_mom cHel cIPD cIPC a ihel

/-- The test `allMEs[ievt] != allMEsLast` of `sigmaKin_setup` succeeds for event `ievt` at
helicity `ihel`, the output view holding `allMEs` on entry. -/
def marks_event (H : HelAmps_sm K) (momenta : Nat → mom_t K) (allMEs : Nat → K)
    (cHel : Nat → hel_t) (cIPD cIPC : Nat → K) (ievt ihel : Nat) : Prop :=
  accumulator H (momenta ievt) cHel cIPD cIPC (allMEs ievt) (ihel + 1)
    ≠ allMEsLast_at H (momenta ievt) cHel cIPD cIPC (allMEs ievt) ihel

/-- Helicity sum of one event over the cached list, divided by the averaging denominator. -/
def sigmaKin_value (H : HelAmps_sm K) (local_mom : mom_t K) (cHel : Nat → hel_t)
    (cIPD cIPC : Nat → K) (iGoodHel : Nat → Nat) (nGoodHel : Nat) : K :=
  ((List.range nGoodHel).map
      (fun k => contribution H local_mom (cHel (iGoodHel k)) cIPD cIPC)).sum / 512

/-- Entry `chi[0]` of the moving massive branch of `ixxxxx` when `pp` is the energy and
`pp3 = E + pz`. -/
def ixxxxx_chi0 (fpsqrt : K → K) (pvec : pvec_t K) : cxtype K :=
  cxmake (fpsqrt ((pvec 0 + pvec 3) * (1 / 2) / pvec 0)) 0

/-- Entry `chi[1]` of the moving massive branch of `ixxxxx` when `pp` is the energy and
`pp3 = E + pz`. -/
def ixxxxx_chi1 (fpsqrt : K → K) (pvec : pvec_t K) (nh : Int) : cxtype K :=
  if pvec 0 + pvec 3 = 0 then cxmake (-(nh : K)) 0
    else cxfpdiv (cxmake ((nh : K) * pvec 1) (pvec 2)) (fpsqrt (2 * pvec 0 * (pvec 0 + pvec 3)))

/-- The full colour contraction as a complex number: the sum over `icol` and `jcol` of
`cf[icol][jcol] * jamp[jcol] * conj( jamp[icol] ) / denom[icol]`, the quantity of which the
colour algebra of `calculate_wavefunctions` accumulates the real part term by term. -/
def colour_contraction (jamp : Fin 2 → cxtype K) : cxtype K :=
  (List.finRange ncolor).foldl
    (fun s icol => (List.finRange ncolor).foldl
      (fun s jcol =>
        s + cxfpdiv (fpcxmul (cf icol jcol) (jamp jcol) * cxconj (jamp icol)) (denom icol))
      s)
    cxzero_sv

/-- Accumulator of one event after the first `n` helicity configurations have been
evaluated on it with the addition `fpadd`, starting from the value `a`. -/
def accumulator_rounded (fpadd : K → K → K) (H : HelAmps_sm K) (local_mom : mom_t K)
    (cHel : Nat → hel_t) (cIPD cIPC : Nat → K) (a : K) (n : Nat) : K :=
  (List.range n).foldl
    (fun acc ihel => calculate_wavefunctions_rounded fpadd H local_mom (cHel ihel) cIPD cIPC acc)
    a

/-- Value of `allMEsLast` when helicity `ihel` is compared, the accumulation using the
addition `fpadd`. -/
def allMEsLast_at_rounded (fpadd : K → K → K) (H : HelAmps_sm K) (local_mom : mom_t K)
    (cHel : Nat → hel_t) (cIPD cIPC : Nat → K) (a : K) (ihel : Nat) : K :=
  if ihel = 0 then 0 else accumulator_rounded fpadd H local_mom cHel cIPD cIPC a ihel

/-- The test `allMEs[ievt] != allMEsLast` succeeds for event `ievt` at helicity `ihel`, the
accumulation using the addition `fpadd`. -/
def marks_event_rounded (fpadd : K → K → K) (H : HelAmps_sm K) (momenta : Nat → mom_t K)
    (allMEs : Nat → K) (cHel : Nat → hel_t) (cIPD cIPC : Nat → K) (ievt ihel : Nat) : Prop :=
  accumulator_rounded fpadd H (momenta ievt) cHel cIPD cIPC (allMEs ievt) (ihel + 1)
    ≠ allMEsLast_at_rounded fpadd H (momenta ievt) cHel cIPD cIPC (allMEs ievt) ihel

end Quantities

/-! ## Concrete data for evaluation -/

section Data

/-- The helicity table `tHel[ncomb][nexternal]` of the `CPPProcess` constructor. -/
def tHel : List (List Int) :=
  [ [-1, -1, -1, -1], [-1, -1, -1, 1], [-1, -1, 1, -1], [-1, -1, 1, 1],
    [-1, 1, -1, -1], [-1, 1, -1, 1], [-1, 1, 1, -1], [-1, 1, 1, 1],
    [1, -1, -1, -1], [1, -1, -1, 1], [1, -1, 1, -1], [1, -1, 1, 1],
    [1, 1, -1, -1], [1, 1, -1, 1], [1, 1, 1, -1], [1, 1, 1, 1] ]

/-- The view `cHel(i, j) = tHel[i][j]` as copied by the constructor. -/
def cHel_view : Nat → hel_t := fun i j => (tHel.getD i []).getD j 0

/-- Rational stand-ins for the routines of `gg_tt/src/HelAmps_sm.h` other than `FFV1_0`,
used to evaluate the harness on concrete data; `FFV1_0` is the routine of the source. -/
def amps_example : HelAmps_sm ℚ where
  vxxxxx p _ nhel nsv := fun _ => cxmake (p 0 + nhel) (p 3 * nsv)
  oxxxxx p fmass nhel nsf := fun _ => cxmake (p 0 + fmass) (nhel * nsf)
  ixxxxx p fmass nhel nsf := fun _ => cxmake ((1 + nhel) * p 0) ((1 + nhel) * fmass * nsf)
  VVV1P0_1 V2 V3 COUP _ _ := fun i => COUP * (V2 i + V3 i)
  FFV1_0 := FFV1_0
  FFV1_1 F2 V3 COUP _ _ := fun i => COUP * F2 i * V3 i
  FFV1_2 F1 V3 COUP _ _ := fun i => COUP * F1 i * V3 i

/-- Momenta of a small batch: component `i` of particle `ipar` of event `ievt`. -/
def momenta_example : Nat → mom_t ℚ := fun ievt ipar i => (ievt + 1 : ℚ) / (ipar + 2) + i

/-- Mass and width constants `cIPD`. -/
def cIPD_example : Nat → ℚ := fun i => if i = 0 then 2 else 1 / 2

/-- Coupling constants `cIPC` (real and imaginary parts of two couplings). -/
def cIPC_example : Nat → ℚ := fun i => if i = 1 then -1 else if i = 2 then 1 / 4 else 0

/-- Identity list of good helicities. -/
def iGoodHel_id : Nat → Nat := fun k => k

/-- The list 1, 0, 2, 3, ...: the identity list with its first two entries exchanged. -/
def iGoodHel_swap : Nat → Nat := fun k => if k = 0 then 1 else if k = 1 then 0 else k

/-- A massless momentum along +z: `E = pz = 2`, `px = py = 0`. -/
def pvec_along_z {K : Type} [LinearOrderedField K] : pvec_t K :=
  fun i => if i = 0 then 2 else if i = 3 then 2 else 0

/-- A massless momentum along -z: `E = 2`, `pz = -2`, `px = py = 0`. -/
def pvec_along_minus_z {K : Type} [LinearOrderedField K] : pvec_t K :=
  fun i => if i = 0 then 2 else if i = 3 then -2 else 0

/-- A massless momentum with transverse part: `E = 5`, `px = 3`, `py = 0`, `pz = 4`. -/
def pvec_transverse {K : Type} [LinearOrderedField K] : pvec_t K :=
  fun i => if i = 0 then 5 else if i = 1 then 3 else if i = 3 then 4 else 0

/-- An on-shell momentum of a particle of mass 4: `E = 5`, `px = 0`, `py = 3`, `pz = 0`. -/
def pvec_massive {K : Type} [LinearOrderedField K] : pvec_t K :=
  fun i => if i = 0 then 5 else if i = 2 then 3 else 0

/-- A fermion wavefunction with rational components. -/
def F1_example : wavefunction ℚ := fun k => cxmake ((k : Nat) + 1 : ℚ) (2 - (k : Nat) : ℚ)

/-- A second fermion wavefunction with rational components. -/
def F2_example : wavefunction ℚ := fun k => cxmake (3 - (k : Nat) : ℚ) ((k : Nat) * 2 + 1 : ℚ)

/-- A vector wavefunction with rational components. -/
def V3_example : wavefunction ℚ := fun k => cxmake ((k : Nat) * (k : Nat) : ℚ) (1 / 2 : ℚ)

/-- An addition that absorbs small addends: the sum is `a` when `|d| * 2^54 < |a|`, as it is
for the round-to-nearest addition of IEEE binary64 (then `|d|` is below half a unit in the
last place of `a`), and the exact sum otherwise. -/
def fpadd_absorbing (a d : ℚ) : ℚ := if |d| * 2 ^ 54 < |a| then a else a + d

/-- Momenta of a probe event on which the rows with `cHel[ihel][0] = +1` contribute about
`2^-62` of what the rows with `cHel[ihel][0] = -1` do: particle 0 has `(-1, 0, 0, 2^-30)`,
the others `(2, 0, 0, 0)`. -/
def momenta_absorb : Nat → mom_t ℚ := fun _ ipar i =>
  if ipar = 0 then (if i = 0 then -1 else if i = 3 then 1 / 2 ^ 30 else 0)
  else (if i = 0 then 2 else 0)

/-- Coupling constants `cIPC` with the first coupling 0 and the second 1. -/
def cIPC_absorb : Nat → ℚ := fun i => if i = 2 then 1 else 0

/-- The null momentum: `E = px = py = pz = 0`. -/
def pvec_null {K : Type} [LinearOrderedField K] : pvec_t K := fun _ => 0

end Data

/-! ## Auxiliary lemmas -/

section ListLemmas

theorem foldl_range_add {S : Type} (g : S → Nat → S) (a b : Nat) (s : S) :
    (List.range (a + b)).foldl g s
      = (List.range b).foldl (fun s i => g s (a + i)) ((List.range a).foldl g s) := by
  rw [List.range_add, List.foldl_append, List.foldl_map]

theorem parallel_for_team_eq {S : Type} (league_size team_size : Nat) (f : Nat → S → S) (s : S) :
    parallel_for_team league_size team_size
        (fun league_rank team_size team_rank s => f (ievt_of league_rank team_size team_rank) s) s
      = (List.range (league_size * team_size)).foldl (fun s ievt => f ievt s) s := by
  unfold parallel_for_team
  induction league_size with
  | zero => simp
  | succ n ih =>
    rw [List.range_succ, List.foldl_append, ih, Nat.succ_mul, foldl_range_add]
    simp [ievt_of]

theorem foldl_update_range {A : Type} (V : Nat → A) (n : Nat) (s : Nat → A) :
    (List.range n).foldl (fun s i => Function.update s i (V i)) s
      = fun j => if j < n then V j else s j := by
  induction n with
  | zero => simp
  | succ n ih =>
    rw [List.range_succ, List.foldl_append, ih]
    funext j
    simp only [List.foldl_cons, List.foldl_nil, Function.update_apply]
    by_cases h1 : j = n
    · subst h1; simp
    · by_cases h2 : j < n
      · have : j < n + 1 := by omega
        simp [h1, h2, this]
      · have : ¬ j < n + 1 := by omega
        simp [h1, h2, this]


theorem sigmaKin_setup_compact_eq (isGoodHel : Nat → Int) (ncomb : Nat) (iGoodHel : Nat → Nat)
    (nGoodHel : Nat) :
    let c := sigmaKin_setup_compact isGoodHel ncomb iGoodHel nGoodHel
    (List.range c.2).map c.1
        = (List.range nGoodHel).map iGoodHel
          ++ (List.range ncomb).filter (fun ihel => decide (isGoodHel ihel ≠ 0))
    ∧ c.2 = nGoodHel + ((List.range ncomb).filter (fun ihel => decide (isGoodHel ihel ≠ 0))).length := by
  unfold sigmaKin_setup_compact
  induction ncomb with
  | zero => simp
  | succ n ih =>
    obtain ⟨h1, h2⟩ := ih
    simp only [List.range_succ, List.foldl_append, List.foldl_cons, List.foldl_nil,
      List.filter_append]
    generalize (List.range n).foldl (sigmaKin_setup_compact_step isGoodHel)
      (iGoodHel, nGoodHel) = c at h1 h2
    obtain ⟨I, m⟩ := c
    simp only at h1 h2
    by_cases hg : isGoodHel n ≠ 0
    · have hstep : sigmaKin_setup_compact_step isGoodHel (I, m) n
          = (Function.update I m n, m + 1) := by
        simp [sigmaKin_setup_compact_step, hg]
      rw [hstep]
      simp only [List.range_succ, List.map_append, List.map_cons, List.map_nil,
        Function.update_same]
      have hmap : (List.range m).map (Function.update I m n) = (List.range m).map I := by
        apply List.map_congr_left
        intro k hk
        have : k ≠ m := by
          have := List.mem_range.mp hk
          omega
        rw [Function.update_noteq this]
      rw [hmap, h1, h2]
      simp [hg, List.filter_cons, Nat.add_assoc]
    · have hstep : sigmaKin_setup_compact_step isGoodHel (I, m) n = (I, m) := by
        simp [sigmaKin_setup_compact_step, hg]
      have hf : List.filter (fun ihel => decide (isGoodHel ihel ≠ 0)) [n] = [] := by
        simp [List.filter_cons, hg]
      rw [hstep, hf, List.append_nil]
      exact ⟨h1, h2⟩



end ListLemmas

section ComplexLemmas

variable {K : Type} [LinearOrderedField K]

theorem cxtype.add_re (a b : cxtype K) : (a + b).re = a.re + b.re := rfl
theorem cxtype.add_im (a b : cxtype K) : (a + b).im = a.im + b.im := rfl
theorem cxtype.sub_re (a b : cxtype K) : (a - b).re = a.re - b.re := rfl
theorem cxtype.sub_im (a b : cxtype K) : (a - b).im = a.im - b.im := rfl
theorem cxtype.mul_re (a b : cxtype K) : (a * b).re = a.re * b.re - a.im * b.im := rfl
theorem cxtype.mul_im (a b : cxtype K) : (a * b).im = a.re * b.im + a.im * b.re := rfl
theorem cxtype.neg_re (a : cxtype K) : (-a).re = -a.re := rfl
theorem cxtype.neg_im (a : cxtype K) : (-a).im = -a.im := rfl
theorem cxtype.zero_re : (0 : cxtype K).re = 0 := rfl
theorem cxtype.zero_im : (0 : cxtype K).im = 0 := rfl
theorem cxmake_re (r i : K) : (cxmake r i).re = r := rfl
theorem cxmake_im (r i : K) : (cxmake r i).im = i := rfl
theorem cxzero_sv_re : (cxzero_sv : cxtype K).re = 0 := rfl
theorem cxzero_sv_im : (cxzero_sv : cxtype K).im = 0 := rfl


end ComplexLemmas

section ColourLemmas

variable {K : Type} [LinearOrderedField K]

theorem finRange_ncolor : List.finRange ncolor = [(0 : Fin 2), 1] := by decide

theorem deltaMEs_eq (jamp : Fin 2 → cxtype K) :
    deltaMEs jamp =
      (16 * ((jamp 0).re ^ 2 + (jamp 0).im ^ 2) + 16 * ((jamp 1).re ^ 2 + (jamp 1).im ^ 2)
        - 4 * ((jamp 0).re * (jamp 1).re + (jamp 0).im * (jamp 1).im)) / 3 := by
  simp only [deltaMEs, ztemp_sv, finRange_ncolor, List.foldl_cons, List.foldl_nil, fpcxmul,
    cf, denom, cxreal, cximag, cxconj, Matrix.cons_val_zero,
    Matrix.cons_val_one, Matrix.head_cons, cxtype.add_re, cxtype.add_im, cxtype.mul_re,
    cxtype.mul_im, cxmake_re, cxmake_im, cxzero_sv_re, cxzero_sv_im]
  ring

theorem deltaMEs_nonneg (jamp : Fin 2 → cxtype K) : 0 ≤ deltaMEs jamp := by
  rw [deltaMEs_eq]
  apply div_nonneg _ (by norm_num)
  nlinarith [sq_nonneg ((jamp 0).re - (jamp 1).re), sq_nonneg ((jamp 0).im - (jamp 1).im),
    sq_nonneg (jamp 0).re, sq_nonneg (jamp 0).im, sq_nonneg (jamp 1).re, sq_nonneg (jamp 1).im]

theorem cxtype.eq_zero_iff (c : cxtype K) : c = 0 ↔ c.re = 0 ∧ c.im = 0 := by
  constructor
  · rintro rfl; exact ⟨rfl, rfl⟩
  · rintro ⟨h1, h2⟩
    cases c
    simp only at h1 h2
    subst h1 h2
    rfl

theorem colour_form_eq_zero (x y u v : K)
    (h : 16 * (x ^ 2 + y ^ 2) + 16 * (u ^ 2 + v ^ 2) - 4 * (x * u + y * v) = 0) :
    (x = 0 ∧ y = 0) ∧ (u = 0 ∧ v = 0) := by
  have hx := sq_nonneg x
  have hy := sq_nonneg y
  have hu := sq_nonneg u
  have hv := sq_nonneg v
  have h1 := sq_nonneg (x - u)
  have h2 := sq_nonneg (y - v)
  have e : 16 * (x ^ 2 + y ^ 2) + 16 * (u ^ 2 + v ^ 2) - 4 * (x * u + y * v)
      = 14 * (x ^ 2 + y ^ 2 + u ^ 2 + v ^ 2) + 2 * ((x - u) ^ 2 + (y - v) ^ 2) := by ring
  rw [e] at h
  have ex : x ^ 2 = 0 := by linarith
  have ey : y ^ 2 = 0 := by linarith
  have eu : u ^ 2 = 0 := by linarith
  have ev : v ^ 2 = 0 := by linarith
  have two : (2 : Nat) ≠ 0 := by decide
  exact ⟨⟨(pow_eq_zero_iff two).mp ex, (pow_eq_zero_iff two).mp ey⟩,
    ⟨(pow_eq_zero_iff two).mp eu, (pow_eq_zero_iff two).mp ev⟩⟩

theorem deltaMEs_eq_zero_iff (jamp : Fin 2 → cxtype K) :
    deltaMEs jamp = 0 ↔ jamp 0 = 0 ∧ jamp 1 = 0 := by
  rw [deltaMEs_eq, cxtype.eq_zero_iff, cxtype.eq_zero_iff]
  constructor
  · intro h
    rcases div_eq_zero_iff.mp h with h | h
    · exact colour_form_eq_zero _ _ _ _ h
    · norm_num at h
  · rintro ⟨⟨h1, h2⟩, ⟨h3, h4⟩⟩
    rw [h1, h2, h3, h4]
    norm_num



end ColourLemmas

section HarnessLemmas

variable {K : Type} [LinearOrderedField K]

theorem sigmaKin_hel_loop (H : HelAmps_sm K) (local_mom : mom_t K) (cHel : Nat → hel_t)
    (cIPD cIPC : Nat → K) (iGoodHel : Nat → Nat) (ievt : Nat) (l : List Nat) (allMEs : Nat → K) :
    l.foldl (sigmaKin_hel_step H local_mom cHel cIPD cIPC iGoodHel ievt) allMEs
      = Function.update allMEs ievt
          (allMEs ievt
            + (l.map (fun k => contribution H local_mom (cHel (iGoodHel k)) cIPD cIPC)).sum) := by
  induction l generalizing allMEs with
  | nil => simp
  | cons k l ih =>
    rw [List.foldl_cons, ih]
    simp only [sigmaKin_hel_step, calculate_wavefunctions, contribution, Function.update_same,
      Function.update_idem, List.map_cons, List.sum_cons, add_assoc]

theorem sigmaKin_event_eq (H : HelAmps_sm K) (momenta : Nat → mom_t K) (cHel : Nat → hel_t)
    (cIPD cIPC : Nat → K) (iGoodHel : Nat → Nat) (nGoodHel : Nat) (ievt : Nat)
    (allMEs : Nat → K) :
    sigmaKin_event H momenta cHel cIPD cIPC iGoodHel nGoodHel ievt allMEs
      = Function.update allMEs ievt
          (sigmaKin_value H (momenta ievt) cHel cIPD cIPC iGoodHel nGoodHel) := by
  simp only [sigmaKin_event, sigmaKin_hel_loop, Function.update_same, Function.update_idem,
    zero_add, sigmaKin_value, denominators]
  norm_num

theorem sigmaKin_eq (H : HelAmps_sm K) (momenta : Nat → mom_t K) (allMEs : Nat → K)
    (cHel : Nat → hel_t) (cIPD cIPC : Nat → K) (iGoodHel : Nat → Nat) (nGoodHel : Nat)
    (league_size team_size : Nat) :
    sigmaKin H momenta allMEs cHel cIPD cIPC iGoodHel nGoodHel league_size team_size
      = fun ievt => if ievt < league_size * team_size
          then sigmaKin_value H (momenta ievt) cHel cIPD cIPC iGoodHel nGoodHel
          else allMEs ievt := by
  unfold sigmaKin
  rw [parallel_for_team_eq league_size team_size
    (fun ievt allMEs => sigmaKin_event H momenta cHel cIPD cIPC iGoodHel nGoodHel ievt allMEs)]
  simp only [sigmaKin_event_eq]
  exact foldl_update_range _ _ _


theorem accumulator_succ (H : HelAmps_sm K) (local_mom : mom_t K) (cHel : Nat → hel_t)
    (cIPD cIPC : Nat → K) (a : K) (n : Nat) :
    accumulator H local_mom cHel cIPD cIPC a (n + 1)
      = calculate_wavefunctions H local_mom (cHel n) cIPD cIPC
          (accumulator H local_mom cHel cIPD cIPC a n) := by
  simp [accumulator, List.range_succ]

theorem accumulator_eq (H : HelAmps_sm K) (local_mom : mom_t K) (cHel : Nat → hel_t)
    (cIPD cIPC : Nat → K) (a : K) (n : Nat) :
    accumulator H local_mom cHel cIPD cIPC a n
      = a + ((List.range n).map (fun ihel => contribution H local_mom (cHel ihel) cIPD cIPC)).sum := by
  induction n with
  | zero => simp [accumulator]
  | succ n ih =>
    rw [accumulator_succ, ih, List.range_succ]
    simp [calculate_wavefunctions, contribution, add_assoc]

theorem sigmaKin_setup_hel_loop (H : HelAmps_sm K) (local_mom : mom_t K) (cHel : Nat → hel_t)
    (cIPD cIPC : Nat → K) (ievt : Nat) (A : Nat → K) (G : Nat → Int) (n : Nat) :
    let r := (List.range n).foldl (sigmaKin_setup_hel_step H local_mom cHel cIPD cIPC ievt)
      { allMEs := A, isGoodHel := G, allMEsLast := 0 }
    r.allMEs = Function.update A ievt (accumulator H local_mom cHel cIPD cIPC (A ievt) n)
    ∧ r.allMEsLast = allMEsLast_at H local_mom cHel cIPD cIPC (A ievt) n
    ∧ ∀ ihel, r.isGoodHel ihel ≠ 0 ↔
        (G ihel ≠ 0 ∨ (ihel < n ∧
          accumulator H local_mom cHel cIPD cIPC (A ievt) (ihel + 1)
            ≠ allMEsLast_at H local_mom cHel cIPD cIPC (A ievt) ihel)) := by
  induction n with
  | zero =>
    simp [accumulator, allMEsLast_at]
  | succ n ih =>
    obtain ⟨h1, h2, h3⟩ := ih
    simp only [List.range_succ, List.foldl_append, List.foldl_cons, List.foldl_nil]
    simp only [sigmaKin_setup_hel_step, h1, h2, Function.update_same, Function.update_idem,
      ← accumulator_succ]
    refine ⟨trivial, ?_, ?_⟩
    · simp [allMEsLast_at]
    · intro ihel
      by_cases hc : accumulator H local_mom cHel cIPD cIPC (A ievt) (n + 1)
          ≠ allMEsLast_at H local_mom cHel cIPD cIPC (A ievt) n
      · rw [if_pos hc]
        by_cases he : ihel = n
        · subst he
          simp [hc]
        · rw [Function.update_noteq he, h3]
          constructor
          · rintro (h | ⟨h, h'⟩)
            · exact Or.inl h
            · exact Or.inr ⟨by omega, h'⟩
          · rintro (h | ⟨h, h'⟩)
            · exact Or.inl h
            · exact Or.inr ⟨by omega, h'⟩
      · rw [if_neg hc, h3]
        constructor
        · rintro (h | ⟨h, h'⟩)
          · exact Or.inl h
          · exact Or.inr ⟨by omega, h'⟩
        · rintro (h | ⟨h, h'⟩)
          · exact Or.inl h
          · by_cases he : ihel = n
            · subst he; exact absurd h' hc
            · exact Or.inr ⟨by omega, h'⟩


theorem sigmaKin_setup_event_eq (H : HelAmps_sm K) (momenta : Nat → mom_t K)
    (cHel : Nat → hel_t) (cIPD cIPC : Nat → K) (ncomb ievt : Nat) (A : Nat → K) (G : Nat → Int) :
    (sigmaKin_setup_event H momenta cHel cIPD cIPC ncomb ievt (A, G)).1
        = Function.update A ievt (accumulator H (momenta ievt) cHel cIPD cIPC (A ievt) ncomb)
    ∧ ∀ ihel, (sigmaKin_setup_event H momenta cHel cIPD cIPC ncomb ievt (A, G)).2 ihel ≠ 0 ↔
        (G ihel ≠ 0 ∨ (ihel < ncomb ∧ marks_event H momenta A cHel cIPD cIPC ievt ihel)) := by
  have h := sigmaKin_setup_hel_loop H (momenta ievt) cHel cIPD cIPC ievt A G ncomb
  exact ⟨h.1, h.2.2⟩

theorem sigmaKin_setup_events (H : HelAmps_sm K) (momenta : Nat → mom_t K) (allMEs : Nat → K)
    (cHel : Nat → hel_t) (cIPD cIPC : Nat → K) (ncomb n : Nat) :
    let r := (List.range n).foldl
      (fun s ievt => sigmaKin_setup_event H momenta cHel cIPD cIPC ncomb ievt s)
      (allMEs, fun _ => 0)
    r.1 = (fun j => if j < n
        then accumulator H (momenta j) cHel cIPD cIPC (allMEs j) ncomb else allMEs j)
    ∧ ∀ ihel, r.2 ihel ≠ 0 ↔
        (ihel < ncomb ∧ ∃ ievt, ievt < n ∧ marks_event H momenta allMEs cHel cIPD cIPC ievt ihel) := by
  induction n with
  | zero => simp
  | succ n ih =>
    obtain ⟨h1, h2⟩ := ih
    simp only [List.range_succ, List.foldl_append, List.foldl_cons, List.foldl_nil]
    generalize (List.range n).foldl
      (fun s ievt => sigmaKin_setup_event H momenta cHel cIPD cIPC ncomb ievt s)
      (allMEs, fun _ => 0) = r at h1 h2
    obtain ⟨A, G⟩ := r
    simp only at h1 h2
    have hA : A n = allMEs n := by rw [h1]; simp
    obtain ⟨e1, e2⟩ := sigmaKin_setup_event_eq H momenta cHel cIPD cIPC ncomb n A G
    refine ⟨?_, ?_⟩
    · rw [e1, hA, h1]
      funext j
      simp only [Function.update_apply]
      by_cases hj : j = n
      · subst hj; simp
      · by_cases h2 : j < n
        · have : j < n + 1 := by omega
          simp [hj, h2, this]
        · have : ¬ j < n + 1 := by omega
          simp [hj, h2, this]
    · intro ihel
      rw [e2, h2]
      have hm : marks_event H momenta A cHel cIPD cIPC n ihel
          ↔ marks_event H momenta allMEs cHel cIPD cIPC n ihel := by
        simp only [marks_event, hA]
      rw [hm]
      constructor
      · rintro (⟨hc, j, hj, hmj⟩ | ⟨hc, hmn⟩)
        · exact ⟨hc, j, by omega, hmj⟩
        · exact ⟨hc, n, by omega, hmn⟩
      · rintro ⟨hc, j, hj, hmj⟩
        by_cases hjn : j = n
        · subst hjn; exact Or.inr ⟨hc, hmj⟩
        · exact Or.inl ⟨hc, j, by omega, hmj⟩

theorem sigmaKin_setup_marks_eq (H : HelAmps_sm K) (momenta : Nat → mom_t K) (allMEs : Nat → K)
    (cHel : Nat → hel_t) (cIPD cIPC : Nat → K) (ncomb league_size team_size : Nat) :
    (sigmaKin_setup_marks H momenta allMEs cHel cIPD cIPC ncomb league_size team_size).1
      = (fun j => if j < league_size * team_size
          then accumulator H (momenta j) cHel cIPD cIPC (allMEs j) ncomb else allMEs j)
    ∧ ∀ ihel,
        (sigmaKin_setup_marks H momenta allMEs cHel cIPD cIPC ncomb league_size team_size).2 ihel
            ≠ 0 ↔
          (ihel < ncomb ∧ ∃ ievt, ievt < league_size * team_size
            ∧ marks_event H momenta allMEs cHel cIPD cIPC ievt ihel) := by
  unfold sigmaKin_setup_marks
  rw [parallel_for_team_eq league_size team_size
    (fun ievt s => sigmaKin_setup_event H momenta cHel cIPD cIPC ncomb ievt s)]
  exact sigmaKin_setup_events H momenta allMEs cHel cIPD cIPC ncomb (league_size * team_size)


theorem marks_event_iff_accumulator (H : HelAmps_sm K) (momenta : Nat → mom_t K)
    (allMEs : Nat → K) (cHel : Nat → hel_t) (cIPD cIPC : Nat → K) (ievt ihel : Nat)
    (hz : ihel = 0 → allMEs ievt = 0) :
    marks_event H momenta allMEs cHel cIPD cIPC ievt ihel ↔
      accumulator H (momenta ievt) cHel cIPD cIPC (allMEs ievt) (ihel + 1)
        ≠ accumulator H (momenta ievt) cHel cIPD cIPC (allMEs ievt) ihel := by
  unfold marks_event allMEsLast_at
  by_cases h0 : ihel = 0
  · subst h0
    have e : accumulator H (momenta ievt) cHel cIPD cIPC (allMEs ievt) 0 = 0 := by
      simp [accumulator, hz rfl]
    rw [if_pos rfl, e]
  · rw [if_neg h0]

theorem accumulator_ne_iff (H : HelAmps_sm K) (local_mom : mom_t K) (cHel : Nat → hel_t)
    (cIPD cIPC : Nat → K) (a : K) (ihel : Nat) :
    accumulator H local_mom cHel cIPD cIPC a (ihel + 1)
        ≠ accumulator H local_mom cHel cIPD cIPC a ihel ↔
      contribution H local_mom (cHel ihel) cIPD cIPC ≠ 0 := by
  rw [accumulator_succ]
  simp [calculate_wavefunctions, contribution]

theorem marks_event_iff_contribution (H : HelAmps_sm K) (momenta : Nat → mom_t K)
    (allMEs : Nat → K) (cHel : Nat → hel_t) (cIPD cIPC : Nat → K) (ievt ihel : Nat)
    (hz : allMEs ievt = 0) :
    marks_event H momenta allMEs cHel cIPD cIPC ievt ihel ↔
      contribution H (momenta ievt) (cHel ihel) cIPD cIPC ≠ 0 := by
  rw [marks_event_iff_accumulator H momenta allMEs cHel cIPD cIPC ievt ihel (fun _ => hz),
    accumulator_ne_iff]

theorem sigmaKin_setup_list (H : HelAmps_sm K) (momenta : Nat → mom_t K) (allMEs : Nat → K)
    (cHel : Nat → hel_t) (cIPD cIPC : Nat → K) (iGoodHel : Nat → Nat)
    (ncomb league_size team_size : Nat) :
    (List.range
        (sigmaKin_setup H momenta allMEs cHel cIPD cIPC iGoodHel 0 ncomb league_size
          team_size).nGoodHel).map
        (sigmaKin_setup H momenta allMEs cHel cIPD cIPC iGoodHel 0 ncomb league_size
          team_size).iGoodHel
      = (List.range ncomb).filter (fun ihel => decide
          ((sigmaKin_setup_marks H momenta allMEs cHel cIPD cIPC ncomb league_size
            team_size).2 ihel ≠ 0))
    ∧ (sigmaKin_setup H momenta allMEs cHel cIPD cIPC iGoodHel 0 ncomb league_size
          team_size).nGoodHel
      = ((List.range ncomb).filter (fun ihel => decide
          ((sigmaKin_setup_marks H momenta allMEs cHel cIPD cIPC ncomb league_size
            team_size).2 ihel ≠ 0))).length := by
  have h := sigmaKin_setup_compact_eq
    (sigmaKin_setup_marks H momenta allMEs cHel cIPD cIPC ncomb league_size team_size).2
    ncomb iGoodHel 0
  simp only [List.range_zero, List.map_nil, List.nil_append, Nat.zero_add] at h
  exact h

theorem mem_sigmaKin_setup_list (H : HelAmps_sm K) (momenta : Nat → mom_t K) (allMEs : Nat → K)
    (cHel : Nat → hel_t) (cIPD cIPC : Nat → K) (iGoodHel : Nat → Nat)
    (ncomb league_size team_size : Nat) (ihel : Nat) :
    (∃ k, k < (sigmaKin_setup H momenta allMEs cHel cIPD cIPC iGoodHel 0 ncomb league_size
          team_size).nGoodHel
        ∧ (sigmaKin_setup H momenta allMEs cHel cIPD cIPC iGoodHel 0 ncomb league_size
          team_size).iGoodHel k = ihel) ↔
      (ihel < ncomb ∧ ∃ ievt, ievt < league_size * team_size
        ∧ marks_event H momenta allMEs cHel cIPD cIPC ievt ihel) := by
  have h := (sigmaKin_setup_list H momenta allMEs cHel cIPD cIPC iGoodHel ncomb league_size
    team_size).1
  have hm := (sigmaKin_setup_marks_eq H momenta allMEs cHel cIPD cIPC ncomb league_size
    team_size).2 ihel
  have e : (∃ k, k < (sigmaKin_setup H momenta allMEs cHel cIPD cIPC iGoodHel 0 ncomb
          league_size team_size).nGoodHel
        ∧ (sigmaKin_setup H momenta allMEs cHel cIPD cIPC iGoodHel 0 ncomb league_size
          team_size).iGoodHel k = ihel) ↔
      ihel ∈ (List.range
        (sigmaKin_setup H momenta allMEs cHel cIPD cIPC iGoodHel 0 ncomb league_size
          team_size).nGoodHel).map
        (sigmaKin_setup H momenta allMEs cHel cIPD cIPC iGoodHel 0 ncomb league_size
          team_size).iGoodHel := by
    simp [List.mem_map, List.mem_range]
  rw [e, h, List.mem_filter, List.mem_range, decide_eq_true_eq, hm]
  tauto

theorem sum_map_filter_of_zero (l : List Nat) (p : Nat → Bool) (f : Nat → K)
    (h : ∀ x, x ∈ l → p x = false → f x = 0) :
    ((l.filter p).map f).sum = (l.map f).sum := by
  induction l with
  | nil => simp
  | cons a l ih =>
    have ih2 := ih (fun x hx => h x (List.mem_cons_of_mem a hx))
    by_cases hp : p a = true
    · simp [List.filter_cons, hp, ih2]
    · have hp2 : p a = false := by simpa using hp
      simp [List.filter_cons, hp2, ih2, h a (List.mem_cons_self a l) hp2]

theorem cxtype.eq_zero_iff_cxmake (c : cxtype K) : c = 0 ↔ c = cxmake 0 0 := Iff.rfl

theorem cxtype.zero_mul (c : cxtype K) : cxmake 0 0 * c = cxmake 0 0 := by
  show cxmake _ _ = cxmake 0 0
  simp [cxmake]

theorem FFV1_0_coup_zero (F1 F2 V3 : wavefunction K) : FFV1_0 F1 F2 V3 (cxmake 0 0) = 0 := by
  simp only [FFV1_0, cxtype.zero_mul]
  rfl

theorem contribution_coup_zero (H : HelAmps_sm K) (hF : H.FFV1_0 = FFV1_0) (local_mom : mom_t K)
    (hel : hel_t) (cIPD cIPC : Nat → K) (h2 : cIPC 2 = 0) (h3 : cIPC 3 = 0) :
    contribution H local_mom hel cIPD cIPC = 0 := by
  unfold contribution
  rw [deltaMEs_eq_zero_iff]
  simp only [jamp_sv, hF, h2, h3, FFV1_0_coup_zero, Matrix.cons_val_zero, Matrix.cons_val_one,
    Matrix.head_cons]
  constructor
  · rw [cxtype.eq_zero_iff]
    simp [cxtype.add_re, cxtype.add_im, cxtype.sub_re, cxtype.sub_im, cxtype.mul_re,
      cxtype.mul_im, cxtype.zero_re, cxtype.zero_im, cxzero_sv_re, cxzero_sv_im]
  · rw [cxtype.eq_zero_iff]
    simp [cxtype.add_re, cxtype.add_im, cxtype.sub_re, cxtype.sub_im, cxtype.mul_re,
      cxtype.mul_im, cxtype.zero_re, cxtype.zero_im, cxzero_sv_re, cxzero_sv_im]

theorem marks_event_congr (H : HelAmps_sm K) (momenta : Nat → mom_t K)
    (allMEs allMEs2 : Nat → K) (cHel : Nat → hel_t) (cIPD cIPC : Nat → K) (ievt ihel : Nat)
    (h : allMEs2 ievt = allMEs ievt) :
    marks_event H momenta allMEs2 cHel cIPD cIPC ievt ihel
      ↔ marks_event H momenta allMEs cHel cIPD cIPC ievt ihel := by
  unfold marks_event
  rw [h]

theorem sigmaKin_setup_rerun (H : HelAmps_sm K) (momenta : Nat → mom_t K)
    (allMEs2 : Nat → K) (cHel : Nat → hel_t) (cIPD cIPC : Nat → K) (iGoodHel : Nat → Nat)
    (nGoodHel ncomb league_size team_size : Nat) :
    (List.range
        (sigmaKin_setup H momenta allMEs2 cHel cIPD cIPC iGoodHel nGoodHel ncomb league_size
          team_size).nGoodHel).map
        (sigmaKin_setup H momenta allMEs2 cHel cIPD cIPC iGoodHel nGoodHel ncomb league_size
          team_size).iGoodHel
      = (List.range nGoodHel).map iGoodHel
        ++ (List.range ncomb).filter (fun ihel => decide
          ((sigmaKin_setup_marks H momenta allMEs2 cHel cIPD cIPC ncomb league_size
            team_size).2 ihel ≠ 0))
    ∧ (sigmaKin_setup H momenta allMEs2 cHel cIPD cIPC iGoodHel nGoodHel ncomb league_size
          team_size).nGoodHel
      = nGoodHel + ((List.range ncomb).filter (fun ihel => decide
          ((sigmaKin_setup_marks H momenta allMEs2 cHel cIPD cIPC ncomb league_size
            team_size).2 ihel ≠ 0))).length :=
  sigmaKin_setup_compact_eq
    (sigmaKin_setup_marks H momenta allMEs2 cHel cIPD cIPC ncomb league_size team_size).2
    ncomb iGoodHel nGoodHel

theorem cHel_view_one : cHel_view 1 = fun j => ([-1, -1, -1, 1] : List Int).getD j 0 := by
  funext j
  rfl

theorem contribution_example_ne_zero :
    contribution amps_example (momenta_example 0) (cHel_view 1) cIPD_example cIPC_example
      ≠ 0 := by
  unfold contribution
  rw [Ne, deltaMEs_eq_zero_iff, cxtype.eq_zero_iff, cxtype.eq_zero_iff]
  intro h
  have h1 := h.1.1
  revert h1
  simp only [jamp_sv, amps_example, FFV1_0, momenta_example, cIPD_example, cIPC_example,
    cHel_view_one, Matrix.cons_val_zero, cxtype.add_re, cxtype.add_im, cxtype.sub_re,
    cxtype.sub_im, cxtype.mul_re, cxtype.mul_im, cxtype.neg_re, cxtype.neg_im, cxmake_re,
    cxmake_im, cxzero_sv_re, cxzero_sv_im, List.getD_cons_zero, List.getD_cons_succ]
  norm_num

theorem sigmaKin_setup_marks_filter_congr (H : HelAmps_sm K) (momenta : Nat → mom_t K)
    (allMEs allMEs2 : Nat → K) (cHel : Nat → hel_t) (cIPD cIPC : Nat → K)
    (ncomb league_size team_size : Nat)
    (h : ∀ ievt, ievt < league_size * team_size → allMEs2 ievt = allMEs ievt) :
    (List.range ncomb).filter (fun ihel => decide
        ((sigmaKin_setup_marks H momenta allMEs2 cHel cIPD cIPC ncomb league_size
          team_size).2 ihel ≠ 0))
      = (List.range ncomb).filter (fun ihel => decide
        ((sigmaKin_setup_marks H momenta allMEs cHel cIPD cIPC ncomb league_size
          team_size).2 ihel ≠ 0)) := by
  apply List.filter_congr
  intro ihel _
  rw [decide_eq_decide,
    (sigmaKin_setup_marks_eq H momenta allMEs2 cHel cIPD cIPC ncomb league_size team_size).2
      ihel,
    (sigmaKin_setup_marks_eq H momenta allMEs cHel cIPD cIPC ncomb league_size team_size).2
      ihel]
  constructor
  · rintro ⟨hlt, ievt, hi, hm⟩
    exact ⟨hlt, ievt, hi,
      (marks_event_congr H momenta allMEs allMEs2 cHel cIPD cIPC ievt ihel (h ievt hi)).mp hm⟩
  · rintro ⟨hlt, ievt, hi, hm⟩
    exact ⟨hlt, ievt, hi,
      (marks_event_congr H momenta allMEs allMEs2 cHel cIPD cIPC ievt ihel (h ievt hi)).mpr hm⟩

theorem cxfpdiv_cxmake (x y s : K) :
    cxfpdiv (cxmake x y) s = cxmake (x / s) (y / s) := by
  show cxmake _ _ = cxmake _ _
  by_cases hs : s = 0
  · subst hs; simp [cxmake]
  · simp only [cxmake_re, cxmake_im]
    congr 1 <;> field_simp <;> ring

theorem fpcxmul_cxmake (a x y : K) :
    fpcxmul a (cxmake x y) = cxmake (a * x) (a * y) := by
  show cxmake _ _ = cxmake _ _
  simp [cxmake]


theorem accumulator_rounded_succ (fpadd : K → K → K) (H : HelAmps_sm K) (local_mom : mom_t K)
    (cHel : Nat → hel_t) (cIPD cIPC : Nat → K) (a : K) (n : Nat) :
    accumulator_rounded fpadd H local_mom cHel cIPD cIPC a (n + 1)
      = fpadd (accumulator_rounded fpadd H local_mom cHel cIPD cIPC a n)
          (contribution H local_mom (cHel n) cIPD cIPC) := by
  simp [accumulator_rounded, List.range_succ, calculate_wavefunctions_rounded, contribution]

theorem sigmaKin_setup_hel_loop_rounded (fpadd : K → K → K) (H : HelAmps_sm K)
    (local_mom : mom_t K) (cHel : Nat → hel_t) (cIPD cIPC : Nat → K) (ievt : Nat)
    (A : Nat → K) (G : Nat → Int) (n : Nat) :
    let r := (List.range n).foldl
      (sigmaKin_setup_hel_step_rounded fpadd H local_mom cHel cIPD cIPC ievt)
      { allMEs := A, isGoodHel := G, allMEsLast := 0 }
    r.allMEs
        = Function.update A ievt (accumulator_rounded fpadd H local_mom cHel cIPD cIPC (A ievt) n)
    ∧ r.allMEsLast = allMEsLast_at_rounded fpadd H local_mom cHel cIPD cIPC (A ievt) n
    ∧ ∀ ihel, r.isGoodHel ihel ≠ 0 ↔
        (G ihel ≠ 0 ∨ (ihel < n ∧
          accumulator_rounded fpadd H local_mom cHel cIPD cIPC (A ievt) (ihel + 1)
            ≠ allMEsLast_at_rounded fpadd H local_mom cHel cIPD cIPC (A ievt) ihel)) := by
  induction n with
  | zero =>
    simp [accumulator_rounded, allMEsLast_at_rounded]
  | succ n ih =>
    obtain ⟨h1, h2, h3⟩ := ih
    have hs : calculate_wavefunctions_rounded fpadd H local_mom (cHel n) cIPD cIPC
          (accumulator_rounded fpadd H local_mom cHel cIPD cIPC (A ievt) n)
        = accumulator_rounded fpadd H local_mom cHel cIPD cIPC (A ievt) (n + 1) := by
      rw [accumulator_rounded_succ]
      rfl
    simp only [List.range_succ, List.foldl_append, List.foldl_cons, List.foldl_nil]
    simp only [sigmaKin_setup_hel_step_rounded, h1, h2, Function.update_same,
      Function.update_idem, hs]
    refine ⟨trivial, ?_, ?_⟩
    · simp [allMEsLast_at_rounded]
    · intro ihel
      by_cases hc : accumulator_rounded fpadd H local_mom cHel cIPD cIPC (A ievt) (n + 1)
          ≠ allMEsLast_at_rounded fpadd H local_mom cHel cIPD cIPC (A ievt) n
      · rw [if_pos hc]
        by_cases he : ihel = n
        · subst he
          simp [hc]
        · rw [Function.update_noteq he, h3]
          constructor
          · rintro (h | ⟨h, h'⟩)
            · exact Or.inl h
            · exact Or.inr ⟨by omega, h'⟩
          · rintro (h | ⟨h, h'⟩)
            · exact Or.inl h
            · exact Or.inr ⟨by omega, h'⟩
      · rw [if_neg hc, h3]
        constructor
        · rintro (h | ⟨h, h'⟩)
          · exact Or.inl h
          · exact Or.inr ⟨by omega, h'⟩
        · rintro (h | ⟨h, h'⟩)
          · exact Or.inl h
          · by_cases he : ihel = n
            · subst he; exact absurd h' hc
            · exact Or.inr ⟨by omega, h'⟩

theorem sigmaKin_setup_event_rounded_eq (fpadd : K → K → K) (H : HelAmps_sm K)
    (momenta : Nat → mom_t K) (cHel : Nat → hel_t) (cIPD cIPC : Nat → K) (ncomb ievt : Nat)
    (A : Nat → K) (G : Nat → Int) :
    (sigmaKin_setup_event_rounded fpadd H momenta cHel cIPD cIPC ncomb ievt (A, G)).1
        = Function.update A ievt
            (accumulator_rounded fpadd H (momenta ievt) cHel cIPD cIPC (A ievt) ncomb)
    ∧ ∀ ihel,
        (sigmaKin_setup_event_rounded fpadd H momenta cHel cIPD cIPC ncomb ievt (A, G)).2 ihel
            ≠ 0 ↔
          (G ihel ≠ 0
            ∨ (ihel < ncomb ∧ marks_event_rounded fpadd H momenta A cHel cIPD cIPC ievt ihel)) := by
  have h := sigmaKin_setup_hel_loop_rounded fpadd H (momenta ievt) cHel cIPD cIPC ievt A G ncomb
  exact ⟨h.1, h.2.2⟩

theorem sigmaKin_setup_events_rounded (fpadd : K → K → K) (H : HelAmps_sm K)
    (momenta : Nat → mom_t K) (allMEs : Nat → K) (cHel : Nat → hel_t) (cIPD cIPC : Nat → K)
    (ncomb n : Nat) :
    let r := (List.range n).foldl
      (fun s ievt => sigmaKin_setup_event_rounded fpadd H momenta cHel cIPD cIPC ncomb ievt s)
      (allMEs, fun _ => 0)
    r.1 = (fun j => if j < n
        then accumulator_rounded fpadd H (momenta j) cHel cIPD cIPC (allMEs j) ncomb
        else allMEs j)
    ∧ ∀ ihel, r.2 ihel ≠ 0 ↔
        (ihel < ncomb ∧ ∃ ievt, ievt < n
          ∧ marks_event_rounded fpadd H momenta allMEs cHel cIPD cIPC ievt ihel) := by
  induction n with
  | zero => simp
  | succ n ih =>
    obtain ⟨h1, h2⟩ := ih
    simp only [List.range_succ, List.foldl_append, List.foldl_cons, List.foldl_nil]
    generalize (List.range n).foldl
      (fun s ievt => sigmaKin_setup_event_rounded fpadd H momenta cHel cIPD cIPC ncomb ievt s)
      (allMEs, fun _ => 0) = r at h1 h2
    obtain ⟨A, G⟩ := r
    simp only at h1 h2
    have hA : A n = allMEs n := by rw [h1]; simp
    obtain ⟨e1, e2⟩ := sigmaKin_setup_event_rounded_eq fpadd H momenta cHel cIPD cIPC ncomb n A G
    refine ⟨?_, ?_⟩
    · rw [e1, hA, h1]
      funext j
      simp only [Function.update_apply]
      by_cases hj : j = n
      · subst hj; simp
      · by_cases h2 : j < n
        · have : j < n + 1 := by omega
          simp [hj, h2, this]
        · have : ¬ j < n + 1 := by omega
          simp [hj, h2, this]
    · intro ihel
      rw [e2, h2]
      have hm : marks_event_rounded fpadd H momenta A cHel cIPD cIPC n ihel
          ↔ marks_event_rounded fpadd H momenta allMEs cHel cIPD cIPC n ihel := by
        simp only [marks_event_rounded, hA]
      rw [hm]
      constructor
      · rintro (⟨hc, j, hj, hmj⟩ | ⟨hc, hmn⟩)
        · exact ⟨hc, j, by omega, hmj⟩
        · exact ⟨hc, n, by omega, hmn⟩
      · rintro ⟨hc, j, hj, hmj⟩
        by_cases hjn : j = n
        · subst hjn; exact Or.inr ⟨hc, hmj⟩
        · exact Or.inl ⟨hc, j, by omega, hmj⟩

theorem sigmaKin_setup_marks_rounded_eq (fpadd : K → K → K) (H : HelAmps_sm K)
    (momenta : Nat → mom_t K) (allMEs : Nat → K) (cHel : Nat → hel_t) (cIPD cIPC : Nat → K)
    (ncomb league_size team_size : Nat) (ihel : Nat) :
    (sigmaKin_setup_marks_rounded fpadd H momenta allMEs cHel cIPD cIPC ncomb league_size
        team_size).2 ihel ≠ 0 ↔
      (ihel < ncomb ∧ ∃ ievt, ievt < league_size * team_size
        ∧ marks_event_rounded fpadd H momenta allMEs cHel cIPD cIPC ievt ihel) := by
  unfold sigmaKin_setup_marks_rounded
  rw [parallel_for_team_eq league_size team_size
    (fun ievt s => sigmaKin_setup_event_rounded fpadd H momenta cHel cIPD cIPC ncomb ievt s)]
  exact (sigmaKin_setup_events_rounded fpadd H momenta allMEs cHel cIPD cIPC ncomb
    (league_size * team_size)).2 ihel

theorem mem_sigmaKin_setup_rounded_list (fpadd : K → K → K) (H : HelAmps_sm K)
    (momenta : Nat → mom_t K) (allMEs : Nat → K) (cHel : Nat → hel_t) (cIPD cIPC : Nat → K)
    (iGoodHel : Nat → Nat) (ncomb league_size team_size : Nat) (ihel : Nat) :
    (∃ k, k < (sigmaKin_setup_rounded fpadd H momenta allMEs cHel cIPD cIPC iGoodHel 0 ncomb
          league_size team_size).nGoodHel
        ∧ (sigmaKin_setup_rounded fpadd H momenta allMEs cHel cIPD cIPC iGoodHel 0 ncomb
          league_size team_size).iGoodHel k = ihel) ↔
      (ihel < ncomb ∧ ∃ ievt, ievt < league_size * team_size
        ∧ marks_event_rounded fpadd H momenta allMEs cHel cIPD cIPC ievt ihel) := by
  have h := (sigmaKin_setup_compact_eq
    (sigmaKin_setup_marks_rounded fpadd H momenta allMEs cHel cIPD cIPC ncomb league_size
      team_size).2 ncomb iGoodHel 0).1
  simp only [List.range_zero, List.map_nil, List.nil_append] at h
  have hm := sigmaKin_setup_marks_rounded_eq fpadd H momenta allMEs cHel cIPD cIPC ncomb
    league_size team_size ihel
  have e : (∃ k, k < (sigmaKin_setup_rounded fpadd H momenta allMEs cHel cIPD cIPC iGoodHel 0
          ncomb league_size team_size).nGoodHel
        ∧ (sigmaKin_setup_rounded fpadd H momenta allMEs cHel cIPD cIPC iGoodHel 0 ncomb
          league_size team_size).iGoodHel k = ihel) ↔
      ihel ∈ (List.range
        (sigmaKin_setup_compact
          (sigmaKin_setup_marks_rounded fpadd H momenta allMEs cHel cIPD cIPC ncomb league_size
            team_size).2 ncomb iGoodHel 0).2).map
        (sigmaKin_setup_compact
          (sigmaKin_setup_marks_rounded fpadd H momenta allMEs cHel cIPD cIPC ncomb league_size
            team_size).2 ncomb iGoodHel 0).1 := by
    simp [List.mem_map, List.mem_range, sigmaKin_setup_rounded]
  rw [e, h, List.mem_filter, List.mem_range, decide_eq_true_eq, hm]
  tauto

/-- With the exact addition the twin is `sigmaKin_setup` itself. -/
theorem sigmaKin_setup_rounded_exact (H : HelAmps_sm K) (momenta : Nat → mom_t K)
    (allMEs : Nat → K) (cHel : Nat → hel_t) (cIPD cIPC : Nat → K) (iGoodHel : Nat → Nat)
    (nGoodHel ncomb league_size team_size : Nat) :
    sigmaKin_setup_rounded (fun a d => a + d) H momenta allMEs cHel cIPD cIPC iGoodHel nGoodHel
        ncomb league_size team_size
      = sigmaKin_setup H momenta allMEs cHel cIPD cIPC iGoodHel nGoodHel ncomb league_size
        team_size := rfl

end HarnessLemmas

section WavefunctionLemmas

theorem massless_edge_iff (pvec : pvec_t ℝ)
    (hE : pvec 0 = Real.sqrt (pvec 1 * pvec 1 + pvec 2 * pvec 2 + pvec 3 * pvec 3))
    (hpos : 0 < pvec 0) :
    (0 ≤ pvec 0 + pvec 3)
    ∧ (pvec 0 + pvec 3 = 0 ↔ pvec 1 = 0 ∧ pvec 2 = 0 ∧ pvec 3 < 0) := by
  have hsq : pvec 0 * pvec 0 = pvec 1 * pvec 1 + pvec 2 * pvec 2 + pvec 3 * pvec 3 := by
    have h0 : 0 ≤ pvec 1 * pvec 1 + pvec 2 * pvec 2 + pvec 3 * pvec 3 := by
      have a1 := mul_self_nonneg (pvec 1)
      have a2 := mul_self_nonneg (pvec 2)
      have a3 := mul_self_nonneg (pvec 3)
      linarith
    rw [hE]
    exact Real.mul_self_sqrt h0
  have h1 := mul_self_nonneg (pvec 1)
  have h2 := mul_self_nonneg (pvec 2)
  constructor
  · by_contra hneg
    push_neg at hneg
    nlinarith
  · constructor
    · intro h
      have hz : pvec 3 = -pvec 0 := by linarith
      have e : pvec 1 * pvec 1 + pvec 2 * pvec 2 = 0 := by
        rw [hz] at hsq; nlinarith
      have e1 : pvec 1 * pvec 1 = 0 := by linarith
      have e2 : pvec 2 * pvec 2 = 0 := by linarith
      exact ⟨mul_self_eq_zero.mp e1, mul_self_eq_zero.mp e2, by linarith⟩
    · rintro ⟨hx, hy, hz⟩
      rw [hx, hy] at hsq
      have : (pvec 0 + pvec 3) * (pvec 0 - pvec 3) = 0 := by nlinarith
      rcases mul_eq_zero.mp this with h | h
      · exact h
      · linarith


theorem ixxxxx_massive_form (pvec : pvec_t ℝ)
    (hE : pvec 0 = Real.sqrt (pvec 1 * pvec 1 + pvec 2 * pvec 2 + pvec 3 * pvec 3))
    (hpos : 0 < pvec 0) (m : ℝ) (hm : m ≠ 0) (nhel nsf : Int)
    (hnhel : nhel = -1 ∨ nhel = 1) (hnsf : nsf = -1 ∨ nsf = 1) :
    ixxxxx Real.sqrt pvec m nhel nsf =
      if nhel * nsf = 1 then
        ![cxmake (-pvec 0 * (nsf : ℝ)) (-pvec 3 * (nsf : ℝ)),
          cxmake (-pvec 1 * (nsf : ℝ)) (-pvec 2 * (nsf : ℝ)),
          fpcxmul (m / Real.sqrt (pvec 0 + pvec 0)) (ixxxxx_chi0 Real.sqrt pvec),
          fpcxmul (m / Real.sqrt (pvec 0 + pvec 0)) (ixxxxx_chi1 Real.sqrt pvec (nhel * nsf)),
          fpcxmul ((nsf : ℝ) * Real.sqrt (pvec 0 + pvec 0)) (ixxxxx_chi0 Real.sqrt pvec),
          fpcxmul ((nsf : ℝ) * Real.sqrt (pvec 0 + pvec 0))
            (ixxxxx_chi1 Real.sqrt pvec (nhel * nsf))]
      else
        ![cxmake (-pvec 0 * (nsf : ℝ)) (-pvec 3 * (nsf : ℝ)),
          cxmake (-pvec 1 * (nsf : ℝ)) (-pvec 2 * (nsf : ℝ)),
          fpcxmul ((nsf : ℝ) * Real.sqrt (pvec 0 + pvec 0))
            (ixxxxx_chi1 Real.sqrt pvec (nhel * nsf)),
          fpcxmul ((nsf : ℝ) * Real.sqrt (pvec 0 + pvec 0)) (ixxxxx_chi0 Real.sqrt pvec),
          fpcxmul (m / Real.sqrt (pvec 0 + pvec 0)) (ixxxxx_chi1 Real.sqrt pvec (nhel * nsf)),
          fpcxmul (m / Real.sqrt (pvec 0 + pvec 0)) (ixxxxx_chi0 Real.sqrt pvec)] := by
  have hpp : fpmin (pvec 0)
      (Real.sqrt (pvec 1 * pvec 1 + pvec 2 * pvec 2 + pvec 3 * pvec 3)) = pvec 0 := by
    rw [← hE]; exact min_self _
  have hne : pvec 0 ≠ 0 := ne_of_gt hpos
  obtain ⟨hnn, _⟩ := massless_edge_iff pvec hE hpos
  have hmax : fpmax (pvec 0 + pvec 3) 0 = pvec 0 + pvec 3 := max_eq_left hnn
  rcases hnhel with rfl | rfl <;> rcases hnsf with rfl | rfl <;>
    simp only [ixxxxx, hm, hpp, hne, hmax, ne_eq, not_false_eq_true, if_true, if_false, arr2,
      ixxxxx_ip, ixxxxx_im, ixxxxx_chi0, ixxxxx_chi1] <;>
    norm_num

theorem tendsto_component_const (F : ℝ → cxtype ℝ) (A : cxtype ℝ)
    (hF : ∀ m, m ≠ 0 → F m = A) :
    Filter.Tendsto (fun m => (F m).re) (nhdsWithin 0 {0}ᶜ) (nhds A.re)
    ∧ Filter.Tendsto (fun m => (F m).im) (nhdsWithin 0 {0}ᶜ) (nhds A.im) := by
  constructor
  · apply Filter.Tendsto.congr' _ tendsto_const_nhds
    exact eventually_nhdsWithin_of_forall (fun m hm => by simp only [hF m hm])
  · apply Filter.Tendsto.congr' _ tendsto_const_nhds
    exact eventually_nhdsWithin_of_forall (fun m hm => by simp only [hF m hm])

theorem tendsto_component_small (F : ℝ → cxtype ℝ) (A : cxtype ℝ) (s : ℝ) (z : cxtype ℝ)
    (hF : ∀ m, m ≠ 0 → F m = fpcxmul (m / s) z) (hA : A = cxzero_sv) :
    Filter.Tendsto (fun m => (F m).re) (nhdsWithin 0 {0}ᶜ) (nhds A.re)
    ∧ Filter.Tendsto (fun m => (F m).im) (nhdsWithin 0 {0}ᶜ) (nhds A.im) := by
  subst hA
  constructor
  · have hc : Continuous (fun m : ℝ => m / s * z.re - 0 * z.im) := by fun_prop
    have ht := (hc.tendsto' 0 0 (by simp)).mono_left (nhdsWithin_le_nhds (s := {0}ᶜ))
    apply Filter.Tendsto.congr' _ ht
    exact eventually_nhdsWithin_of_forall (fun m hm => by simp only [hF m hm]; rfl)
  · have hc : Continuous (fun m : ℝ => m / s * z.im + 0 * z.re) := by fun_prop
    have ht := (hc.tendsto' 0 0 (by simp)).mono_left (nhdsWithin_le_nhds (s := {0}ᶜ))
    apply Filter.Tendsto.congr' _ ht
    exact eventually_nhdsWithin_of_forall (fun m hm => by simp only [hF m hm]; rfl)

theorem sqrt_two_energy_mul (E x : ℝ) (hE : 0 < E) :
    Real.sqrt (E + E) * Real.sqrt (x * (1 / 2) / E) = Real.sqrt x := by
  rw [← Real.sqrt_mul (by linarith)]
  congr 1
  field_simp
  ring

theorem ixxxxx_big_chi0 (pvec : pvec_t ℝ)
    (hE : pvec 0 = Real.sqrt (pvec 1 * pvec 1 + pvec 2 * pvec 2 + pvec 3 * pvec 3))
    (hpos : 0 < pvec 0) (nsf : Int) :
    fpcxmul ((nsf : ℝ) * Real.sqrt (pvec 0 + pvec 0)) (ixxxxx_chi0 Real.sqrt pvec)
      = cxmake
          (if pvec 1 = 0 ∧ pvec 2 = 0 ∧ pvec 3 < 0 then 0
            else Real.sqrt (fpmax (pvec 0 + pvec 3) 0) * (nsf : ℝ)) 0 := by
  obtain ⟨hnn, hedge⟩ := massless_edge_iff pvec hE hpos
  have hmax : fpmax (pvec 0 + pvec 3) 0 = pvec 0 + pvec 3 := max_eq_left hnn
  rw [ixxxxx_chi0, fpcxmul_cxmake, hmax, mul_assoc, sqrt_two_energy_mul _ _ hpos, mul_zero]
  by_cases hc : pvec 1 = 0 ∧ pvec 2 = 0 ∧ pvec 3 < 0
  · rw [if_pos hc, hedge.mpr hc, Real.sqrt_zero, mul_zero]
  · rw [if_neg hc, mul_comm]

theorem ixxxxx_big_chi1 (pvec : pvec_t ℝ)
    (hE : pvec 0 = Real.sqrt (pvec 1 * pvec 1 + pvec 2 * pvec 2 + pvec 3 * pvec 3))
    (hpos : 0 < pvec 0) (nhel nsf : Int)
    (hnhel : nhel = -1 ∨ nhel = 1) (hnsf : nsf = -1 ∨ nsf = 1) :
    fpcxmul ((nsf : ℝ) * Real.sqrt (pvec 0 + pvec 0))
        (ixxxxx_chi1 Real.sqrt pvec (nhel * nsf))
      = if (if pvec 1 = 0 ∧ pvec 2 = 0 ∧ pvec 3 < 0 then (0 : ℝ)
            else Real.sqrt (fpmax (pvec 0 + pvec 3) 0) * (nsf : ℝ)) = 0
          then cxmake (-(nhel : ℝ) * Real.sqrt (2 * pvec 0)) 0
          else cxfpdiv (cxmake (((nhel * nsf : Int) : ℝ) * pvec 1) (pvec 2))
            (if pvec 1 = 0 ∧ pvec 2 = 0 ∧ pvec 3 < 0 then (0 : ℝ)
              else Real.sqrt (fpmax (pvec 0 + pvec 3) 0) * (nsf : ℝ)) := by
  obtain ⟨hnn, hedge⟩ := massless_edge_iff pvec hE hpos
  have hmax : fpmax (pvec 0 + pvec 3) 0 = pvec 0 + pvec 3 := max_eq_left hnn
  have h2 : pvec 0 + pvec 0 = 2 * pvec 0 := by ring
  rw [hmax, h2, ixxxxx_chi1]
  by_cases hc : pvec 1 = 0 ∧ pvec 2 = 0 ∧ pvec 3 < 0
  · rw [if_pos hc, if_pos rfl, if_pos (hedge.mpr hc), fpcxmul_cxmake]
    rcases hnhel with rfl | rfl <;> rcases hnsf with rfl | rfl <;> norm_num
  · have hne : pvec 0 + pvec 3 ≠ 0 := fun h => hc (hedge.mp h)
    have hp3 : 0 < pvec 0 + pvec 3 := lt_of_le_of_ne hnn (Ne.symm hne)
    have hs3 : Real.sqrt (pvec 0 + pvec 3) ≠ 0 := ne_of_gt (Real.sqrt_pos.mpr hp3)
    have hs2 : Real.sqrt (2 * pvec 0) ≠ 0 := ne_of_gt (Real.sqrt_pos.mpr (by linarith))
    have hsf : Real.sqrt (pvec 0 + pvec 3) * (nsf : ℝ) ≠ 0 := by
      rcases hnsf with rfl | rfl <;> simpa using hs3
    have hd : Real.sqrt (2 * pvec 0 * (pvec 0 + pvec 3))
        = Real.sqrt (2 * pvec 0) * Real.sqrt (pvec 0 + pvec 3) :=
      Real.sqrt_mul (by linarith) _
    rw [if_neg hc, if_neg hsf, if_neg hne, cxfpdiv_cxmake, cxfpdiv_cxmake, fpcxmul_cxmake, hd]
    generalize Real.sqrt (2 * pvec 0) = s2 at hs2 ⊢
    generalize Real.sqrt (pvec 0 + pvec 3) = s3 at hs3 ⊢
    have hns3 : -s3 ≠ 0 := neg_ne_zero.mpr hs3
    rcases hnhel with rfl | rfl <;> rcases hnsf with rfl | rfl <;>
      (congr 1 <;> (push_cast; field_simp; try ring))

theorem ixxxxx_massless_form (pvec : pvec_t ℝ) (nhel nsf : Int) :
    ixxxxx Real.sqrt pvec 0 nhel nsf =
      if nhel * nsf = 1 then
        ![cxmake (-pvec 0 * (nsf : ℝ)) (-pvec 3 * (nsf : ℝ)),
          cxmake (-pvec 1 * (nsf : ℝ)) (-pvec 2 * (nsf : ℝ)),
          cxzero_sv, cxzero_sv,
          cxmake
            (if pvec 1 = 0 ∧ pvec 2 = 0 ∧ pvec 3 < 0 then 0
              else Real.sqrt (fpmax (pvec 0 + pvec 3) 0) * (nsf : ℝ)) 0,
          if (if pvec 1 = 0 ∧ pvec 2 = 0 ∧ pvec 3 < 0 then (0 : ℝ)
              else Real.sqrt (fpmax (pvec 0 + pvec 3) 0) * (nsf : ℝ)) = 0
            then cxmake (-(nhel : ℝ) * Real.sqrt (2 * pvec 0)) 0
            else cxfpdiv (cxmake (((nhel * nsf : Int) : ℝ) * pvec 1) (pvec 2))
              (if pvec 1 = 0 ∧ pvec 2 = 0 ∧ pvec 3 < 0 then (0 : ℝ)
                else Real.sqrt (fpmax (pvec 0 + pvec 3) 0) * (nsf : ℝ))]
      else
        ![cxmake (-pvec 0 * (nsf : ℝ)) (-pvec 3 * (nsf : ℝ)),
          cxmake (-pvec 1 * (nsf : ℝ)) (-pvec 2 * (nsf : ℝ)),
          if (if pvec 1 = 0 ∧ pvec 2 = 0 ∧ pvec 3 < 0 then (0 : ℝ)
              else Real.sqrt (fpmax (pvec 0 + pvec 3) 0) * (nsf : ℝ)) = 0
            then cxmake (-(nhel : ℝ) * Real.sqrt (2 * pvec 0)) 0
            else cxfpdiv (cxmake (((nhel * nsf : Int) : ℝ) * pvec 1) (pvec 2))
              (if pvec 1 = 0 ∧ pvec 2 = 0 ∧ pvec 3 < 0 then (0 : ℝ)
                else Real.sqrt (fpmax (pvec 0 + pvec 3) 0) * (nsf : ℝ)),
          cxmake
            (if pvec 1 = 0 ∧ pvec 2 = 0 ∧ pvec 3 < 0 then 0
              else Real.sqrt (fpmax (pvec 0 + pvec 3) 0) * (nsf : ℝ)) 0,
          cxzero_sv, cxzero_sv] := by
  simp only [ixxxxx, ne_eq, not_true_eq_false, if_false]

theorem vec6_val {A : Type} (a0 a1 a2 a3 a4 a5 : A) :
    (![a0, a1, a2, a3, a4, a5] : Fin 6 → A) 0 = a0
    ∧ (![a0, a1, a2, a3, a4, a5] : Fin 6 → A) 1 = a1
    ∧ (![a0, a1, a2, a3, a4, a5] : Fin 6 → A) 2 = a2
    ∧ (![a0, a1, a2, a3, a4, a5] : Fin 6 → A) 3 = a3
    ∧ (![a0, a1, a2, a3, a4, a5] : Fin 6 → A) 4 = a4
    ∧ (![a0, a1, a2, a3, a4, a5] : Fin 6 → A) 5 = a5 :=
  ⟨rfl, rfl, rfl, rfl, rfl, rfl⟩

theorem fin6_cases (k : Fin 6) : k = 0 ∨ k = 1 ∨ k = 2 ∨ k = 3 ∨ k = 4 ∨ k = 5 := by
  revert k
  decide

theorem cxfpdiv_zero {K : Type} [LinearOrderedField K] (s : K) :
    cxfpdiv (cxmake 0 0) s = cxzero_sv := by
  rw [cxfpdiv_cxmake]
  simp [cxzero_sv]

theorem cxfpmul_cxmake {K : Type} [LinearOrderedField K] (x y s : K) :
    cxfpmul (cxmake x y) s = cxmake (x * s) (y * s) := by
  show cxmake _ _ = cxmake _ _
  simp [cxmake]

theorem cxconj_cxmake {K : Type} [LinearOrderedField K] (a b : K) :
    cxconj (cxmake a b) = cxmake a (-b) := rfl

theorem neg_cxmake {K : Type} [LinearOrderedField K] (a b : K) :
    -(cxmake a b) = cxmake (-a) (-b) := rfl

theorem cxconj_zero_sv {K : Type} [LinearOrderedField K] :
    cxconj (cxzero_sv : cxtype K) = cxzero_sv := by
  show cxmake _ _ = cxmake 0 0
  simp [cxzero_sv, cxreal, cximag, cxmake]

theorem cxconj_fpcxmul {K : Type} [LinearOrderedField K] (a : K) (z : cxtype K) :
    cxconj (fpcxmul a z) = fpcxmul a (cxconj z) := by
  cases z with
  | mk x y =>
    show cxmake _ _ = cxmake _ _
    simp [cxmake, cxreal, cximag, fpcxmul, cxconj, cxtype.mul_re, cxtype.mul_im]

theorem cxconj_cxfpdiv_cxmake {K : Type} [LinearOrderedField K] (x y s : K) :
    cxconj (cxfpdiv (cxmake x y) s) = cxfpdiv (cxmake x (-y)) s := by
  rw [cxfpdiv_cxmake, cxfpdiv_cxmake, cxconj_cxmake, neg_div]

theorem transverse_facts (pvec : pvec_t ℝ)
    (hE : pvec 0 = Real.sqrt (pvec 1 * pvec 1 + pvec 2 * pvec 2 + pvec 3 * pvec 3))
    (hpT : 0 < Real.sqrt (pvec 1 * pvec 1 + pvec 2 * pvec 2)) :
    ¬ (pvec 1 = 0 ∧ pvec 2 = 0 ∧ pvec 3 < 0) ∧ 0 < pvec 0 + pvec 3 := by
  have hT : 0 < pvec 1 * pvec 1 + pvec 2 * pvec 2 := Real.sqrt_pos.mp hpT
  have h3 := mul_self_nonneg (pvec 3)
  have hsum : 0 < pvec 1 * pvec 1 + pvec 2 * pvec 2 + pvec 3 * pvec 3 := by linarith
  have hpos : 0 < pvec 0 := by rw [hE]; exact Real.sqrt_pos.mpr hsum
  have hsq : pvec 0 * pvec 0 = pvec 1 * pvec 1 + pvec 2 * pvec 2 + pvec 3 * pvec 3 := by
    rw [hE]
    exact Real.mul_self_sqrt hsum.le
  constructor
  · rintro ⟨hx, hy, _⟩
    rw [hx, hy] at hT
    simp at hT
  · by_contra hneg
    push_neg at hneg
    nlinarith

theorem pvec_along_minus_z_massless :
    (pvec_along_minus_z : pvec_t ℝ) 0 = -(pvec_along_minus_z : pvec_t ℝ) 3
      ∧ 0 < (pvec_along_minus_z : pvec_t ℝ) 0 := by
  constructor <;> norm_num [pvec_along_minus_z]

theorem pvec_transverse_massless :
    (pvec_transverse : pvec_t ℝ) 0
      = Real.sqrt ((pvec_transverse : pvec_t ℝ) 1 * (pvec_transverse : pvec_t ℝ) 1
          + (pvec_transverse : pvec_t ℝ) 2 * (pvec_transverse : pvec_t ℝ) 2
          + (pvec_transverse : pvec_t ℝ) 3 * (pvec_transverse : pvec_t ℝ) 3) := by
  have h : (pvec_transverse : pvec_t ℝ) 1 * (pvec_transverse : pvec_t ℝ) 1
      + (pvec_transverse : pvec_t ℝ) 2 * (pvec_transverse : pvec_t ℝ) 2
      + (pvec_transverse : pvec_t ℝ) 3 * (pvec_transverse : pvec_t ℝ) 3 = 5 * 5 := by
    norm_num [pvec_transverse]
  rw [h, Real.sqrt_mul_self (by norm_num)]
  rfl

theorem pvec_transverse_pT :
    0 < Real.sqrt ((pvec_transverse : pvec_t ℝ) 1 * (pvec_transverse : pvec_t ℝ) 1
          + (pvec_transverse : pvec_t ℝ) 2 * (pvec_transverse : pvec_t ℝ) 2) :=
  Real.sqrt_pos.mpr (by norm_num [pvec_transverse])

theorem ixxxxx_indices (nhel nsf : Int) (hnhel : nhel = -1 ∨ nhel = 1)
    (hnsf : nsf = -1 ∨ nsf = 1) :
    (ixxxxx_ip (nhel * nsf) = 0 ∨ ixxxxx_ip (nhel * nsf) = 1)
    ∧ (ixxxxx_im (nhel * nsf) = 0 ∨ ixxxxx_im (nhel * nsf) = 1)
    ∧ ixxxxx_ip (nhel * nsf) + ixxxxx_im (nhel * nsf) = 1 := by
  rcases hnhel with rfl | rfl <;> rcases hnsf with rfl | rfl <;> decide

theorem sqrt_checked_of_nonneg (x : ℝ) (h : 0 ≤ x) :
    sqrt_checked Real.sqrt x = some (Real.sqrt x) := by
  simp [sqrt_checked, not_lt.mpr h]

theorem arr2_checked_of_index {A : Type} (a0 a1 : A) (i : Int) (h : i = 0 ∨ i = 1) :
    arr2_checked a0 a1 i = some (arr2 a0 a1 i) := by
  rcases h with rfl | rfl <;> simp [arr2_checked, arr2]

theorem arr2_zero {A : Type} (a0 a1 : A) : arr2 a0 a1 0 = a0 := rfl

theorem arr2_one {A : Type} (a0 a1 : A) : arr2 a0 a1 1 = a1 := rfl

/-- The guards of `ixxxxx_checked` do fail outside the domain `E >= 0`: for the massless
input with `E = -1` the square root of `2 * E` has a negative argument. -/
theorem ixxxxx_checked_negative_energy :
    ixxxxx_checked Real.sqrt (fun i => if i = 0 then -1 else 0) 0 1 1 = none := by
  have h1 : (0 : ℝ) ≤ fpmax (-1 + 0) 0 := le_max_right _ _
  simp [ixxxxx_checked, sqrt_checked_of_nonneg _ h1]
  simp [sqrt_checked]

theorem cxtype.ext_iff2 {K : Type} [LinearOrderedField K] (a b : cxtype K) :
    a = b ↔ a.re = b.re ∧ a.im = b.im := by
  cases a
  cases b
  simp

theorem cxtype.div_re {K : Type} [LinearOrderedField K] (a b : cxtype K) :
    (a / b).re = (a.re * b.re + a.im * b.im) / (b.re * b.re + b.im * b.im) := rfl

theorem cxtype.div_im {K : Type} [LinearOrderedField K] (a b : cxtype K) :
    (a / b).im = (a.im * b.re - a.re * b.im) / (b.re * b.re + b.im * b.im) := rfl

theorem propagator_denominator_eq {K : Type} [LinearOrderedField K] (P3 : Fin 4 → K)
    (M3 W3 : K) :
    propagator_denominator P3 M3 W3
      = cxmake (P3 0 * P3 0 - P3 1 * P3 1 - P3 2 * P3 2 - P3 3 * P3 3 - M3 * M3) (M3 * W3) := by
  rw [cxtype.ext_iff2]
  simp only [propagator_denominator, fpcxsub, fpcxmul, cxfpmul, cxtype.sub_re, cxtype.sub_im,
    cxtype.mul_re, cxtype.mul_im, cxmake_re, cxmake_im]
  constructor <;> ring

theorem cxtype.div_mul_mul {K : Type} [LinearOrderedField K] (c d a j : cxtype K) :
    c / d * a * j = (a * c * j) / d := by
  rw [cxtype.ext_iff2]
  simp only [cxtype.mul_re, cxtype.mul_im, cxtype.div_re, cxtype.div_im, div_eq_mul_inv]
  constructor <;> ring

theorem cx_FFV2_4_0_combine {K : Type} [LinearOrderedField K] (C1 C2 T3 T4 : cxtype K) :
    fpcxmul (-1) ( C2 * ( cxmake 0 1 * T3 + fpcxmul 2 (cxmake 0 1) * T4 )
        + cxmake 0 1 * ( T3 * C1 ) )
      = C1 * (-(cxmake 0 1)) * T3
        + cxfpmul C2 (-1) * ( cxmake 0 1 * T3 + fpcxmul 2 (cxmake 0 1) * T4 ) := by
  rw [cxtype.ext_iff2]
  simp only [fpcxmul, cxfpmul, cxtype.add_re, cxtype.add_im,
    cxtype.sub_re, cxtype.sub_im, cxtype.mul_re, cxtype.mul_im, cxtype.neg_re, cxtype.neg_im,
    cxmake_re, cxmake_im]
  constructor <;> ring

theorem cx_FFV4_0_linear {K : Type} [LinearOrderedField K] (C a b c d : cxtype K) :
    cxfpmul C (-1) * ( cxmake 0 1 * ( a + b ) + fpcxmul 2 (cxmake 0 1) * ( c + d ) )
      = fpcxmul 2 (C * (-(cxmake 0 1)) * ( a + ( b + ( c + d ) ) ))
        - C * (-(cxmake 0 1)) * ( a + b ) := by
  rw [cxtype.ext_iff2]
  simp only [fpcxmul, cxfpmul, cxtype.add_re, cxtype.add_im,
    cxtype.sub_re, cxtype.sub_im, cxtype.mul_re, cxtype.mul_im, cxtype.neg_re, cxtype.neg_im,
    cxmake_re, cxmake_im]
  constructor <;> ring

theorem cxtype.mul_div_cancel_left {K : Type} [LinearOrderedField K] (c d : cxtype K)
    (h : d ≠ 0) : d * (c / d) = c := by
  have hn : d.re * d.re + d.im * d.im ≠ 0 := by
    intro h0
    apply h
    rw [cxtype.eq_zero_iff]
    have h1 := mul_self_nonneg d.re
    have h2 := mul_self_nonneg d.im
    exact ⟨mul_self_eq_zero.mp (by linarith), mul_self_eq_zero.mp (by linarith)⟩
  rw [cxtype.ext_iff2]
  simp only [cxtype.mul_re, cxtype.mul_im, cxtype.div_re, cxtype.div_im]
  constructor <;> field_simp <;> ring

theorem cx_FFV1_contract {K : Type} [LinearOrderedField K]
    (D a f2 f3 f4 f5 g2 g3 g4 g5 v2 v3 v4 v5 : cxtype K) :
    D * ( a * (-(cxmake 0 1)) * ( f2 * g4 + f3 * g5 + f4 * g2 + f5 * g3 ) * v2
          - a * (-(cxmake 0 1)) * ( -f2 * g5 - f3 * g4 + f4 * g3 + f5 * g2 ) * v3
          - a * (-(cxmake 0 1))
              * ( -(cxmake 0 1) * ( f2 * g5 + f5 * g2 ) + cxmake 0 1 * ( f3 * g4 + f4 * g3 ) )
              * v4
          - a * (-(cxmake 0 1)) * ( -f2 * g4 - f5 * g3 + f3 * g5 + f4 * g2 ) * v5 )
      = D * a * (-(cxmake 0 1))
        * ( f2 * ( g4 * ( v2 + v5 ) + g5 * ( v3 + cxmake 0 1 * ( v4 ) ) )
          + ( f3 * ( g4 * ( v3 - cxmake 0 1 * ( v4 ) ) + g5 * ( v2 - v5 ) )
            + ( f4 * ( g2 * ( v2 - v5 ) - g3 * ( v3 + cxmake 0 1 * ( v4 ) ) )
              + f5 * ( g2 * ( -v3 + cxmake 0 1 * ( v4 ) ) + g3 * ( v2 + v5 ) ) ) ) ) := by
  rw [cxtype.ext_iff2]
  simp only [cxtype.add_re, cxtype.add_im,
    cxtype.sub_re, cxtype.sub_im, cxtype.mul_re, cxtype.mul_im, cxtype.neg_re, cxtype.neg_im,
    cxmake_re, cxmake_im]
  constructor <;> ring

theorem cx_FFV2_4_3_combine2 {K : Type} [LinearOrderedField K] (D C1 C2 X Y : cxtype K) :
    fpcxdiv 1 D * ( fpcxmul (-2) (cxmake 0 1) )
        * ( C2 * Y + fpcxmul (1 / 2) ( C1 * X ) )
      = C1 / D * (-(cxmake 0 1)) * X + C2 / D * ( fpcxmul (-2) (cxmake 0 1) ) * Y := by
  rw [cxtype.ext_iff2]
  simp only [fpcxmul, cxfpmul, fpcxdiv, cxtype.add_re, cxtype.add_im, cxtype.sub_re,
    cxtype.sub_im, cxtype.mul_re, cxtype.mul_im, cxtype.neg_re, cxtype.neg_im, cxtype.div_re,
    cxtype.div_im, cxmake_re, cxmake_im, div_eq_mul_inv]
  constructor <;> ring

theorem cx_FFV2_4_3_combine3 {K : Type} [LinearOrderedField K]
    (D C1 C2 f2 g5 B Tm Y : cxtype K) :
    fpcxdiv 1 D * ( fpcxmul (-2) (cxmake 0 1) )
        * ( C2 * Y - fpcxmul (1 / 2) ( C1 * ( f2 * g5 + B + Tm ) ) )
      = C1 / D * (-(cxmake 0 1)) * ( -f2 * g5 - B - Tm )
        + C2 / D * ( fpcxmul (-2) (cxmake 0 1) ) * Y := by
  rw [cxtype.ext_iff2]
  simp only [fpcxmul, cxfpmul, fpcxdiv, cxtype.add_re, cxtype.add_im, cxtype.sub_re,
    cxtype.sub_im, cxtype.mul_re, cxtype.mul_im, cxtype.neg_re, cxtype.neg_im, cxtype.div_re,
    cxtype.div_im, cxmake_re, cxmake_im, div_eq_mul_inv]
  constructor <;> ring

theorem cx_FFV2_4_3_combine4 {K : Type} [LinearOrderedField K]
    (D C1 C2 A B C E T2 S : cxtype K) (om p : K) :
    fpcxdiv 1 D * cxmake 0 1
        * ( C2 * ( fpcxmul (om * p) S
              + ( cxmake 0 1 * A - cxmake 0 1 * B - fpcxmul 2 (cxmake 0 1) * C
                + fpcxmul 2 (cxmake 0 1) * E ) )
          + C1 * ( cxmake 0 1 * A - cxmake 0 1 * B + fpcxmul (p * om) T2 ) )
      = C1 / D * (-(cxmake 0 1))
          * ( -(cxmake 0 1) * A + cxmake 0 1 * B - fpcxmul (p * om) T2 )
        + cxfpmul (C2 / D) 2 * cxmake 0 1
          * ( fpcxmul (om * (1 / 2) * p) S
            + ( fpcxmul (1 / 2) (cxmake 0 1) * A - fpcxmul (1 / 2) (cxmake 0 1) * B
              - cxmake 0 1 * C + cxmake 0 1 * E ) ) := by
  rw [cxtype.ext_iff2]
  simp only [fpcxmul, cxfpmul, fpcxdiv, cxtype.add_re, cxtype.add_im, cxtype.sub_re,
    cxtype.sub_im, cxtype.mul_re, cxtype.mul_im, cxtype.neg_re, cxtype.neg_im, cxtype.div_re,
    cxtype.div_im, cxmake_re, cxmake_im, div_eq_mul_inv]
  constructor <;> ring

theorem cx_FFV2_4_3_combine5 {K : Type} [LinearOrderedField K]
    (D C1 C2 f2 g4 B Tm Y : cxtype K) :
    cxfpmul (fpcxdiv 1 D) 2 * cxmake 0 1
        * ( C2 * Y + fpcxmul (1 / 2) ( C1 * ( f2 * g4 + Tm - B ) ) )
      = C1 / D * (-(cxmake 0 1)) * ( -f2 * g4 - Tm + B )
        + cxfpmul (C2 / D) 2 * cxmake 0 1 * Y := by
  rw [cxtype.ext_iff2]
  simp only [fpcxmul, cxfpmul, fpcxdiv, cxtype.add_re, cxtype.add_im, cxtype.sub_re,
    cxtype.sub_im, cxtype.mul_re, cxtype.mul_im, cxtype.neg_re, cxtype.neg_im, cxtype.div_re,
    cxtype.div_im, cxmake_re, cxmake_im, div_eq_mul_inv]
  constructor <;> ring

theorem fpcxmul_re {K : Type} [LinearOrderedField K] (a : K) (z : cxtype K) :
    (fpcxmul a z).re = a * z.re := by
  simp [fpcxmul, cxtype.mul_re, cxmake_re, cxmake_im]

theorem fpcxmul_im {K : Type} [LinearOrderedField K] (a : K) (z : cxtype K) :
    (fpcxmul a z).im = a * z.im := by
  simp [fpcxmul, cxtype.mul_im, cxmake_re, cxmake_im]

theorem ixxxxx_omega_norm (E P m : ℝ) (hpos : 0 < E + P) (hm2 : m ^ 2 = E ^ 2 - P ^ 2) :
    (m / Real.sqrt (E + P)) ^ 2 + Real.sqrt (E + P) ^ 2 = 2 * E := by
  have hω : Real.sqrt (E + P) ^ 2 = E + P := Real.sq_sqrt hpos.le
  rw [div_pow, hω, hm2]
  field_simp
  ring

theorem ixxxxx_chi_norm (P px py pz n : ℝ) (hP2 : P * P = px * px + py * py + pz * pz)
    (hPpos : 0 < P) (hpz : 0 ≤ P + pz) (hn : n * n = 1) :
    (cxmake (Real.sqrt ((P + pz) * (1 / 2) / P)) 0).re ^ 2
      + (cxmake (Real.sqrt ((P + pz) * (1 / 2) / P)) 0).im ^ 2
      + ((if P + pz = 0 then cxmake (-n) 0
          else cxfpdiv (cxmake (n * px) py) (Real.sqrt (2 * P * (P + pz)))).re ^ 2
        + (if P + pz = 0 then cxmake (-n) 0
          else cxfpdiv (cxmake (n * px) py) (Real.sqrt (2 * P * (P + pz)))).im ^ 2) = 1 := by
  by_cases h : P + pz = 0
  · simp only [h, if_true, cxmake_re, cxmake_im]
    have h0 : (0 : ℝ) * (1 / 2) / P = 0 := by simp
    rw [h0, Real.sqrt_zero]
    linear_combination hn
  · have hp3 : 0 < P + pz := lt_of_le_of_ne hpz (Ne.symm h)
    have hq : 0 ≤ (P + pz) * (1 / 2) / P := by positivity
    have hd : 0 ≤ 2 * P * (P + pz) := by positivity
    have hdpos : 0 < 2 * P * (P + pz) := by positivity
    simp only [h, if_false, cxfpdiv_cxmake, cxmake_re, cxmake_im, div_pow, Real.sq_sqrt hq,
      Real.sq_sqrt hd]
    field_simp
    linear_combination (-2 * P) * hP2 + (2 * P * px ^ 2) * hn

theorem ixxxxx_norm_moving (pvec : pvec_t ℝ) (fmass : ℝ) (nhel nsf : Int)
    (hpos : 0 < pvec 0)
    (hshell : pvec 0 ^ 2 = pvec 1 ^ 2 + pvec 2 ^ 2 + pvec 3 ^ 2 + fmass ^ 2)
    (hnhel : nhel = -1 ∨ nhel = 1) (hnsf : nsf = -1 ∨ nsf = 1)
    (hm : fmass ≠ 0)
    (hpp : ¬ fpmin (pvec 0)
      (Real.sqrt (pvec 1 * pvec 1 + pvec 2 * pvec 2 + pvec 3 * pvec 3)) = 0) :
    (ixxxxx Real.sqrt pvec fmass nhel nsf 2).re ^ 2
        + (ixxxxx Real.sqrt pvec fmass nhel nsf 2).im ^ 2
      + ((ixxxxx Real.sqrt pvec fmass nhel nsf 3).re ^ 2
        + (ixxxxx Real.sqrt pvec fmass nhel nsf 3).im ^ 2)
      + ((ixxxxx Real.sqrt pvec fmass nhel nsf 4).re ^ 2
        + (ixxxxx Real.sqrt pvec fmass nhel nsf 4).im ^ 2)
      + ((ixxxxx Real.sqrt pvec fmass nhel nsf 5).re ^ 2
        + (ixxxxx Real.sqrt pvec fmass nhel nsf 5).im ^ 2) = 2 * pvec 0 := by
  have hsum : 0 ≤ pvec 1 * pvec 1 + pvec 2 * pvec 2 + pvec 3 * pvec 3 := by
    have h1 := mul_self_nonneg (pvec 1)
    have h2 := mul_self_nonneg (pvec 2)
    have h3 := mul_self_nonneg (pvec 3)
    linarith
  have hP2 := Real.mul_self_sqrt hsum
  have hP0 := Real.sqrt_nonneg (pvec 1 * pvec 1 + pvec 2 * pvec 2 + pvec 3 * pvec 3)
  simp only [ixxxxx, hm, ne_eq, not_false_eq_true, if_true]
  generalize Real.sqrt (pvec 1 * pvec 1 + pvec 2 * pvec 2 + pvec 3 * pvec 3) = P at hP2 hP0 hpp ⊢
  have hPE : P ≤ pvec 0 := by
    by_contra hlt
    push_neg at hlt
    nlinarith [sq_nonneg fmass]
  have hmin : fpmin (pvec 0) P = P := min_eq_right hPE
  rw [hmin] at hpp
  have hPpos : 0 < P := lt_of_le_of_ne hP0 (Ne.symm hpp)
  have hpz : 0 ≤ P + pvec 3 := by
    nlinarith [mul_self_nonneg (pvec 1), mul_self_nonneg (pvec 2), mul_self_nonneg (P - pvec 3)]
  have hmax : fpmax (P + pvec 3) 0 = P + pvec 3 := max_eq_left hpz
  have hab := ixxxxx_omega_norm (pvec 0) P fmass (by linarith) (by nlinarith)
  have hc1 := ixxxxx_chi_norm P (pvec 1) (pvec 2) (pvec 3) 1 hP2 hPpos hpz (by norm_num)
  have hc2 := ixxxxx_chi_norm P (pvec 1) (pvec 2) (pvec 3) (-1) hP2 hPpos hpz (by norm_num)
  simp only [one_mul, neg_mul, neg_neg] at hc1 hc2
  rcases hnhel with rfl | rfl <;> rcases hnsf with rfl | rfl <;>
    simp only [hmin, hpp, hmax, if_false, arr2,
      ixxxxx_ip, ixxxxx_im, vec6_val, fpcxmul_re, fpcxmul_im] <;>
    norm_num
  · linear_combination ((fmass / Real.sqrt (pvec 0 + P)) ^ 2 + Real.sqrt (pvec 0 + P) ^ 2) * hc1 + hab
  · linear_combination ((fmass / Real.sqrt (pvec 0 + P)) ^ 2 + Real.sqrt (pvec 0 + P) ^ 2) * hc2 + hab
  · linear_combination ((fmass / Real.sqrt (pvec 0 + P)) ^ 2 + Real.sqrt (pvec 0 + P) ^ 2) * hc2 + hab
  · linear_combination ((fmass / Real.sqrt (pvec 0 + P)) ^ 2 + Real.sqrt (pvec 0 + P) ^ 2) * hc1 + hab

theorem ixxxxx_norm_rest (pvec : pvec_t ℝ) (fmass : ℝ) (nhel nsf : Int)
    (hpos : 0 < pvec 0)
    (hshell : pvec 0 ^ 2 = pvec 1 ^ 2 + pvec 2 ^ 2 + pvec 3 ^ 2 + fmass ^ 2)
    (hnhel : nhel = -1 ∨ nhel = 1) (hnsf : nsf = -1 ∨ nsf = 1)
    (hm : fmass ≠ 0)
    (hpp : fpmin (pvec 0)
      (Real.sqrt (pvec 1 * pvec 1 + pvec 2 * pvec 2 + pvec 3 * pvec 3)) = 0) :
    (ixxxxx Real.sqrt pvec fmass nhel nsf 2).re ^ 2
        + (ixxxxx Real.sqrt pvec fmass nhel nsf 2).im ^ 2
      + ((ixxxxx Real.sqrt pvec fmass nhel nsf 3).re ^ 2
        + (ixxxxx Real.sqrt pvec fmass nhel nsf 3).im ^ 2)
      + ((ixxxxx Real.sqrt pvec fmass nhel nsf 4).re ^ 2
        + (ixxxxx Real.sqrt pvec fmass nhel nsf 4).im ^ 2)
      + ((ixxxxx Real.sqrt pvec fmass nhel nsf 5).re ^ 2
        + (ixxxxx Real.sqrt pvec fmass nhel nsf 5).im ^ 2) = 2 * pvec 0 := by
  have hsum : 0 ≤ pvec 1 * pvec 1 + pvec 2 * pvec 2 + pvec 3 * pvec 3 := by
    have h1 := mul_self_nonneg (pvec 1)
    have h2 := mul_self_nonneg (pvec 2)
    have h3 := mul_self_nonneg (pvec 3)
    linarith
  have hP2 := Real.mul_self_sqrt hsum
  have hP0 := Real.sqrt_nonneg (pvec 1 * pvec 1 + pvec 2 * pvec 2 + pvec 3 * pvec 3)
  have hP : Real.sqrt (pvec 1 * pvec 1 + pvec 2 * pvec 2 + pvec 3 * pvec 3) = 0 := by
    rcases min_choice (pvec 0)
      (Real.sqrt (pvec 1 * pvec 1 + pvec 2 * pvec 2 + pvec 3 * pvec 3)) with h | h
    · exfalso
      have : fpmin (pvec 0)
          (Real.sqrt (pvec 1 * pvec 1 + pvec 2 * pvec 2 + pvec 3 * pvec 3)) = pvec 0 := h
      rw [this] at hpp
      linarith
    · have : fpmin (pvec 0)
          (Real.sqrt (pvec 1 * pvec 1 + pvec 2 * pvec 2 + pvec 3 * pvec 3)) =
          Real.sqrt (pvec 1 * pvec 1 + pvec 2 * pvec 2 + pvec 3 * pvec 3) := h
      rw [← this]; exact hpp
  rw [hP, mul_zero] at hP2
  have hE : |fmass| = pvec 0 := by
    have h2 : fmass ^ 2 = pvec 0 ^ 2 := by nlinarith
    have h3 := congrArg Real.sqrt h2
    rw [Real.sqrt_sq_eq_abs, Real.sqrt_sq hpos.le] at h3
    exact h3
  have hs : Real.sqrt |fmass| ^ 2 = pvec 0 := by
    rw [Real.sq_sqrt (abs_nonneg _), hE]
  rcases hnhel with rfl | rfl <;> rcases hnsf with rfl | rfl <;>
    simp only [ixxxxx, hm, ne_eq, not_false_eq_true, if_true, hpp, arr2,
      ixxxxx_ip, ixxxxx_im, vec6_val, cxmake_re, cxmake_im] <;>
    norm_num <;> linarith

theorem ixxxxx_norm_massless (pvec : pvec_t ℝ) (fmass : ℝ) (nhel nsf : Int)
    (hpos : 0 < pvec 0)
    (hshell : pvec 0 ^ 2 = pvec 1 ^ 2 + pvec 2 ^ 2 + pvec 3 ^ 2 + fmass ^ 2)
    (hnhel : nhel = -1 ∨ nhel = 1) (hnsf : nsf = -1 ∨ nsf = 1)
    (hm0 : fmass = 0) :
    (ixxxxx Real.sqrt pvec fmass nhel nsf 2).re ^ 2
        + (ixxxxx Real.sqrt pvec fmass nhel nsf 2).im ^ 2
      + ((ixxxxx Real.sqrt pvec fmass nhel nsf 3).re ^ 2
        + (ixxxxx Real.sqrt pvec fmass nhel nsf 3).im ^ 2)
      + ((ixxxxx Real.sqrt pvec fmass nhel nsf 4).re ^ 2
        + (ixxxxx Real.sqrt pvec fmass nhel nsf 4).im ^ 2)
      + ((ixxxxx Real.sqrt pvec fmass nhel nsf 5).re ^ 2
        + (ixxxxx Real.sqrt pvec fmass nhel nsf 5).im ^ 2) = 2 * pvec 0 := by
  subst hm0
  have hsum : 0 ≤ pvec 1 * pvec 1 + pvec 2 * pvec 2 + pvec 3 * pvec 3 := by
    have h1 := mul_self_nonneg (pvec 1)
    have h2 := mul_self_nonneg (pvec 2)
    have h3 := mul_self_nonneg (pvec 3)
    linarith
  have hE : pvec 0 = Real.sqrt (pvec 1 * pvec 1 + pvec 2 * pvec 2 + pvec 3 * pvec 3) := by
    have h2 : pvec 1 * pvec 1 + pvec 2 * pvec 2 + pvec 3 * pvec 3 = pvec 0 ^ 2 := by
      rw [hshell]; ring
    rw [h2, Real.sqrt_sq hpos.le]
  obtain ⟨hnn, hedge⟩ := massless_edge_iff pvec hE hpos
  have hmax : fpmax (pvec 0 + pvec 3) 0 = pvec 0 + pvec 3 := max_eq_left hnn
  have h2E : Real.sqrt (2 * pvec 0) ^ 2 = 2 * pvec 0 := Real.sq_sqrt (by linarith)
  by_cases he : pvec 1 = 0 ∧ pvec 2 = 0 ∧ pvec 3 < 0
  · simp only [ixxxxx, ne_eq, not_true_eq_false, if_false, he, and_self, if_true]
    generalize Real.sqrt (2 * pvec 0) = t at h2E ⊢
    rcases hnhel with rfl | rfl <;> rcases hnsf with rfl | rfl <;>
      norm_num [vec6_val, cxmake_re, cxmake_im, cxzero_sv_re, cxzero_sv_im] <;> linarith
  · have hp3 : 0 < pvec 0 + pvec 3 :=
      lt_of_le_of_ne hnn (fun h => he (hedge.mp h.symm))
    have hs : Real.sqrt (pvec 0 + pvec 3) ≠ 0 := ne_of_gt (Real.sqrt_pos.mpr hp3)
    have hs2 : Real.sqrt (pvec 0 + pvec 3) ^ 2 = pvec 0 + pvec 3 := Real.sq_sqrt hnn
    simp only [ixxxxx, ne_eq, not_true_eq_false, if_false, he, hmax]
    generalize Real.sqrt (pvec 0 + pvec 3) = s at hs hs2 ⊢
    rcases hnhel with rfl | rfl <;> rcases hnsf with rfl | rfl <;>
      norm_num [vec6_val, cxfpdiv_cxmake, cxmake_re, cxmake_im, cxzero_sv_re, cxzero_sv_im, hs]
    all_goals
      simp only [div_pow, neg_sq]
      rw [hs2]
      field_simp
      linear_combination (-1) * hshell

theorem propagator_denominator_ne_zero_of_width {K : Type} [LinearOrderedField K]
    (P3 : Fin 4 → K) (M3 W3 : K) (h : M3 * W3 ≠ 0) : propagator_denominator P3 M3 W3 ≠ 0 := by
  rw [propagator_denominator_eq, Ne, cxtype.eq_zero_iff, cxmake_im]
  rintro ⟨_, h0⟩
  exact h h0

theorem pvec_massive_on_shell :
    (0 : ℝ) < (pvec_massive : pvec_t ℝ) 0
    ∧ (pvec_massive : pvec_t ℝ) 0 ^ 2
        = (pvec_massive : pvec_t ℝ) 1 ^ 2 + (pvec_massive : pvec_t ℝ) 2 ^ 2
          + (pvec_massive : pvec_t ℝ) 3 ^ 2 + (-4 : ℝ) ^ 2 := by
  constructor <;> norm_num [pvec_massive]

theorem FFV1_0_const {K : Type} [LinearOrderedField K] (f g v c : cxtype K) :
    FFV1_0 (fun _ => f) (fun _ => g) (fun _ => v) c
      = c * (-(cxmake 0 1)) * (cxmake 4 0 * (f * g * v)) := by
  rw [cxtype.ext_iff2]
  simp only [FFV1_0, cxtype.add_re, cxtype.add_im, cxtype.sub_re, cxtype.sub_im, cxtype.mul_re,
    cxtype.mul_im, cxtype.neg_re, cxtype.neg_im, cxmake_re, cxmake_im]
  constructor <;> ring

theorem contribution_absorb (ievt : Nat) (hel : hel_t) :
    contribution amps_example (momenta_absorb ievt) hel cIPD_example cIPC_absorb
      = 448 / 3 * ((-1 + (hel 0 : ℚ)) ^ 2 + 1 / 2 ^ 60) * (2 + (hel 1 : ℚ)) ^ 2
          * (16 + (hel 2 : ℚ) ^ 2) * (8 * (1 + (hel 3 : ℚ)) ^ 2) := by
  unfold contribution
  rw [deltaMEs_eq]
  simp only [jamp_sv, amps_example, FFV1_0_const, cIPD_example, cIPC_absorb, momenta_absorb,
    Matrix.cons_val_zero, Matrix.cons_val_one, Matrix.head_cons, cxtype.add_re, cxtype.add_im,
    cxtype.sub_re, cxtype.sub_im, cxtype.mul_re, cxtype.mul_im, cxtype.neg_re, cxtype.neg_im,
    cxmake_re, cxmake_im, cxzero_sv_re, cxzero_sv_im]
  norm_num
  ring

theorem cHel_view_rows :
    cHel_view 0 = (fun j => ([-1, -1, -1, -1] : List Int).getD j 0)
    ∧ cHel_view 1 = (fun j => ([-1, -1, -1, 1] : List Int).getD j 0)
    ∧ cHel_view 2 = (fun j => ([-1, -1, 1, -1] : List Int).getD j 0)
    ∧ cHel_view 3 = (fun j => ([-1, -1, 1, 1] : List Int).getD j 0)
    ∧ cHel_view 4 = (fun j => ([-1, 1, -1, -1] : List Int).getD j 0)
    ∧ cHel_view 5 = (fun j => ([-1, 1, -1, 1] : List Int).getD j 0)
    ∧ cHel_view 6 = (fun j => ([-1, 1, 1, -1] : List Int).getD j 0)
    ∧ cHel_view 7 = (fun j => ([-1, 1, 1, 1] : List Int).getD j 0)
    ∧ cHel_view 8 = (fun j => ([1, -1, -1, -1] : List Int).getD j 0)
    ∧ cHel_view 9 = (fun j => ([1, -1, -1, 1] : List Int).getD j 0) :=
  ⟨rfl, rfl, rfl, rfl, rfl, rfl, rfl, rfl, rfl, rfl⟩

theorem contribution_absorb_rows :
    contribution amps_example (momenta_absorb 0) (cHel_view 0) cIPD_example cIPC_absorb = 0
    ∧ contribution amps_example (momenta_absorb 0) (cHel_view 1) cIPD_example cIPC_absorb
        = 448 / 3 * (4 + 1 / 2 ^ 60) * 1 * 17 * 32
    ∧ contribution amps_example (momenta_absorb 0) (cHel_view 2) cIPD_example cIPC_absorb = 0
    ∧ contribution amps_example (momenta_absorb 0) (cHel_view 3) cIPD_example cIPC_absorb
        = 448 / 3 * (4 + 1 / 2 ^ 60) * 1 * 17 * 32
    ∧ contribution amps_example (momenta_absorb 0) (cHel_view 4) cIPD_example cIPC_absorb = 0
    ∧ contribution amps_example (momenta_absorb 0) (cHel_view 5) cIPD_example cIPC_absorb
        = 448 / 3 * (4 + 1 / 2 ^ 60) * 9 * 17 * 32
    ∧ contribution amps_example (momenta_absorb 0) (cHel_view 6) cIPD_example cIPC_absorb = 0
    ∧ contribution amps_example (momenta_absorb 0) (cHel_view 7) cIPD_example cIPC_absorb
        = 448 / 3 * (4 + 1 / 2 ^ 60) * 9 * 17 * 32
    ∧ contribution amps_example (momenta_absorb 0) (cHel_view 8) cIPD_example cIPC_absorb = 0
    ∧ contribution amps_example (momenta_absorb 0) (cHel_view 9) cIPD_example cIPC_absorb
        = 448 / 3 * (1 / 2 ^ 60) * 1 * 17 * 32 := by
  obtain ⟨r0, r1, r2, r3, r4, r5, r6, r7, r8, r9⟩ := cHel_view_rows
  refine ⟨?_, ?_, ?_, ?_, ?_, ?_, ?_, ?_, ?_, ?_⟩
  · rw [contribution_absorb, r0]; norm_num
  · rw [contribution_absorb, r1]; norm_num
  · rw [contribution_absorb, r2]; norm_num
  · rw [contribution_absorb, r3]; norm_num
  · rw [contribution_absorb, r4]; norm_num
  · rw [contribution_absorb, r5]; norm_num
  · rw [contribution_absorb, r6]; norm_num
  · rw [contribution_absorb, r7]; norm_num
  · rw [contribution_absorb, r8]; norm_num
  · rw [contribution_absorb, r9]; norm_num

theorem accumulator_absorb :
    accumulator_rounded fpadd_absorbing amps_example (momenta_absorb 0) cHel_view cIPD_example
        cIPC_absorb 0 9
      = 448 / 3 * (4 + 1 / 2 ^ 60) * 20 * 17 * 32 := by
  obtain ⟨c0, c1, c2, c3, c4, c5, c6, c7, c8, _⟩ := contribution_absorb_rows
  have a0 : accumulator_rounded fpadd_absorbing amps_example (momenta_absorb 0) cHel_view
      cIPD_example cIPC_absorb 0 0 = 0 := rfl
  have a1 : accumulator_rounded fpadd_absorbing amps_example (momenta_absorb 0) cHel_view
      cIPD_example cIPC_absorb 0 1 = 0 := by
    rw [accumulator_rounded_succ, a0, c0]; norm_num [fpadd_absorbing]
  have a2 : accumulator_rounded fpadd_absorbing amps_example (momenta_absorb 0) cHel_view
      cIPD_example cIPC_absorb 0 2 = 448 / 3 * (4 + 1 / 2 ^ 60) * 1 * 17 * 32 := by
    rw [accumulator_rounded_succ, a1, c1]; norm_num [fpadd_absorbing]
  have a3 : accumulator_rounded fpadd_absorbing amps_example (momenta_absorb 0) cHel_view
      cIPD_example cIPC_absorb 0 3 = 448 / 3 * (4 + 1 / 2 ^ 60) * 1 * 17 * 32 := by
    rw [accumulator_rounded_succ, a2, c2]; norm_num [fpadd_absorbing]
  have a4 : accumulator_rounded fpadd_absorbing amps_example (momenta_absorb 0) cHel_view
      cIPD_example cIPC_absorb 0 4 = 448 / 3 * (4 + 1 / 2 ^ 60) * 2 * 17 * 32 := by
    rw [accumulator_rounded_succ, a3, c3]; norm_num [fpadd_absorbing, abs_of_pos]
  have a5 : accumulator_rounded fpadd_absorbing amps_example (momenta_absorb 0) cHel_view
      cIPD_example cIPC_absorb 0 5 = 448 / 3 * (4 + 1 / 2 ^ 60) * 2 * 17 * 32 := by
    rw [accumulator_rounded_succ, a4, c4]; norm_num [fpadd_absorbing]
  have a6 : accumulator_rounded fpadd_absorbing amps_example (momenta_absorb 0) cHel_view
      cIPD_example cIPC_absorb 0 6 = 448 / 3 * (4 + 1 / 2 ^ 60) * 11 * 17 * 32 := by
    rw [accumulator_rounded_succ, a5, c5]; norm_num [fpadd_absorbing, abs_of_pos]
  have a7 : accumulator_rounded fpadd_absorbing amps_example (momenta_absorb 0) cHel_view
      cIPD_example cIPC_absorb 0 7 = 448 / 3 * (4 + 1 / 2 ^ 60) * 11 * 17 * 32 := by
    rw [accumulator_rounded_succ, a6, c6]; norm_num [fpadd_absorbing]
  have a8 : accumulator_rounded fpadd_absorbing amps_example (momenta_absorb 0) cHel_view
      cIPD_example cIPC_absorb 0 8 = 448 / 3 * (4 + 1 / 2 ^ 60) * 20 * 17 * 32 := by
    rw [accumulator_rounded_succ, a7, c7]; norm_num [fpadd_absorbing, abs_of_pos]
  rw [accumulator_rounded_succ, a8, c8]; norm_num [fpadd_absorbing]

theorem div_checked_of_ne {K : Type} [LinearOrderedField K] (a b : K) (h : b ≠ 0) :
    div_checked a b = some (a / b) := by
  simp [div_checked, h]

theorem vxxxxx_checked_massless (pvec : pvec_t ℝ) (nhel nsv : Int) (hE : pvec 0 ≠ 0) :
    vxxxxx_checked Real.sqrt pvec 0 nhel nsv = some (vxxxxx Real.sqrt pvec 0 nhel nsv) := by
  have hsum : 0 ≤ pvec 1 * pvec 1 + pvec 2 * pvec 2 := by
    have h1 := mul_self_nonneg (pvec 1)
    have h2 := mul_self_nonneg (pvec 2)
    linarith
  have hh : (0 : ℝ) ≤ 1 / 2 := by norm_num
  simp only [vxxxxx_checked, vxxxxx, ne_eq, not_true_eq_false, if_false,
    sqrt_checked_of_nonneg _ hh, sqrt_checked_of_nonneg _ hsum, Option.some_bind,
    div_checked_of_ne _ _ hE]
  by_cases hpt : Real.sqrt (pvec 1 * pvec 1 + pvec 2 * pvec 2) = 0
  · simp only [hpt, not_true_eq_false, if_false]
  · simp only [hpt, not_false_eq_true, if_true, div_checked_of_ne _ _ hpt,
      div_checked_of_ne _ _ (mul_ne_zero hE hpt), Option.some_bind]

end WavefunctionLemmas

/-! ## Colour algebra and accumulation -/

section ClaimsAssembly

variable {K : Type} [LinearOrderedField K]

/-- C1: for every pair of colour-flow totals the contribution `deltaMEs` computed with
`cf = {{16,-2},{-2,16}}` and `denom = {3,3}` is at least 0, it is 0 exactly when both totals
are 0, and a call of `calculate_wavefunctions` never decreases the accumulator. -/
theorem deltaMEs_nonneg_zero_iff (jamp : Fin 2 → cxtype K) (H : HelAmps_sm K)
    (allmomenta : mom_t K) (cHel : hel_t) (cIPD cIPC : Nat → K) (allMEs : K) :
    0 ≤ deltaMEs jamp
    ∧ (deltaMEs jamp = 0 ↔ jamp 0 = 0 ∧ jamp 1 = 0)
    ∧ allMEs ≤ calculate_wavefunctions H allmomenta cHel cIPD cIPC allMEs :=
  ⟨deltaMEs_nonneg jamp, deltaMEs_eq_zero_iff jamp,
    le_add_of_nonneg_right (deltaMEs_nonneg _)⟩

/-- C2: `calculate_wavefunctions` leaves the accumulator equal to its initial value `a` plus
the contribution of the momenta, helicity row and constants; the contribution does not
depend on `a` and is what the routine leaves in a zero accumulator. -/
theorem calculate_wavefunctions_adds (H : HelAmps_sm K) (allmomenta : mom_t K) (cHel : hel_t)
    (cIPD cIPC : Nat → K) (a : K) :
    calculate_wavefunctions H allmomenta cHel cIPD cIPC a
        = a + contribution H allmomenta cHel cIPD cIPC
    ∧ contribution H allmomenta cHel cIPD cIPC
        = calculate_wavefunctions H allmomenta cHel cIPD cIPC 0 := by
  constructor
  · rfl
  · simp [calculate_wavefunctions, contribution]

end ClaimsAssembly

/-! ## Production: `sigmaKin` -/

section ClaimsProduction

variable {K : Type} [LinearOrderedField K]

/-- C3: for every event `ievt` of the batch and every prior content of the output view,
`sigmaKin` writes the sum over `k < nGoodHel` of the contribution of helicity row
`iGoodHel k` for the momenta of the event, divided by 512; running `sigmaKin` on its own
output gives the same output again. -/
theorem sigmaKin_writes_helicity_sum (H : HelAmps_sm K) (momenta : Nat → mom_t K)
    (allMEs : Nat → K) (cHel : Nat → hel_t) (cIPD cIPC : Nat → K) (iGoodHel : Nat → Nat)
    (nGoodHel league_size team_size ievt : Nat) (h : ievt < league_size * team_size) :
    sigmaKin H momenta allMEs cHel cIPD cIPC iGoodHel nGoodHel league_size team_size ievt
        = ((List.range nGoodHel).map
            (fun k => contribution H (momenta ievt) (cHel (iGoodHel k)) cIPD cIPC)).sum / 512
    ∧ sigmaKin H momenta
          (sigmaKin H momenta allMEs cHel cIPD cIPC iGoodHel nGoodHel league_size team_size)
          cHel cIPD cIPC iGoodHel nGoodHel league_size team_size
        = sigmaKin H momenta allMEs cHel cIPD cIPC iGoodHel nGoodHel league_size team_size := by
  refine ⟨?_, ?_⟩
  · rw [sigmaKin_eq]
    simp only [h, if_true, sigmaKin_value]
  · rw [sigmaKin_eq, sigmaKin_eq]
    funext j
    by_cases hj : j < league_size * team_size
    · simp only [hj, if_true]
    · simp only [hj, if_false]

theorem sigmaKin_writes_helicity_sum_witness :
    3 < 2 * 2
    ∧ (sigmaKin amps_example momenta_example (fun _ => 7) cHel_view cIPD_example cIPC_example
          iGoodHel_id 16 2 2 3
        = ((List.range 16).map
            (fun k => contribution amps_example (momenta_example 3) (cHel_view (iGoodHel_id k))
              cIPD_example cIPC_example)).sum / 512
      ∧ sigmaKin amps_example momenta_example
          (sigmaKin amps_example momenta_example (fun _ => 7) cHel_view cIPD_example
            cIPC_example iGoodHel_id 16 2 2)
          cHel_view cIPD_example cIPC_example iGoodHel_id 16 2 2
        = sigmaKin amps_example momenta_example (fun _ => 7) cHel_view cIPD_example
            cIPC_example iGoodHel_id 16 2 2) :=
  ⟨by decide,
    sigmaKin_writes_helicity_sum amps_example momenta_example (fun _ => 7) cHel_view
      cIPD_example cIPC_example iGoodHel_id 16 2 2 3 (by decide)⟩

/-- C4: `sigmaKin` writes a value that is at least 0 to the output slot of every event of
the batch, whatever the good-helicity list and count. -/
theorem sigmaKin_nonneg (H : HelAmps_sm K) (momenta : Nat → mom_t K)
    (allMEs : Nat → K) (cHel : Nat → hel_t) (cIPD cIPC : Nat → K) (iGoodHel : Nat → Nat)
    (nGoodHel league_size team_size ievt : Nat) (h : ievt < league_size * team_size) :
    0 ≤ sigmaKin H momenta allMEs cHel cIPD cIPC iGoodHel nGoodHel league_size team_size
      ievt := by
  rw [sigmaKin_eq]
  simp only [h, if_true, sigmaKin_value]
  apply div_nonneg _ (by norm_num)
  apply List.sum_nonneg
  intro x hx
  obtain ⟨k, _, rfl⟩ := List.mem_map.mp hx
  exact deltaMEs_nonneg _

theorem sigmaKin_nonneg_witness :
    1 < 1 * 2
    ∧ 0 ≤ sigmaKin amps_example momenta_example (fun _ => -3) cHel_view cIPD_example
        cIPC_example iGoodHel_swap 5 1 2 1 :=
  ⟨by decide,
    sigmaKin_nonneg amps_example momenta_example (fun _ => -3) cHel_view cIPD_example
      cIPC_example iGoodHel_swap 5 1 2 1 (by decide)⟩

/-- C5: with a good-helicity count of 0, `sigmaKin` (a total function: no step of it can
fail) writes exactly 0 to the output slot of every event of the batch, for every momentum
buffer and every prior content of the output view. -/
theorem sigmaKin_zero_of_no_good_helicity (H : HelAmps_sm K) (momenta : Nat → mom_t K)
    (allMEs : Nat → K) (cHel : Nat → hel_t) (cIPD cIPC : Nat → K) (iGoodHel : Nat → Nat)
    (league_size team_size ievt : Nat) (h : ievt < league_size * team_size) :
    sigmaKin H momenta allMEs cHel cIPD cIPC iGoodHel 0 league_size team_size ievt = 0 := by
  rw [sigmaKin_eq]
  simp [h, sigmaKin_value]

theorem sigmaKin_zero_of_no_good_helicity_witness :
    2 < 3 * 1
    ∧ sigmaKin amps_example momenta_example (fun _ => 9) cHel_view cIPD_example cIPC_example
        iGoodHel_id 0 3 1 2 = 0 :=
  ⟨by decide,
    sigmaKin_zero_of_no_good_helicity amps_example momenta_example (fun _ => 9) cHel_view
      cIPD_example cIPC_example iGoodHel_id 3 1 2 (by decide)⟩

/-- C10: for fixed momenta and constants the output of `sigmaKin` is the same for every
permutation of the entries `iGoodHel[0 .. nGoodHel)`. -/
theorem sigmaKin_perm_invariant (H : HelAmps_sm K) (momenta : Nat → mom_t K)
    (allMEs : Nat → K) (cHel : Nat → hel_t) (cIPD cIPC : Nat → K)
    (iGoodHel iGoodHel2 : Nat → Nat) (nGoodHel league_size team_size : Nat)
    (hperm : ((List.range nGoodHel).map iGoodHel2).Perm ((List.range nGoodHel).map iGoodHel)) :
    sigmaKin H momenta allMEs cHel cIPD cIPC iGoodHel2 nGoodHel league_size team_size
      = sigmaKin H momenta allMEs cHel cIPD cIPC iGoodHel nGoodHel league_size team_size := by
  rw [sigmaKin_eq, sigmaKin_eq]
  funext ievt
  by_cases hj : ievt < league_size * team_size
  · simp only [hj, if_true, sigmaKin_value]
    congr 1
    have e : ∀ g : Nat → Nat,
        (List.range nGoodHel).map
            (fun k => contribution H (momenta ievt) (cHel (g k)) cIPD cIPC)
          = ((List.range nGoodHel).map g).map
              (fun ihel => contribution H (momenta ievt) (cHel ihel) cIPD cIPC) := by
      intro g
      rw [List.map_map]
      rfl
    rw [e iGoodHel, e iGoodHel2]
    exact (hperm.map _).sum_eq
  · simp only [hj, if_false]

theorem sigmaKin_perm_invariant_witness :
    ((List.range 4).map iGoodHel_swap).Perm ((List.range 4).map iGoodHel_id)
    ∧ sigmaKin amps_example momenta_example (fun _ => 0) cHel_view cIPD_example cIPC_example
          iGoodHel_swap 4 1 2
        = sigmaKin amps_example momenta_example (fun _ => 0) cHel_view cIPD_example
            cIPC_example iGoodHel_id 4 1 2 :=
  ⟨by decide,
    sigmaKin_perm_invariant amps_example momenta_example (fun _ => 0) cHel_view cIPD_example
      cIPC_example iGoodHel_id iGoodHel_swap 4 1 2 (by decide)⟩

end ClaimsProduction

/-! ## Discovery: `sigmaKin_setup` -/

section ClaimsDiscovery

variable {K : Type} [LinearOrderedField K]

/-- The zeroed output slots cannot be dispensed with at `ihel = 0`: `sigmaKin_setup` does not
zero the slot of an event (as `sigmaKin` does at line 455) and compares it with
`allMEsLast = 0`. With zero quark-gluon coupling every contribution is 0, so on a one-event
batch whose output slot holds 1 on entry the accumulator is the same before and after
helicity 0, yet helicity 0 is marked good. -/
theorem sigmaKin_setup_marks_unchanged_first :
    ¬ ((sigmaKin_setup_marks amps_example momenta_example (fun _ => 1) cHel_view cIPD_example
          (fun _ => 0) 16 1 1).2 0 ≠ 0 ↔
        ∃ ievt, ievt < 1 * 1
          ∧ accumulator amps_example (momenta_example ievt) cHel_view cIPD_example (fun _ => 0)
              1 (0 + 1)
            ≠ accumulator amps_example (momenta_example ievt) cHel_view cIPD_example
              (fun _ => 0) 1 0) := by
  have hc : ∀ (ievt ihel : Nat), contribution amps_example (momenta_example ievt)
      (cHel_view ihel) cIPD_example (fun _ => 0) = 0 :=
    fun ievt ihel => contribution_coup_zero amps_example rfl _ _ _ _ rfl rfl
  intro h
  have hmark : (sigmaKin_setup_marks amps_example momenta_example (fun _ => 1) cHel_view
      cIPD_example (fun _ => 0) 16 1 1).2 0 ≠ 0 := by
    rw [(sigmaKin_setup_marks_eq amps_example momenta_example (fun _ => 1) cHel_view
      cIPD_example (fun _ => 0) 16 1 1).2 0]
    refine ⟨by decide, 0, by decide, ?_⟩
    unfold marks_event allMEsLast_at
    rw [accumulator_eq]
    simp [hc]
  obtain ⟨ievt, _, hne⟩ := h.mp hmark
  rw [accumulator_ne_iff] at hne
  exact hne (hc ievt 0)

/-- C6: in `sigmaKin_setup`, a helicity configuration `ihel < ncomb` is marked good if and
only if, for at least one event of the probe batch, that event's accumulator after
evaluating `ihel` differs from its value immediately before evaluating `ihel`. The
accumulators of the probe events are zero on entry (callers must zero the accumulator
before the first configuration of a batch); the hypothesis `hz` is this precondition, and
it is needed at `ihel = 0` only: for `ihel >= 1` the equivalence holds whatever the slots
held. -/
theorem sigmaKin_setup_marks_iff (H : HelAmps_sm K) (momenta : Nat → mom_t K)
    (allMEs : Nat → K) (cHel : Nat → hel_t) (cIPD cIPC : Nat → K)
    (ncomb league_size team_size ihel : Nat) (hlt : ihel < ncomb)
    (hz : ihel = 0 → ∀ ievt, ievt < league_size * team_size → allMEs ievt = 0) :
    (sigmaKin_setup_marks H momenta allMEs cHel cIPD cIPC ncomb league_size team_size).2 ihel
        ≠ 0 ↔
      ∃ ievt, ievt < league_size * team_size
        ∧ accumulator H (momenta ievt) cHel cIPD cIPC (allMEs ievt) (ihel + 1)
          ≠ accumulator H (momenta ievt) cHel cIPD cIPC (allMEs ievt) ihel := by
  rw [(sigmaKin_setup_marks_eq H momenta allMEs cHel cIPD cIPC ncomb league_size team_size).2
    ihel]
  constructor
  · rintro ⟨_, ievt, hi, hm⟩
    exact ⟨ievt, hi, (marks_event_iff_accumulator H momenta allMEs cHel cIPD cIPC ievt ihel
      (fun h0 => hz h0 ievt hi)).mp hm⟩
  · rintro ⟨ievt, hi, hm⟩
    exact ⟨hlt, ievt, hi, (marks_event_iff_accumulator H momenta allMEs cHel cIPD cIPC ievt ihel
      (fun h0 => hz h0 ievt hi)).mpr hm⟩

theorem sigmaKin_setup_marks_iff_witness :
    (0 < 16 ∧ (0 = 0 → ∀ ievt, ievt < 1 * 2 → (fun _ => 0 : Nat → ℚ) ievt = 0))
    ∧ ((sigmaKin_setup_marks amps_example momenta_example (fun _ => 0) cHel_view cIPD_example
          cIPC_example 16 1 2).2 0 ≠ 0 ↔
        ∃ ievt, ievt < 1 * 2
          ∧ accumulator amps_example (momenta_example ievt) cHel_view cIPD_example cIPC_example
              ((fun _ => 0 : Nat → ℚ) ievt) (0 + 1)
            ≠ accumulator amps_example (momenta_example ievt) cHel_view cIPD_example
              cIPC_example ((fun _ => 0 : Nat → ℚ) ievt) 0) :=
  ⟨⟨by decide, fun _ _ _ => rfl⟩,
    sigmaKin_setup_marks_iff amps_example momenta_example (fun _ => 0) cHel_view cIPD_example
      cIPC_example 16 1 2 0 (by decide) (fun _ _ _ => rfl)⟩

/-- In exact arithmetic, where adding a contribution changes the running sum exactly when
the contribution is not zero: when `sigmaKin_setup` starts from zeroed accumulators of the
probe events and a zero good-helicity count, every configuration `ihel < ncomb` whose
contribution is nonzero for at least one probe event is in the resulting list
`iGoodHel[0 .. nGoodHel)`, and every listed configuration is below `ncomb` and has a nonzero
contribution for at least one probe event. -/
theorem sigmaKin_setup_list_exact (H : HelAmps_sm K) (momenta : Nat → mom_t K)
    (allMEs : Nat → K) (cHel : Nat → hel_t) (cIPD cIPC : Nat → K) (iGoodHel : Nat → Nat)
    (ncomb league_size team_size : Nat)
    (hz : ∀ ievt, ievt < league_size * team_size → allMEs ievt = 0) :
    (∀ ihel, ihel < ncomb →
      (∃ ievt, ievt < league_size * team_size
        ∧ contribution H (momenta ievt) (cHel ihel) cIPD cIPC ≠ 0) →
      ∃ k, k < (sigmaKin_setup H momenta allMEs cHel cIPD cIPC iGoodHel 0 ncomb league_size
            team_size).nGoodHel
        ∧ (sigmaKin_setup H momenta allMEs cHel cIPD cIPC iGoodHel 0 ncomb league_size
            team_size).iGoodHel k = ihel)
    ∧ (∀ k, k < (sigmaKin_setup H momenta allMEs cHel cIPD cIPC iGoodHel 0 ncomb league_size
            team_size).nGoodHel →
        (sigmaKin_setup H momenta allMEs cHel cIPD cIPC iGoodHel 0 ncomb league_size
            team_size).iGoodHel k < ncomb
        ∧ ∃ ievt, ievt < league_size * team_size
          ∧ contribution H (momenta ievt)
              (cHel ((sigmaKin_setup H momenta allMEs cHel cIPD cIPC iGoodHel 0 ncomb
                league_size team_size).iGoodHel k)) cIPD cIPC ≠ 0) := by
  constructor
  · rintro ihel hlt ⟨ievt, hi, hc⟩
    rw [mem_sigmaKin_setup_list]
    exact ⟨hlt, ievt, hi,
      (marks_event_iff_contribution H momenta allMEs cHel cIPD cIPC ievt ihel (hz ievt hi)).mpr
        hc⟩
  · intro k hk
    obtain ⟨hlt, ievt, hi, hm⟩ :=
      (mem_sigmaKin_setup_list H momenta allMEs cHel cIPD cIPC iGoodHel ncomb league_size
        team_size _).mp ⟨k, hk, rfl⟩
    exact ⟨hlt, ievt, hi,
      (marks_event_iff_contribution H momenta allMEs cHel cIPD cIPC ievt _ (hz ievt hi)).mp hm⟩

theorem sigmaKin_setup_list_exact_witness :
    (∀ ievt, ievt < 1 * 2 → (fun _ => 0 : Nat → ℚ) ievt = 0)
    ∧ ((∀ ihel, ihel < 16 →
        (∃ ievt, ievt < 1 * 2
          ∧ contribution amps_example (momenta_example ievt) (cHel_view ihel) cIPD_example
              cIPC_example ≠ 0) →
        ∃ k, k < (sigmaKin_setup amps_example momenta_example (fun _ => 0) cHel_view
              cIPD_example cIPC_example iGoodHel_id 0 16 1 2).nGoodHel
          ∧ (sigmaKin_setup amps_example momenta_example (fun _ => 0) cHel_view cIPD_example
              cIPC_example iGoodHel_id 0 16 1 2).iGoodHel k = ihel)
      ∧ (∀ k, k < (sigmaKin_setup amps_example momenta_example (fun _ => 0) cHel_view
              cIPD_example cIPC_example iGoodHel_id 0 16 1 2).nGoodHel →
          (sigmaKin_setup amps_example momenta_example (fun _ => 0) cHel_view cIPD_example
              cIPC_example iGoodHel_id 0 16 1 2).iGoodHel k < 16
          ∧ ∃ ievt, ievt < 1 * 2
            ∧ contribution amps_example (momenta_example ievt)
                (cHel_view ((sigmaKin_setup amps_example momenta_example (fun _ => 0) cHel_view
                  cIPD_example cIPC_example iGoodHel_id 0 16 1 2).iGoodHel k))
                cIPD_example cIPC_example ≠ 0)) :=
  ⟨fun _ _ => rfl,
    sigmaKin_setup_list_exact amps_example momenta_example (fun _ => 0) cHel_view cIPD_example
      cIPC_example iGoodHel_id 16 1 2 (fun _ _ => rfl)⟩

/-- C7 (code bug): the test `allMEs[ievt] != allMEsLast` of `sigmaKin_setup` compares running
sums formed by the rounded addition of `fptype`, not the contribution with 0. Whenever a
configuration `ihel >= 1` has a nonzero contribution for some probe event but, for every
probe event, the addition returns the running sum unchanged (the contribution is absorbed),
the good-helicity list found from a zero count omits that configuration, whatever the
output slots held on entry (zeroed slots included): the property that every configuration
with a nonzero contribution on some probe event is listed fails. -/
theorem sigmaKin_setup_rounded_omits_absorbed (fpadd : K → K → K) (H : HelAmps_sm K)
    (momenta : Nat → mom_t K) (allMEs : Nat → K) (cHel : Nat → hel_t) (cIPD cIPC : Nat → K)
    (iGoodHel : Nat → Nat) (ncomb league_size team_size ihel : Nat)
    (hlt : ihel < ncomb) (h0 : 0 < ihel)
    (hc : ∃ ievt, ievt < league_size * team_size
      ∧ contribution H (momenta ievt) (cHel ihel) cIPD cIPC ≠ 0)
    (habs : ∀ ievt, ievt < league_size * team_size →
      fpadd (accumulator_rounded fpadd H (momenta ievt) cHel cIPD cIPC (allMEs ievt) ihel)
          (contribution H (momenta ievt) (cHel ihel) cIPD cIPC)
        = accumulator_rounded fpadd H (momenta ievt) cHel cIPD cIPC (allMEs ievt) ihel) :
    (¬ ∃ k, k < (sigmaKin_setup_rounded fpadd H momenta allMEs cHel cIPD cIPC iGoodHel 0 ncomb
            league_size team_size).nGoodHel
        ∧ (sigmaKin_setup_rounded fpadd H momenta allMEs cHel cIPD cIPC iGoodHel 0 ncomb
            league_size team_size).iGoodHel k = ihel)
    ∧ ¬ (∀ j, j < ncomb →
        (∃ ievt, ievt < league_size * team_size
          ∧ contribution H (momenta ievt) (cHel j) cIPD cIPC ≠ 0) →
        ∃ k, k < (sigmaKin_setup_rounded fpadd H momenta allMEs cHel cIPD cIPC iGoodHel 0 ncomb
              league_size team_size).nGoodHel
          ∧ (sigmaKin_setup_rounded fpadd H momenta allMEs cHel cIPD cIPC iGoodHel 0 ncomb
              league_size team_size).iGoodHel k = j) := by
  have hne : ihel ≠ 0 := by omega
  have hnot : ¬ ∃ k, k < (sigmaKin_setup_rounded fpadd H momenta allMEs cHel cIPD cIPC iGoodHel
            0 ncomb league_size team_size).nGoodHel
        ∧ (sigmaKin_setup_rounded fpadd H momenta allMEs cHel cIPD cIPC iGoodHel 0 ncomb
            league_size team_size).iGoodHel k = ihel := by
    rw [mem_sigmaKin_setup_rounded_list]
    rintro ⟨_, ievt, hi, hm⟩
    apply hm
    unfold allMEsLast_at_rounded
    rw [if_neg hne, accumulator_rounded_succ]
    exact habs ievt hi
  exact ⟨hnot, fun hall => hnot (hall ihel hlt hc)⟩

theorem sigmaKin_setup_rounded_omits_absorbed_witness :
    (9 < 16 ∧ 0 < 9
      ∧ (∃ ievt, ievt < 1 * 1
        ∧ contribution amps_example (momenta_absorb ievt) (cHel_view 9) cIPD_example cIPC_absorb
          ≠ 0)
      ∧ (∀ ievt, ievt < 1 * 1 →
        fpadd_absorbing
            (accumulator_rounded fpadd_absorbing amps_example (momenta_absorb ievt) cHel_view
              cIPD_example cIPC_absorb ((fun _ => 0 : Nat → ℚ) ievt) 9)
            (contribution amps_example (momenta_absorb ievt) (cHel_view 9) cIPD_example
              cIPC_absorb)
          = accumulator_rounded fpadd_absorbing amps_example (momenta_absorb ievt) cHel_view
              cIPD_example cIPC_absorb ((fun _ => 0 : Nat → ℚ) ievt) 9))
    ∧ ((¬ ∃ k, k < (sigmaKin_setup_rounded fpadd_absorbing amps_example momenta_absorb
              (fun _ => 0) cHel_view cIPD_example cIPC_absorb iGoodHel_id 0 16 1 1).nGoodHel
          ∧ (sigmaKin_setup_rounded fpadd_absorbing amps_example momenta_absorb (fun _ => 0)
              cHel_view cIPD_example cIPC_absorb iGoodHel_id 0 16 1 1).iGoodHel k = 9)
      ∧ ¬ (∀ j, j < 16 →
          (∃ ievt, ievt < 1 * 1
            ∧ contribution amps_example (momenta_absorb ievt) (cHel_view j) cIPD_example
                cIPC_absorb ≠ 0) →
          ∃ k, k < (sigmaKin_setup_rounded fpadd_absorbing amps_example momenta_absorb
                (fun _ => 0) cHel_view cIPD_example cIPC_absorb iGoodHel_id 0 16 1 1).nGoodHel
            ∧ (sigmaKin_setup_rounded fpadd_absorbing amps_example momenta_absorb (fun _ => 0)
                cHel_view cIPD_example cIPC_absorb iGoodHel_id 0 16 1 1).iGoodHel k = j)) :=
  have hc : ∃ ievt, ievt < 1 * 1
      ∧ contribution amps_example (momenta_absorb ievt) (cHel_view 9) cIPD_example cIPC_absorb
        ≠ 0 :=
    ⟨0, by decide, by rw [contribution_absorb_rows.2.2.2.2.2.2.2.2.2]; norm_num⟩
  have habs : ∀ ievt, ievt < 1 * 1 →
      fpadd_absorbing
          (accumulator_rounded fpadd_absorbing amps_example (momenta_absorb ievt) cHel_view
            cIPD_example cIPC_absorb ((fun _ => 0 : Nat → ℚ) ievt) 9)
          (contribution amps_example (momenta_absorb ievt) (cHel_view 9) cIPD_example
            cIPC_absorb)
        = accumulator_rounded fpadd_absorbing amps_example (momenta_absorb ievt) cHel_view
            cIPD_example cIPC_absorb ((fun _ => 0 : Nat → ℚ) ievt) 9 := by
    intro ievt hi
    have e : ievt = 0 := by omega
    subst e
    show fpadd_absorbing
      (accumulator_rounded fpadd_absorbing amps_example (momenta_absorb 0) cHel_view
        cIPD_example cIPC_absorb 0 9) _ = accumulator_rounded fpadd_absorbing amps_example
        (momenta_absorb 0) cHel_view cIPD_example cIPC_absorb 0 9
    rw [accumulator_absorb, contribution_absorb_rows.2.2.2.2.2.2.2.2.2]
    norm_num [fpadd_absorbing, abs_of_pos]
  ⟨⟨by decide, by decide, hc, habs⟩,
    sigmaKin_setup_rounded_omits_absorbed fpadd_absorbing amps_example momenta_absorb
      (fun _ => 0) cHel_view cIPD_example cIPC_absorb iGoodHel_id 16 1 1 9 (by decide)
      (by decide) hc habs⟩

/-- C8: started with `nGoodHel = 0`, `sigmaKin_setup` ends with `nGoodHel` equal to the number
of configurations marked good, hence at most `ncomb`, and with `iGoodHel[0 .. nGoodHel)` equal
to the marked indices in strictly increasing order, each exactly once and each below
`ncomb`. -/
theorem sigmaKin_setup_compaction (H : HelAmps_sm K) (momenta : Nat → mom_t K)
    (allMEs : Nat → K) (cHel : Nat → hel_t) (cIPD cIPC : Nat → K) (iGoodHel : Nat → Nat)
    (ncomb league_size team_size : Nat) :
    (sigmaKin_setup H momenta allMEs cHel cIPD cIPC iGoodHel 0 ncomb league_size
        team_size).nGoodHel
      = ((List.range ncomb).filter (fun ihel => decide
          ((sigmaKin_setup_marks H momenta allMEs cHel cIPD cIPC ncomb league_size
            team_size).2 ihel ≠ 0))).length
    ∧ (sigmaKin_setup H momenta allMEs cHel cIPD cIPC iGoodHel 0 ncomb league_size
        team_size).nGoodHel ≤ ncomb
    ∧ (List.range
        (sigmaKin_setup H momenta allMEs cHel cIPD cIPC iGoodHel 0 ncomb league_size
          team_size).nGoodHel).map
        (sigmaKin_setup H momenta allMEs cHel cIPD cIPC iGoodHel 0 ncomb league_size
          team_size).iGoodHel
      = (List.range ncomb).filter (fun ihel => decide
          ((sigmaKin_setup_marks H momenta allMEs cHel cIPD cIPC ncomb league_size
            team_size).2 ihel ≠ 0))
    ∧ ((List.range
        (sigmaKin_setup H momenta allMEs cHel cIPD cIPC iGoodHel 0 ncomb league_size
          team_size).nGoodHel).map
        (sigmaKin_setup H momenta allMEs cHel cIPD cIPC iGoodHel 0 ncomb league_size
          team_size).iGoodHel).Pairwise (fun a b => a < b)
    ∧ (∀ ihel, ihel < ncomb →
        (sigmaKin_setup_marks H momenta allMEs cHel cIPD cIPC ncomb league_size
          team_size).2 ihel ≠ 0 →
        ((List.range
          (sigmaKin_setup H momenta allMEs cHel cIPD cIPC iGoodHel 0 ncomb league_size
            team_size).nGoodHel).map
          (sigmaKin_setup H momenta allMEs cHel cIPD cIPC iGoodHel 0 ncomb league_size
            team_size).iGoodHel).count ihel = 1)
    ∧ (∀ k, k < (sigmaKin_setup H momenta allMEs cHel cIPD cIPC iGoodHel 0 ncomb league_size
          team_size).nGoodHel →
        (sigmaKin_setup H momenta allMEs cHel cIPD cIPC iGoodHel 0 ncomb league_size
          team_size).iGoodHel k < ncomb
        ∧ (sigmaKin_setup_marks H momenta allMEs cHel cIPD cIPC ncomb league_size
            team_size).2
          ((sigmaKin_setup H momenta allMEs cHel cIPD cIPC iGoodHel 0 ncomb league_size
            team_size).iGoodHel k) ≠ 0) := by
  obtain ⟨hl, hn⟩ := sigmaKin_setup_list H momenta allMEs cHel cIPD cIPC iGoodHel ncomb
    league_size team_size
  refine ⟨hn, ?_, hl, ?_, ?_, ?_⟩
  · rw [hn]
    calc _ ≤ (List.range ncomb).length := List.length_filter_le _ _
      _ = ncomb := List.length_range ncomb
  · rw [hl]
    exact (List.pairwise_lt_range ncomb).filter _
  · intro ihel hlt hm
    rw [hl]
    apply List.count_eq_one_of_mem ((List.nodup_range ncomb).filter _)
    rw [List.mem_filter, List.mem_range, decide_eq_true_eq]
    exact ⟨hlt, hm⟩
  · intro k hk
    have hmem : (sigmaKin_setup H momenta allMEs cHel cIPD cIPC iGoodHel 0 ncomb league_size
          team_size).iGoodHel k ∈ (List.range
        (sigmaKin_setup H momenta allMEs cHel cIPD cIPC iGoodHel 0 ncomb league_size
          team_size).nGoodHel).map
        (sigmaKin_setup H momenta allMEs cHel cIPD cIPC iGoodHel 0 ncomb league_size
          team_size).iGoodHel :=
      List.mem_map.mpr ⟨k, List.mem_range.mpr hk, rfl⟩
    rw [hl, List.mem_filter, List.mem_range, decide_eq_true_eq] at hmem
    exact hmem

/-- C9: for the good-helicity list that `sigmaKin_setup` produces from zeroed accumulators
and a zero count on a probe batch, `sigmaKin` gives for every event of that batch the sum of
the contributions of all `ncomb` helicity configurations divided by 512. -/
theorem sigmaKin_with_setup_list_full_sum (H : HelAmps_sm K) (momenta : Nat → mom_t K)
    (allMEs allMEs2 : Nat → K) (cHel : Nat → hel_t) (cIPD cIPC : Nat → K)
    (iGoodHel : Nat → Nat) (ncomb league_size team_size ievt : Nat)
    (hz : ∀ j, j < league_size * team_size → allMEs j = 0)
    (h : ievt < league_size * team_size) :
    sigmaKin H momenta allMEs2 cHel cIPD cIPC
        (sigmaKin_setup H momenta allMEs cHel cIPD cIPC iGoodHel 0 ncomb league_size
          team_size).iGoodHel
        (sigmaKin_setup H momenta allMEs cHel cIPD cIPC iGoodHel 0 ncomb league_size
          team_size).nGoodHel
        league_size team_size ievt
      = ((List.range ncomb).map
          (fun ihel => contribution H (momenta ievt) (cHel ihel) cIPD cIPC)).sum / 512 := by
  rw [sigmaKin_eq]
  simp only [h, if_true, sigmaKin_value]
  congr 1
  have e : (List.range
        (sigmaKin_setup H momenta allMEs cHel cIPD cIPC iGoodHel 0 ncomb league_size
          team_size).nGoodHel).map
      (fun k => contribution H (momenta ievt)
        (cHel ((sigmaKin_setup H momenta allMEs cHel cIPD cIPC iGoodHel 0 ncomb league_size
          team_size).iGoodHel k)) cIPD cIPC)
      = ((List.range
        (sigmaKin_setup H momenta allMEs cHel cIPD cIPC iGoodHel 0 ncomb league_size
          team_size).nGoodHel).map
        (sigmaKin_setup H momenta allMEs cHel cIPD cIPC iGoodHel 0 ncomb league_size
          team_size).iGoodHel).map
          (fun ihel => contribution H (momenta ievt) (cHel ihel) cIPD cIPC) := by
    rw [List.map_map]
    rfl
  rw [e, (sigmaKin_setup_list H momenta allMEs cHel cIPD cIPC iGoodHel ncomb league_size
    team_size).1]
  apply sum_map_filter_of_zero
  intro ihel hmem hp
  have hlt := List.mem_range.mp hmem
  have hnm : ¬ (sigmaKin_setup_marks H momenta allMEs cHel cIPD cIPC ncomb league_size
      team_size).2 ihel ≠ 0 := by
    simpa using hp
  rw [(sigmaKin_setup_marks_eq H momenta allMEs cHel cIPD cIPC ncomb league_size team_size).2
    ihel] at hnm
  by_contra hc
  exact hnm ⟨hlt, ievt, h,
    (marks_event_iff_contribution H momenta allMEs cHel cIPD cIPC ievt ihel (hz ievt h)).mpr hc⟩

theorem sigmaKin_with_setup_list_full_sum_witness :
    ((∀ j, j < 1 * 2 → (fun _ => 0 : Nat → ℚ) j = 0) ∧ 1 < 1 * 2)
    ∧ sigmaKin amps_example momenta_example (fun _ => 4) cHel_view cIPD_example cIPC_example
        (sigmaKin_setup amps_example momenta_example (fun _ => 0) cHel_view cIPD_example
          cIPC_example iGoodHel_id 0 16 1 2).iGoodHel
        (sigmaKin_setup amps_example momenta_example (fun _ => 0) cHel_view cIPD_example
          cIPC_example iGoodHel_id 0 16 1 2).nGoodHel
        1 2 1
      = ((List.range 16).map
          (fun ihel => contribution amps_example (momenta_example 1) (cHel_view ihel)
            cIPD_example cIPC_example)).sum / 512 :=
  ⟨⟨fun _ _ => rfl, by decide⟩,
    sigmaKin_with_setup_list_full_sum amps_example momenta_example (fun _ => 0) (fun _ => 4)
      cHel_view cIPD_example cIPC_example iGoodHel_id 16 1 2 1 (fun _ _ => rfl) (by decide)⟩

end ClaimsDiscovery

/-! ## Independence of events and of the team decomposition -/

section ClaimsBatch

variable {K : Type} [LinearOrderedField K]

/-- C16: for two momentum batches that agree on the momenta of event `i` (same constants,
helicity table, good-helicity list and count), `sigmaKin` writes the same value to output
slot `i`, whatever the other events' momenta and the prior contents of the output views. -/
theorem sigmaKin_event_independent (H : HelAmps_sm K) (momenta momenta2 : Nat → mom_t K)
    (allMEs allMEs2 : Nat → K) (cHel : Nat → hel_t) (cIPD cIPC : Nat → K)
    (iGoodHel : Nat → Nat) (nGoodHel league_size team_size i : Nat)
    (hi : i < league_size * team_size) (hmom : momenta i = momenta2 i) :
    sigmaKin H momenta allMEs cHel cIPD cIPC iGoodHel nGoodHel league_size team_size i
      = sigmaKin H momenta2 allMEs2 cHel cIPD cIPC iGoodHel nGoodHel league_size team_size
          i := by
  rw [sigmaKin_eq, sigmaKin_eq]
  simp only [hi, if_true, hmom]

theorem sigmaKin_event_independent_witness :
    (1 < 1 * 2 ∧ momenta_example 1 = (fun ievt => momenta_example (ievt % 2)) 1)
    ∧ sigmaKin amps_example momenta_example (fun _ => 7) cHel_view cIPD_example cIPC_example
          iGoodHel_id 16 1 2 1
        = sigmaKin amps_example (fun ievt => momenta_example (ievt % 2)) (fun _ => -1)
            cHel_view cIPD_example cIPC_example iGoodHel_id 16 1 2 1 :=
  ⟨⟨by decide, rfl⟩,
    sigmaKin_event_independent amps_example momenta_example
      (fun ievt => momenta_example (ievt % 2)) (fun _ => 7) (fun _ => -1) cHel_view
      cIPD_example cIPC_example iGoodHel_id 16 1 2 1 (by decide) rfl⟩

/-- C17: the event index `ievt = league_rank * team_size + team_rank` maps the pairs
(`league_rank < league_size`, `team_rank < team_size`) one-to-one onto the indices
`ievt < league_size * team_size`: it stays inside the batch, no two pairs share an index,
and every index of the batch is the index of some pair. -/
theorem ievt_of_bijective (league_size team_size : Nat) :
    (∀ league_rank team_rank, league_rank < league_size → team_rank < team_size →
      ievt_of league_rank team_size team_rank < league_size * team_size)
    ∧ (∀ league_rank team_rank league_rank2 team_rank2,
        team_rank < team_size → team_rank2 < team_size →
        ievt_of league_rank team_size team_rank = ievt_of league_rank2 team_size team_rank2 →
        league_rank = league_rank2 ∧ team_rank = team_rank2)
    ∧ (∀ ievt, ievt < league_size * team_size →
        ∃ league_rank team_rank, league_rank < league_size ∧ team_rank < team_size
          ∧ ievt_of league_rank team_size team_rank = ievt) := by
  refine ⟨?_, ?_, ?_⟩
  · intro lr tr hl ht
    unfold ievt_of
    calc lr * team_size + tr < lr * team_size + team_size := by omega
      _ = (lr + 1) * team_size := by ring
      _ ≤ league_size * team_size := Nat.mul_le_mul_right _ hl
  · intro lr tr lr2 tr2 ht ht2 h
    unfold ievt_of at h
    have hpos : 0 < team_size := by omega
    have e1 : (lr * team_size + tr) / team_size = lr := by
      rw [Nat.mul_comm, Nat.mul_add_div hpos, Nat.div_eq_of_lt ht, Nat.add_zero]
    have e2 : (lr2 * team_size + tr2) / team_size = lr2 := by
      rw [Nat.mul_comm, Nat.mul_add_div hpos, Nat.div_eq_of_lt ht2, Nat.add_zero]
    have hl : lr = lr2 := by rw [← e1, ← e2, h]
    subst hl
    exact ⟨rfl, by omega⟩
  · intro ievt hi
    have hpos : 0 < team_size := by
      rcases Nat.eq_zero_or_pos team_size with h0 | h0
      · rw [h0, Nat.mul_zero] at hi
        omega
      · exact h0
    refine ⟨ievt / team_size, ievt % team_size, ?_, Nat.mod_lt _ hpos, ?_⟩
    · exact (Nat.div_lt_iff_lt_mul hpos).mpr hi
    · unfold ievt_of
      exact Nat.div_add_mod' ievt team_size

/-- C18: for two decompositions (`league_size`, `team_size`) and (`league_size2`,
`team_size2`) with the same product, `sigmaKin` applied to the same momenta, constants and
good-helicity list leaves the same output view, hence the same value in every event's
slot. -/
theorem sigmaKin_decomposition_independent (H : HelAmps_sm K) (momenta : Nat → mom_t K)
    (allMEs : Nat → K) (cHel : Nat → hel_t) (cIPD cIPC : Nat → K) (iGoodHel : Nat → Nat)
    (nGoodHel league_size team_size league_size2 team_size2 : Nat)
    (h : league_size * team_size = league_size2 * team_size2) :
    sigmaKin H momenta allMEs cHel cIPD cIPC iGoodHel nGoodHel league_size team_size
      = sigmaKin H momenta allMEs cHel cIPD cIPC iGoodHel nGoodHel league_size2
          team_size2 := by
  rw [sigmaKin_eq, sigmaKin_eq, h]

theorem sigmaKin_decomposition_independent_witness :
    4 * 1 = 2 * 2
    ∧ sigmaKin amps_example momenta_example (fun _ => 7) cHel_view cIPD_example cIPC_example
          iGoodHel_id 16 4 1
        = sigmaKin amps_example momenta_example (fun _ => 7) cHel_view cIPD_example
            cIPC_example iGoodHel_id 16 2 2 :=
  ⟨by decide,
    sigmaKin_decomposition_independent amps_example momenta_example (fun _ => 7) cHel_view
      cIPD_example cIPC_example iGoodHel_id 16 4 1 2 2 (by decide)⟩

/-- C19: the helicity table has 16 rows of 4 entries, every entry is -1 or +1, the rows
are pairwise distinct, every assignment of -1/+1 to the four external particles occurs
exactly once, and the rows are in lexicographic order with -1 before +1: entry `j` of row
`i` is +1 exactly when the binary digit of weight `2^(3-j)` of `i` is set. -/
theorem tHel_enumerates_helicities :
    tHel.length = 16
    ∧ (∀ row ∈ tHel, row.length = 4 ∧ ∀ x ∈ row, x = -1 ∨ x = 1)
    ∧ tHel.Nodup
    ∧ (∀ a ∈ [(-1 : Int), 1], ∀ b ∈ [(-1 : Int), 1], ∀ c ∈ [(-1 : Int), 1],
        ∀ d ∈ [(-1 : Int), 1], tHel.count [a, b, c, d] = 1)
    ∧ tHel.Pairwise (fun r1 r2 => List.Lex (fun x y => x < y) r1 r2)
    ∧ (∀ i, i < 16 → ∀ j, j < 4 →
        cHel_view i j = (tHel.getD i []).getD j 0
        ∧ cHel_view i j = if (i / 2 ^ (3 - j)) % 2 = 1 then 1 else -1) := by
  refine ⟨by decide, by decide, by decide, by decide, by decide, by decide⟩

end ClaimsBatch

/-! ## Zero couplings -/

section ClaimsCoupling

variable {K : Type} [LinearOrderedField K]

/-- C13: for all wavefunctions `F1`, `F2`, `V3`, the amplitudes `FFV1_0`, `FFV2_0` and
`FFV4_0` are exactly 0 when `COUP = 0`, and `FFV2_4_0` is exactly 0 when
`COUP1 = COUP2 = 0`. -/
theorem FFV_amplitudes_zero_coupling (F1 F2 V3 : wavefunction K) :
    FFV1_0 F1 F2 V3 (cxmake 0 0) = cxmake 0 0
    ∧ FFV2_0 F1 F2 V3 (cxmake 0 0) = cxmake 0 0
    ∧ FFV4_0 F1 F2 V3 (cxmake 0 0) = cxmake 0 0
    ∧ FFV2_4_0 F1 F2 V3 (cxmake 0 0) (cxmake 0 0) = cxmake 0 0 := by
  refine ⟨FFV1_0_coup_zero F1 F2 V3, ?_, ?_, ?_⟩
  · simp only [FFV2_0, cxtype.zero_mul]
  · simp only [FFV4_0, cxfpmul, cxtype.zero_mul]
  · rw [← cxtype.eq_zero_iff_cxmake]
    simp [FFV2_4_0, fpcxmul, cxtype.eq_zero_iff, cxtype.mul_re, cxtype.mul_im, cxtype.add_re,
      cxtype.add_im, cxmake_re, cxmake_im]

/-- C14: in `calculate_wavefunctions`, with `FFV1_0` the routine of `HelAmps_sm.h` and a
zero quark-gluon coupling (`cIPC[2] = cIPC[3] = 0`), for every momentum set, helicity row
and every value of the other constants the three diagram amplitudes are 0, both colour-flow
totals are 0 and the accumulator is left unchanged. -/
theorem calculate_wavefunctions_zero_coupling (H : HelAmps_sm K) (allmomenta : mom_t K)
    (cHel : hel_t) (cIPD cIPC : Nat → K) (allMEs : K) (hF : H.FFV1_0 = FFV1_0)
    (h2 : cIPC 2 = 0) (h3 : cIPC 3 = 0) :
    (∀ k, amp_sv H allmomenta cHel cIPD cIPC k = 0)
    ∧ jamp_sv H allmomenta cHel cIPD cIPC 0 = 0
    ∧ jamp_sv H allmomenta cHel cIPD cIPC 1 = 0
    ∧ calculate_wavefunctions H allmomenta cHel cIPD cIPC allMEs = allMEs := by
  have hj := (deltaMEs_eq_zero_iff (jamp_sv H allmomenta cHel cIPD cIPC)).mp
    (contribution_coup_zero H hF allmomenta cHel cIPD cIPC h2 h3)
  refine ⟨?_, hj.1, hj.2, ?_⟩
  · intro k
    fin_cases k <;>
      simp [amp_sv, hF, h2, h3, FFV1_0_coup_zero]
  · have hc := contribution_coup_zero H hF allmomenta cHel cIPD cIPC h2 h3
    unfold contribution at hc
    simp [calculate_wavefunctions, hc]

theorem calculate_wavefunctions_zero_coupling_witness :
    (amps_example.FFV1_0 = FFV1_0
      ∧ (fun i => if i = 0 then (3 : ℚ) else 0) 2 = 0
      ∧ (fun i => if i = 0 then (3 : ℚ) else 0) 3 = 0)
    ∧ ((∀ k, amp_sv amps_example (momenta_example 0) (cHel_view 5) cIPD_example
          (fun i => if i = 0 then (3 : ℚ) else 0) k = 0)
      ∧ jamp_sv amps_example (momenta_example 0) (cHel_view 5) cIPD_example
          (fun i => if i = 0 then (3 : ℚ) else 0) 0 = 0
      ∧ jamp_sv amps_example (momenta_example 0) (cHel_view 5) cIPD_example
          (fun i => if i = 0 then (3 : ℚ) else 0) 1 = 0
      ∧ calculate_wavefunctions amps_example (momenta_example 0) (cHel_view 5) cIPD_example
          (fun i => if i = 0 then (3 : ℚ) else 0) 11 = 11) :=
  ⟨⟨rfl, by decide, by decide⟩,
    calculate_wavefunctions_zero_coupling amps_example (momenta_example 0) (cHel_view 5)
      cIPD_example (fun i => if i = 0 then (3 : ℚ) else 0) 11 rfl (by decide) (by decide)⟩

end ClaimsCoupling

/-! ## The good-helicity set over batches and over repeated discovery -/

section ClaimsRediscovery

variable {K : Type} [LinearOrderedField K]

/-- C11: for a probe batch and an event `e` of it, every configuration in the good-helicity
list that `sigmaKin_setup` finds from the one-event batch holding the momenta of `e` is in
the list it finds from the whole batch, both runs starting from zeroed accumulators and a
zero count. -/
theorem sigmaKin_setup_superset_of_single_event (H : HelAmps_sm K) (momenta : Nat → mom_t K)
    (allMEs allMEs1 : Nat → K) (cHel : Nat → hel_t) (cIPD cIPC : Nat → K)
    (iGoodHel iGoodHel1 : Nat → Nat) (ncomb league_size team_size e ihel : Nat)
    (hz : ∀ ievt, ievt < league_size * team_size → allMEs ievt = 0) (hz1 : allMEs1 0 = 0)
    (he : e < league_size * team_size)
    (h1 : ∃ k, k < (sigmaKin_setup H (fun _ => momenta e) allMEs1 cHel cIPD cIPC iGoodHel1 0
            ncomb 1 1).nGoodHel
        ∧ (sigmaKin_setup H (fun _ => momenta e) allMEs1 cHel cIPD cIPC iGoodHel1 0 ncomb 1
            1).iGoodHel k = ihel) :
    ∃ k, k < (sigmaKin_setup H momenta allMEs cHel cIPD cIPC iGoodHel 0 ncomb league_size
          team_size).nGoodHel
      ∧ (sigmaKin_setup H momenta allMEs cHel cIPD cIPC iGoodHel 0 ncomb league_size
          team_size).iGoodHel k = ihel := by
  rw [mem_sigmaKin_setup_list] at h1 ⊢
  obtain ⟨hlt, ievt, hi, hm⟩ := h1
  have h0 : ievt = 0 := by omega
  subst h0
  rw [marks_event_iff_contribution H (fun _ => momenta e) allMEs1 cHel cIPD cIPC 0 ihel hz1]
    at hm
  exact ⟨hlt, e, he,
    (marks_event_iff_contribution H momenta allMEs cHel cIPD cIPC e ihel (hz e he)).mpr hm⟩

theorem sigmaKin_setup_superset_of_single_event_witness :
    ((∀ ievt, ievt < 1 * 2 → (fun _ => 0 : Nat → ℚ) ievt = 0)
      ∧ (fun _ => 0 : Nat → ℚ) 0 = 0
      ∧ 0 < 1 * 2
      ∧ ∃ k, k < (sigmaKin_setup amps_example (fun _ => momenta_example 0) (fun _ => 0)
              cHel_view cIPD_example cIPC_example iGoodHel_id 0 16 1 1).nGoodHel
          ∧ (sigmaKin_setup amps_example (fun _ => momenta_example 0) (fun _ => 0) cHel_view
              cIPD_example cIPC_example iGoodHel_id 0 16 1 1).iGoodHel k = 1)
    ∧ ∃ k, k < (sigmaKin_setup amps_example momenta_example (fun _ => 0) cHel_view
            cIPD_example cIPC_example iGoodHel_id 0 16 1 2).nGoodHel
        ∧ (sigmaKin_setup amps_example momenta_example (fun _ => 0) cHel_view cIPD_example
            cIPC_example iGoodHel_id 0 16 1 2).iGoodHel k = 1 :=
  have h1 : ∃ k, k < (sigmaKin_setup amps_example (fun _ => momenta_example 0) (fun _ => 0)
            cHel_view cIPD_example cIPC_example iGoodHel_id 0 16 1 1).nGoodHel
        ∧ (sigmaKin_setup amps_example (fun _ => momenta_example 0) (fun _ => 0) cHel_view
            cIPD_example cIPC_example iGoodHel_id 0 16 1 1).iGoodHel k = 1 :=
    (mem_sigmaKin_setup_list amps_example (fun _ => momenta_example 0) (fun _ => 0) cHel_view
      cIPD_example cIPC_example iGoodHel_id 16 1 1 1).mpr
      ⟨by decide, 0, by decide,
        (marks_event_iff_contribution amps_example (fun _ => momenta_example 0) (fun _ => 0)
          cHel_view cIPD_example cIPC_example 0 1 rfl).mpr contribution_example_ne_zero⟩
  ⟨⟨fun _ _ => rfl, rfl, by decide, h1⟩,
    sigmaKin_setup_superset_of_single_event amps_example momenta_example (fun _ => 0)
      (fun _ => 0) cHel_view cIPD_example cIPC_example iGoodHel_id iGoodHel_id 16 1 2 0 1
      (fun _ _ => rfl) rfl (by decide) h1⟩

/-- C12 (code bug): `sigmaKin_setup` resets neither `nGoodHel(0)` nor the output slots before
it runs. On a one-event probe batch, a second run of `sigmaKin_setup` on the buffers the
first run (from a zeroed accumulator and a zero count) left does not end with the first
run's list and count: helicity 1 contributes, is marked again, and is appended after the
first run's entries. -/
theorem sigmaKin_setup_second_run_differs :
    ¬ ((List.range
          (sigmaKin_setup amps_example momenta_example
            (sigmaKin_setup amps_example momenta_example (fun _ => 0) cHel_view cIPD_example
              cIPC_example iGoodHel_id 0 16 1 1).allMEs
            cHel_view cIPD_example cIPC_example
            (sigmaKin_setup amps_example momenta_example (fun _ => 0) cHel_view cIPD_example
              cIPC_example iGoodHel_id 0 16 1 1).iGoodHel
            (sigmaKin_setup amps_example momenta_example (fun _ => 0) cHel_view cIPD_example
              cIPC_example iGoodHel_id 0 16 1 1).nGoodHel
            16 1 1).nGoodHel).map
          (sigmaKin_setup amps_example momenta_example
            (sigmaKin_setup amps_example momenta_example (fun _ => 0) cHel_view cIPD_example
              cIPC_example iGoodHel_id 0 16 1 1).allMEs
            cHel_view cIPD_example cIPC_example
            (sigmaKin_setup amps_example momenta_example (fun _ => 0) cHel_view cIPD_example
              cIPC_example iGoodHel_id 0 16 1 1).iGoodHel
            (sigmaKin_setup amps_example momenta_example (fun _ => 0) cHel_view cIPD_example
              cIPC_example iGoodHel_id 0 16 1 1).nGoodHel
            16 1 1).iGoodHel
        = (List.range
            (sigmaKin_setup amps_example momenta_example (fun _ => 0) cHel_view cIPD_example
              cIPC_example iGoodHel_id 0 16 1 1).nGoodHel).map
            (sigmaKin_setup amps_example momenta_example (fun _ => 0) cHel_view cIPD_example
              cIPC_example iGoodHel_id 0 16 1 1).iGoodHel
      ∧ (sigmaKin_setup amps_example momenta_example
          (sigmaKin_setup amps_example momenta_example (fun _ => 0) cHel_view cIPD_example
            cIPC_example iGoodHel_id 0 16 1 1).allMEs
          cHel_view cIPD_example cIPC_example
          (sigmaKin_setup amps_example momenta_example (fun _ => 0) cHel_view cIPD_example
            cIPC_example iGoodHel_id 0 16 1 1).iGoodHel
          (sigmaKin_setup amps_example momenta_example (fun _ => 0) cHel_view cIPD_example
            cIPC_example iGoodHel_id 0 16 1 1).nGoodHel
          16 1 1).nGoodHel
        = (sigmaKin_setup amps_example momenta_example (fun _ => 0) cHel_view cIPD_example
            cIPC_example iGoodHel_id 0 16 1 1).nGoodHel) := by
  rintro ⟨_, h⟩
  have h2 := (sigmaKin_setup_rerun amps_example momenta_example
    (sigmaKin_setup amps_example momenta_example (fun _ => 0) cHel_view cIPD_example
      cIPC_example iGoodHel_id 0 16 1 1).allMEs
    cHel_view cIPD_example cIPC_example
    (sigmaKin_setup amps_example momenta_example (fun _ => 0) cHel_view cIPD_example
      cIPC_example iGoodHel_id 0 16 1 1).iGoodHel
    (sigmaKin_setup amps_example momenta_example (fun _ => 0) cHel_view cIPD_example
      cIPC_example iGoodHel_id 0 16 1 1).nGoodHel 16 1 1).2
  rw [h2] at h
  have hlen := Nat.add_left_cancel (h.trans (Nat.add_zero _).symm)
  have hnil := List.length_eq_zero.mp hlen
  have hmem : (1 : Nat) ∈ (List.range 16).filter (fun ihel => decide
      ((sigmaKin_setup_marks amps_example momenta_example
        (sigmaKin_setup amps_example momenta_example (fun _ => 0) cHel_view cIPD_example
          cIPC_example iGoodHel_id 0 16 1 1).allMEs
        cHel_view cIPD_example cIPC_example 16 1 1).2 ihel ≠ 0)) := by
    rw [List.mem_filter, List.mem_range, decide_eq_true_eq,
      (sigmaKin_setup_marks_eq amps_example momenta_example _ cHel_view cIPD_example
        cIPC_example 16 1 1).2 1]
    refine ⟨by decide, by decide, 0, by decide, ?_⟩
    rw [marks_event_iff_accumulator _ _ _ _ _ _ 0 1 (fun h0 => absurd h0 (by decide)),
      accumulator_ne_iff]
    exact contribution_example_ne_zero
  rw [hnil] at hmem
  exact List.not_mem_nil _ hmem

end ClaimsRediscovery

/-! ## External fermion wavefunctions -/

section ClaimsWavefunctions

variable {K : Type} [LinearOrderedField K]

/-- C20: for every momentum with `px = py = 0` and `E = pz > 0` and all `nhel`, `nsf` in
{-1, +1}, `ipzxxx( p, nhel, nsf )` returns the same six components as
`ixxxxx( p, 0, nhel, nsf )`, for whatever square-root routine both use. -/
theorem ipzxxx_eq_ixxxxx_massless (fpsqrt : K → K) (pvec : pvec_t K) (nhel nsf : Int)
    (hx : pvec 1 = 0) (hy : pvec 2 = 0) (hE : pvec 0 = pvec 3) (hpos : 0 < pvec 3)
    (hnhel : nhel = -1 ∨ nhel = 1) (hnsf : nsf = -1 ∨ nsf = 1) :
    ∀ k, ipzxxx fpsqrt pvec nhel nsf k = ixxxxx fpsqrt pvec 0 nhel nsf k := by
  have hnot : ¬ pvec 3 < 0 := not_lt.mpr hpos.le
  have hmax : fpmax (pvec 3 + pvec 3) 0 = 2 * pvec 3 := by
    unfold fpmax
    rw [max_eq_left (by linarith)]
    ring
  have hdiv : ∀ s : K, cxfpdiv (cxmake 0 0) s = cxzero_sv := by
    intro s
    show cxmake _ _ = cxmake 0 0
    simp [cxmake]
  have hfun : ipzxxx fpsqrt pvec nhel nsf = ixxxxx fpsqrt pvec 0 nhel nsf := by
    by_cases hs : fpsqrt (2 * pvec 3) = 0
    · rcases hnhel with rfl | rfl <;> rcases hnsf with rfl | rfl <;>
        simp [ipzxxx, ixxxxx, hx, hy, hE, hnot, hmax, hdiv, cxzero_sv, hs]
    · rcases hnhel with rfl | rfl <;> rcases hnsf with rfl | rfl <;>
        simp [ipzxxx, ixxxxx, hx, hy, hE, hnot, hmax, hdiv, cxzero_sv, hs]
  intro k
  rw [hfun]

theorem ipzxxx_eq_ixxxxx_massless_witness :
    ((pvec_along_z : pvec_t ℝ) 1 = 0 ∧ (pvec_along_z : pvec_t ℝ) 2 = 0
      ∧ (pvec_along_z : pvec_t ℝ) 0 = (pvec_along_z : pvec_t ℝ) 3
      ∧ 0 < (pvec_along_z : pvec_t ℝ) 3 ∧ ((-1 : Int) = -1 ∨ (-1 : Int) = 1)
      ∧ ((1 : Int) = -1 ∨ (1 : Int) = 1))
    ∧ ∀ k, ipzxxx Real.sqrt pvec_along_z (-1) 1 k = ixxxxx Real.sqrt pvec_along_z 0 (-1) 1 k :=
  ⟨⟨rfl, rfl, rfl, by norm_num [pvec_along_z], Or.inl rfl, Or.inr rfl⟩,
    ipzxxx_eq_ixxxxx_massless Real.sqrt pvec_along_z (-1) 1 rfl rfl rfl
      (by norm_num [pvec_along_z]) (Or.inl rfl) (Or.inr rfl)⟩

/-- C15: for every momentum with `E = |p| > 0` and all `nhel`, `nsf` in {-1, +1}, each of
the six components of `ixxxxx( p, fmass, nhel, nsf )` (real and imaginary part) converges,
as `fmass` tends to 0 through nonzero values, to the corresponding component of the massless
result `ixxxxx( p, 0, nhel, nsf )`; the number type is the real numbers with their square
root. -/
theorem ixxxxx_massless_limit (pvec : pvec_t ℝ) (nhel nsf : Int)
    (hE : pvec 0 = Real.sqrt (pvec 1 * pvec 1 + pvec 2 * pvec 2 + pvec 3 * pvec 3))
    (hpos : 0 < pvec 0) (hnhel : nhel = -1 ∨ nhel = 1) (hnsf : nsf = -1 ∨ nsf = 1)
    (k : Fin 6) :
    Filter.Tendsto (fun fmass => (ixxxxx Real.sqrt pvec fmass nhel nsf k).re) (nhdsWithin 0 {0}ᶜ)
        (nhds (ixxxxx Real.sqrt pvec 0 nhel nsf k).re)
    ∧ Filter.Tendsto (fun fmass => (ixxxxx Real.sqrt pvec fmass nhel nsf k).im) (nhdsWithin 0 {0}ᶜ)
        (nhds (ixxxxx Real.sqrt pvec 0 nhel nsf k).im) := by
  have hform := fun m hm => ixxxxx_massive_form pvec hE hpos m hm nhel nsf hnhel hnsf
  have hml := ixxxxx_massless_form pvec nhel nsf
  have b0 := ixxxxx_big_chi0 pvec hE hpos nsf
  have b1 := ixxxxx_big_chi1 pvec hE hpos nhel nsf hnhel hnsf
  by_cases hnh : nhel * nsf = 1
  · simp only [hnh, if_true] at hform hml b1
    rcases fin6_cases k with rfl | rfl | rfl | rfl | rfl | rfl
    · exact tendsto_component_const _ _
        (fun m hm => by rw [hform m hm, hml, (vec6_val _ _ _ _ _ _).1, (vec6_val _ _ _ _ _ _).1])
    · exact tendsto_component_const _ _
        (fun m hm => by
          rw [hform m hm, hml, (vec6_val _ _ _ _ _ _).2.1, (vec6_val _ _ _ _ _ _).2.1])
    · exact tendsto_component_small _ _ _ _
        (fun m hm => by rw [hform m hm, (vec6_val _ _ _ _ _ _).2.2.1])
        (by rw [hml, (vec6_val _ _ _ _ _ _).2.2.1])
    · exact tendsto_component_small _ _ _ _
        (fun m hm => by rw [hform m hm, (vec6_val _ _ _ _ _ _).2.2.2.1])
        (by rw [hml, (vec6_val _ _ _ _ _ _).2.2.2.1])
    · exact tendsto_component_const _ _
        (fun m hm => by
          rw [hform m hm, hml, (vec6_val _ _ _ _ _ _).2.2.2.2.1,
            (vec6_val _ _ _ _ _ _).2.2.2.2.1]
          exact b0)
    · exact tendsto_component_const _ _
        (fun m hm => by
          rw [hform m hm, hml, (vec6_val _ _ _ _ _ _).2.2.2.2.2,
            (vec6_val _ _ _ _ _ _).2.2.2.2.2]
          exact b1)
  · simp only [hnh, if_false] at hform hml
    rcases fin6_cases k with rfl | rfl | rfl | rfl | rfl | rfl
    · exact tendsto_component_const _ _
        (fun m hm => by rw [hform m hm, hml, (vec6_val _ _ _ _ _ _).1, (vec6_val _ _ _ _ _ _).1])
    · exact tendsto_component_const _ _
        (fun m hm => by
          rw [hform m hm, hml, (vec6_val _ _ _ _ _ _).2.1, (vec6_val _ _ _ _ _ _).2.1])
    · exact tendsto_component_const _ _
        (fun m hm => by
          rw [hform m hm, hml, (vec6_val _ _ _ _ _ _).2.2.1, (vec6_val _ _ _ _ _ _).2.2.1]
          exact b1)
    · exact tendsto_component_const _ _
        (fun m hm => by
          rw [hform m hm, hml, (vec6_val _ _ _ _ _ _).2.2.2.1, (vec6_val _ _ _ _ _ _).2.2.2.1]
          exact b0)
    · exact tendsto_component_small _ _ _ _
        (fun m hm => by rw [hform m hm, (vec6_val _ _ _ _ _ _).2.2.2.2.1])
        (by rw [hml, (vec6_val _ _ _ _ _ _).2.2.2.2.1])
    · exact tendsto_component_small _ _ _ _
        (fun m hm => by rw [hform m hm, (vec6_val _ _ _ _ _ _).2.2.2.2.2])
        (by rw [hml, (vec6_val _ _ _ _ _ _).2.2.2.2.2])

theorem pvec_along_z_massless :
    (pvec_along_z : pvec_t ℝ) 0
      = Real.sqrt ((pvec_along_z : pvec_t ℝ) 1 * (pvec_along_z : pvec_t ℝ) 1
          + (pvec_along_z : pvec_t ℝ) 2 * (pvec_along_z : pvec_t ℝ) 2
          + (pvec_along_z : pvec_t ℝ) 3 * (pvec_along_z : pvec_t ℝ) 3) := by
  have h : (pvec_along_z : pvec_t ℝ) 1 * (pvec_along_z : pvec_t ℝ) 1
      + (pvec_along_z : pvec_t ℝ) 2 * (pvec_along_z : pvec_t ℝ) 2
      + (pvec_along_z : pvec_t ℝ) 3 * (pvec_along_z : pvec_t ℝ) 3 = 2 * 2 := by
    norm_num [pvec_along_z]
  rw [h, Real.sqrt_mul_self (by norm_num)]
  rfl

theorem ixxxxx_massless_limit_witness :
    ((pvec_along_z : pvec_t ℝ) 0
        = Real.sqrt ((pvec_along_z : pvec_t ℝ) 1 * (pvec_along_z : pvec_t ℝ) 1
            + (pvec_along_z : pvec_t ℝ) 2 * (pvec_along_z : pvec_t ℝ) 2
            + (pvec_along_z : pvec_t ℝ) 3 * (pvec_along_z : pvec_t ℝ) 3)
      ∧ 0 < (pvec_along_z : pvec_t ℝ) 0 ∧ ((1 : Int) = -1 ∨ (1 : Int) = 1)
      ∧ ((-1 : Int) = -1 ∨ (-1 : Int) = 1))
    ∧ (Filter.Tendsto (fun fmass => (ixxxxx Real.sqrt pvec_along_z fmass 1 (-1) 2).re)
          (nhdsWithin 0 {0}ᶜ) (nhds (ixxxxx Real.sqrt pvec_along_z 0 1 (-1) 2).re)
      ∧ Filter.Tendsto (fun fmass => (ixxxxx Real.sqrt pvec_along_z fmass 1 (-1) 2).im)
          (nhdsWithin 0 {0}ᶜ) (nhds (ixxxxx Real.sqrt pvec_along_z 0 1 (-1) 2).im)) :=
  ⟨⟨pvec_along_z_massless, by norm_num [pvec_along_z], Or.inr rfl, Or.inl rfl⟩,
    ixxxxx_massless_limit pvec_along_z 1 (-1) pvec_along_z_massless
      (by norm_num [pvec_along_z]) (Or.inr rfl) (Or.inl rfl) 2⟩

/-- C21: for every momentum with `px = py = 0` and `E = -pz > 0` and all `nhel`, `nsf` in
{-1, +1}, `imzxxx( p, nhel, nsf )` returns the same six components as
`ixxxxx( p, 0, nhel, nsf )`, for whatever square-root routine both use. -/
theorem imzxxx_eq_ixxxxx_massless (fpsqrt : K → K) (pvec : pvec_t K) (nhel nsf : Int)
    (hx : pvec 1 = 0) (hy : pvec 2 = 0) (hE : pvec 0 = -pvec 3) (hpos : 0 < pvec 0)
    (hnhel : nhel = -1 ∨ nhel = 1) (hnsf : nsf = -1 ∨ nsf = 1) :
    ∀ k, imzxxx fpsqrt pvec nhel nsf k = ixxxxx fpsqrt pvec 0 nhel nsf k := by
  have hneg : pvec 3 < 0 := by linarith
  have h2 : 2 * pvec 0 = -2 * pvec 3 := by rw [hE]; ring
  have hfun : imzxxx fpsqrt pvec nhel nsf = ixxxxx fpsqrt pvec 0 nhel nsf := by
    rcases hnhel with rfl | rfl <;> rcases hnsf with rfl | rfl <;>
      simp [imzxxx, ixxxxx, hx, hy, hneg, h2, cxzero_sv, hE]
  intro k
  rw [hfun]

theorem imzxxx_eq_ixxxxx_massless_witness :
    ((pvec_along_minus_z : pvec_t ℝ) 1 = 0 ∧ (pvec_along_minus_z : pvec_t ℝ) 2 = 0
      ∧ (pvec_along_minus_z : pvec_t ℝ) 0 = -(pvec_along_minus_z : pvec_t ℝ) 3
      ∧ 0 < (pvec_along_minus_z : pvec_t ℝ) 0 ∧ ((1 : Int) = -1 ∨ (1 : Int) = 1)
      ∧ ((-1 : Int) = -1 ∨ (-1 : Int) = 1))
    ∧ ∀ k, imzxxx Real.sqrt pvec_along_minus_z 1 (-1) k
        = ixxxxx Real.sqrt pvec_along_minus_z 0 1 (-1) k :=
  ⟨⟨rfl, rfl, pvec_along_minus_z_massless.1, pvec_along_minus_z_massless.2, Or.inr rfl,
      Or.inl rfl⟩,
    imzxxx_eq_ixxxxx_massless Real.sqrt pvec_along_minus_z 1 (-1) rfl rfl
      pvec_along_minus_z_massless.1 pvec_along_minus_z_massless.2 (Or.inr rfl) (Or.inl rfl)⟩

/-- C22: for every massless momentum (`E = |p|`, the square root of `px^2 + py^2 + pz^2`)
with transverse momentum `pT > 0` and all `nhel`, `nsf` in {-1, +1},
`ixzxxx( p, nhel, nsf )` returns the same six components as `ixxxxx( p, 0, nhel, nsf )`,
the momentum slots `fi[0]` and `fi[1]` included; the number type is the real numbers with
their square root. -/
theorem ixzxxx_eq_ixxxxx_massless (pvec : pvec_t ℝ) (nhel nsf : Int)
    (hE : pvec 0 = Real.sqrt (pvec 1 * pvec 1 + pvec 2 * pvec 2 + pvec 3 * pvec 3))
    (hpT : 0 < Real.sqrt (pvec 1 * pvec 1 + pvec 2 * pvec 2))
    (hnhel : nhel = -1 ∨ nhel = 1) (hnsf : nsf = -1 ∨ nsf = 1) :
    ∀ k, ixzxxx Real.sqrt pvec nhel nsf k = ixxxxx Real.sqrt pvec 0 nhel nsf k := by
  obtain ⟨hedge, hp3⟩ := transverse_facts pvec hE hpT
  have hmax : fpmax (pvec 0 + pvec 3) 0 = pvec 0 + pvec 3 := max_eq_left hp3.le
  have hs : Real.sqrt (pvec 0 + pvec 3) ≠ 0 := ne_of_gt (Real.sqrt_pos.mpr hp3)
  have hfun : ixzxxx Real.sqrt pvec nhel nsf = ixxxxx Real.sqrt pvec 0 nhel nsf := by
    rcases hnhel with rfl | rfl <;> rcases hnsf with rfl | rfl <;>
      simp [ixzxxx, ixxxxx, hedge, hmax, hs, cxfpdiv_cxmake]
  intro k
  rw [hfun]

theorem ixzxxx_eq_ixxxxx_massless_witness :
    ((pvec_transverse : pvec_t ℝ) 0
        = Real.sqrt ((pvec_transverse : pvec_t ℝ) 1 * (pvec_transverse : pvec_t ℝ) 1
            + (pvec_transverse : pvec_t ℝ) 2 * (pvec_transverse : pvec_t ℝ) 2
            + (pvec_transverse : pvec_t ℝ) 3 * (pvec_transverse : pvec_t ℝ) 3)
      ∧ 0 < Real.sqrt ((pvec_transverse : pvec_t ℝ) 1 * (pvec_transverse : pvec_t ℝ) 1
            + (pvec_transverse : pvec_t ℝ) 2 * (pvec_transverse : pvec_t ℝ) 2)
      ∧ ((-1 : Int) = -1 ∨ (-1 : Int) = 1) ∧ ((1 : Int) = -1 ∨ (1 : Int) = 1))
    ∧ ∀ k, ixzxxx Real.sqrt pvec_transverse (-1) 1 k
        = ixxxxx Real.sqrt pvec_transverse 0 (-1) 1 k :=
  ⟨⟨pvec_transverse_massless, pvec_transverse_pT, Or.inl rfl, Or.inr rfl⟩,
    ixzxxx_eq_ixxxxx_massless pvec_transverse (-1) 1 pvec_transverse_massless
      pvec_transverse_pT (Or.inl rfl) (Or.inr rfl)⟩

/-- C23: for every momentum with `px = py = 0` and `E = -pz > 0` and all `nhel`, `nsf` in
{-1, +1}, `omzxxx( p, nhel, nsf )` returns the same six components as
`oxxxxx( p, 0, nhel, nsf )`, and `fo[5]` is 0 when `nhel * nsf = -1`; for whatever
square-root routine both use. -/
theorem omzxxx_eq_oxxxxx_massless (fpsqrt : K → K) (pvec : pvec_t K) (nhel nsf : Int)
    (hx : pvec 1 = 0) (hy : pvec 2 = 0) (hE : pvec 0 = -pvec 3) (hpos : 0 < pvec 0)
    (hnhel : nhel = -1 ∨ nhel = 1) (hnsf : nsf = -1 ∨ nsf = 1) :
    (∀ k, omzxxx fpsqrt pvec nhel nsf k = oxxxxx fpsqrt pvec 0 nhel nsf k)
    ∧ (nhel * nsf = -1 → omzxxx fpsqrt pvec nhel nsf 5 = cxzero_sv
        ∧ oxxxxx fpsqrt pvec 0 nhel nsf 5 = cxzero_sv) := by
  have hneg : pvec 3 < 0 := by linarith
  have h2 : 2 * pvec 0 = -2 * pvec 3 := by rw [hE]; ring
  have hfun : omzxxx fpsqrt pvec nhel nsf = oxxxxx fpsqrt pvec 0 nhel nsf := by
    rcases hnhel with rfl | rfl <;> rcases hnsf with rfl | rfl <;>
      simp [omzxxx, oxxxxx, hx, hy, hneg, h2, cxzero_sv, hE]
  refine ⟨fun k => by rw [hfun], ?_⟩
  intro hnh
  have hne : ¬ nhel * nsf = 1 := by omega
  have h5 : omzxxx fpsqrt pvec nhel nsf 5 = cxzero_sv := by
    simp only [omzxxx, hne, if_false]
    exact (vec6_val _ _ _ _ _ _).2.2.2.2.2
  exact ⟨h5, by rw [← hfun, h5]⟩

theorem omzxxx_eq_oxxxxx_massless_witness :
    ((pvec_along_minus_z : pvec_t ℝ) 1 = 0 ∧ (pvec_along_minus_z : pvec_t ℝ) 2 = 0
      ∧ (pvec_along_minus_z : pvec_t ℝ) 0 = -(pvec_along_minus_z : pvec_t ℝ) 3
      ∧ 0 < (pvec_along_minus_z : pvec_t ℝ) 0 ∧ ((1 : Int) = -1 ∨ (1 : Int) = 1)
      ∧ ((-1 : Int) = -1 ∨ (-1 : Int) = 1))
    ∧ ((∀ k, omzxxx Real.sqrt pvec_along_minus_z 1 (-1) k
          = oxxxxx Real.sqrt pvec_along_minus_z 0 1 (-1) k)
      ∧ ((1 : Int) * (-1) = -1 → omzxxx Real.sqrt pvec_along_minus_z 1 (-1) 5 = cxzero_sv
          ∧ oxxxxx Real.sqrt pvec_along_minus_z 0 1 (-1) 5 = cxzero_sv)) :=
  ⟨⟨rfl, rfl, pvec_along_minus_z_massless.1, pvec_along_minus_z_massless.2, Or.inr rfl,
      Or.inl rfl⟩,
    omzxxx_eq_oxxxxx_massless Real.sqrt pvec_along_minus_z 1 (-1) rfl rfl
      pvec_along_minus_z_massless.1 pvec_along_minus_z_massless.2 (Or.inr rfl) (Or.inl rfl)⟩

/-- C24: for every momentum with `px = py = 0` and `E = pz > 0` and all `nhel`, `nsf` in
{-1, +1}, `opzxxx( p, nhel, nsf )` returns the same six components as
`oxxxxx( p, 0, nhel, nsf )`, for whatever square-root routine both use. -/
theorem opzxxx_eq_oxxxxx_massless (fpsqrt : K → K) (pvec : pvec_t K) (nhel nsf : Int)
    (hx : pvec 1 = 0) (hy : pvec 2 = 0) (hE : pvec 0 = pvec 3) (hpos : 0 < pvec 3)
    (hnhel : nhel = -1 ∨ nhel = 1) (hnsf : nsf = -1 ∨ nsf = 1) :
    ∀ k, opzxxx fpsqrt pvec nhel nsf k = oxxxxx fpsqrt pvec 0 nhel nsf k := by
  have hnot : ¬ pvec 3 < 0 := not_lt.mpr hpos.le
  have hmax : fpmax (pvec 3 + pvec 3) 0 = 2 * pvec 3 := by
    unfold fpmax
    rw [max_eq_left (by linarith)]
    ring
  have hfun : opzxxx fpsqrt pvec nhel nsf = oxxxxx fpsqrt pvec 0 nhel nsf := by
    by_cases hs : fpsqrt (2 * pvec 3) = 0
    · rcases hnhel with rfl | rfl <;> rcases hnsf with rfl | rfl <;>
        simp [opzxxx, oxxxxx, hx, hy, hE, hnot, hmax, cxfpdiv_zero, cxfpmul_cxmake, cxzero_sv,
          hs]
    · rcases hnhel with rfl | rfl <;> rcases hnsf with rfl | rfl <;>
        simp [opzxxx, oxxxxx, hx, hy, hE, hnot, hmax, cxfpdiv_zero, cxfpmul_cxmake, cxzero_sv,
          hs]
  intro k
  rw [hfun]

theorem opzxxx_eq_oxxxxx_massless_witness :
    ((pvec_along_z : pvec_t ℝ) 1 = 0 ∧ (pvec_along_z : pvec_t ℝ) 2 = 0
      ∧ (pvec_along_z : pvec_t ℝ) 0 = (pvec_along_z : pvec_t ℝ) 3
      ∧ 0 < (pvec_along_z : pvec_t ℝ) 3 ∧ ((-1 : Int) = -1 ∨ (-1 : Int) = 1)
      ∧ ((-1 : Int) = -1 ∨ (-1 : Int) = 1))
    ∧ ∀ k, opzxxx Real.sqrt pvec_along_z (-1) (-1) k
        = oxxxxx Real.sqrt pvec_along_z 0 (-1) (-1) k :=
  ⟨⟨rfl, rfl, rfl, by norm_num [pvec_along_z], Or.inl rfl, Or.inl rfl⟩,
    opzxxx_eq_oxxxxx_massless Real.sqrt pvec_along_z (-1) (-1) rfl rfl rfl
      (by norm_num [pvec_along_z]) (Or.inl rfl) (Or.inl rfl)⟩

/-- C25: for every massless momentum (`E = |p|`, the square root of `px^2 + py^2 + pz^2`)
with transverse momentum `pT > 0` and all `nhel`, `nsf` in {-1, +1},
`oxzxxx( p, nhel, nsf )` returns the same six components as `oxxxxx( p, 0, nhel, nsf )`;
the number type is the real numbers with their square root. -/
theorem oxzxxx_eq_oxxxxx_massless (pvec : pvec_t ℝ) (nhel nsf : Int)
    (hE : pvec 0 = Real.sqrt (pvec 1 * pvec 1 + pvec 2 * pvec 2 + pvec 3 * pvec 3))
    (hpT : 0 < Real.sqrt (pvec 1 * pvec 1 + pvec 2 * pvec 2))
    (hnhel : nhel = -1 ∨ nhel = 1) (hnsf : nsf = -1 ∨ nsf = 1) :
    ∀ k, oxzxxx Real.sqrt pvec nhel nsf k = oxxxxx Real.sqrt pvec 0 nhel nsf k := by
  obtain ⟨hedge, hp3⟩ := transverse_facts pvec hE hpT
  have hmax : fpmax (pvec 0 + pvec 3) 0 = pvec 0 + pvec 3 := max_eq_left hp3.le
  have hs : Real.sqrt (pvec 0 + pvec 3) ≠ 0 := ne_of_gt (Real.sqrt_pos.mpr hp3)
  have hfun : oxzxxx Real.sqrt pvec nhel nsf = oxxxxx Real.sqrt pvec 0 nhel nsf := by
    rcases hnhel with rfl | rfl <;> rcases hnsf with rfl | rfl <;>
      simp [oxzxxx, oxxxxx, hedge, hmax, hs, cxfpdiv_cxmake]
  intro k
  rw [hfun]

theorem oxzxxx_eq_oxxxxx_massless_witness :
    ((pvec_transverse : pvec_t ℝ) 0
        = Real.sqrt ((pvec_transverse : pvec_t ℝ) 1 * (pvec_transverse : pvec_t ℝ) 1
            + (pvec_transverse : pvec_t ℝ) 2 * (pvec_transverse : pvec_t ℝ) 2
            + (pvec_transverse : pvec_t ℝ) 3 * (pvec_transverse : pvec_t ℝ) 3)
      ∧ 0 < Real.sqrt ((pvec_transverse : pvec_t ℝ) 1 * (pvec_transverse : pvec_t ℝ) 1
            + (pvec_transverse : pvec_t ℝ) 2 * (pvec_transverse : pvec_t ℝ) 2)
      ∧ ((1 : Int) = -1 ∨ (1 : Int) = 1) ∧ ((1 : Int) = -1 ∨ (1 : Int) = 1))
    ∧ ∀ k, oxzxxx Real.sqrt pvec_transverse 1 1 k
        = oxxxxx Real.sqrt pvec_transverse 0 1 1 k :=
  ⟨⟨pvec_transverse_massless, pvec_transverse_pT, Or.inr rfl, Or.inr rfl⟩,
    oxzxxx_eq_oxxxxx_massless pvec_transverse 1 1 pvec_transverse_massless
      pvec_transverse_pT (Or.inr rfl) (Or.inr rfl)⟩

/-- C30: for every momentum, every `fmass` and all `nhel`, `nsf` in {-1, +1}, `oxxxxx` is
the Dirac conjugate of `ixxxxx` on the same inputs: with `fi = ixxxxx( p, fmass, nhel, nsf )`
and `fo = oxxxxx( p, fmass, nhel, nsf )`, `fo[2] = conj( fi[4] )`, `fo[3] = conj( fi[5] )`,
`fo[4] = conj( fi[2] )`, `fo[5] = conj( fi[3] )`, `fo[0] = -fi[0]` and `fo[1] = -fi[1]`, in
the rest, moving-massive and massless branches alike and for whatever square-root routine
both use. -/
theorem oxxxxx_dirac_conjugate (fpsqrt : K → K) (pvec : pvec_t K) (fmass : K)
    (nhel nsf : Int) (hnhel : nhel = -1 ∨ nhel = 1) (hnsf : nsf = -1 ∨ nsf = 1) :
    oxxxxx fpsqrt pvec fmass nhel nsf 2 = cxconj (ixxxxx fpsqrt pvec fmass nhel nsf 4)
    ∧ oxxxxx fpsqrt pvec fmass nhel nsf 3 = cxconj (ixxxxx fpsqrt pvec fmass nhel nsf 5)
    ∧ oxxxxx fpsqrt pvec fmass nhel nsf 4 = cxconj (ixxxxx fpsqrt pvec fmass nhel nsf 2)
    ∧ oxxxxx fpsqrt pvec fmass nhel nsf 5 = cxconj (ixxxxx fpsqrt pvec fmass nhel nsf 3)
    ∧ oxxxxx fpsqrt pvec fmass nhel nsf 0 = -(ixxxxx fpsqrt pvec fmass nhel nsf 0)
    ∧ oxxxxx fpsqrt pvec fmass nhel nsf 1 = -(ixxxxx fpsqrt pvec fmass nhel nsf 1) := by
  by_cases hm : fmass = 0
  · subst hm
    by_cases hedge : pvec 1 = 0 ∧ pvec 2 = 0 ∧ pvec 3 < 0
    · rcases hnhel with rfl | rfl <;> rcases hnsf with rfl | rfl <;>
        simp [oxxxxx, ixxxxx, hedge, cxconj_cxmake, neg_cxmake, cxconj_zero_sv, cxfpmul_cxmake,
          vec6_val]
    · by_cases hs : fpsqrt (fpmax (pvec 0 + pvec 3) 0) = 0
      · rcases hnhel with rfl | rfl <;> rcases hnsf with rfl | rfl <;>
          simp [oxxxxx, ixxxxx, hedge, hs, cxconj_cxmake, neg_cxmake, cxconj_zero_sv,
            cxfpmul_cxmake, vec6_val]
      · rcases hnhel with rfl | rfl <;> rcases hnsf with rfl | rfl <;>
          simp [oxxxxx, ixxxxx, hedge, hs, cxconj_cxmake, neg_cxmake, cxconj_zero_sv,
            cxconj_cxfpdiv_cxmake, vec6_val]
  · by_cases hpp : fpmin (pvec 0)
        (fpsqrt (pvec 1 * pvec 1 + pvec 2 * pvec 2 + pvec 3 * pvec 3)) = 0
    · rcases hnhel with rfl | rfl <;> rcases hnsf with rfl | rfl <;>
        simp [oxxxxx, ixxxxx, hm, hpp, arr2, ixxxxx_ip, ixxxxx_im, oxxxxx_ip, oxxxxx_im,
          cxconj_cxmake, neg_cxmake, vec6_val]
    · by_cases hp3 : fpmax (fpmin (pvec 0)
          (fpsqrt (pvec 1 * pvec 1 + pvec 2 * pvec 2 + pvec 3 * pvec 3)) + pvec 3) 0 = 0
      · rcases hnhel with rfl | rfl <;> rcases hnsf with rfl | rfl <;>
          simp [oxxxxx, ixxxxx, hm, hpp, hp3, arr2, ixxxxx_ip, ixxxxx_im, cxconj_cxmake,
            neg_cxmake, cxconj_fpcxmul, vec6_val]
      · rcases hnhel with rfl | rfl <;> rcases hnsf with rfl | rfl <;>
          simp [oxxxxx, ixxxxx, hm, hpp, hp3, arr2, ixxxxx_ip, ixxxxx_im, cxconj_cxmake,
            neg_cxmake, cxconj_fpcxmul, cxconj_cxfpdiv_cxmake, vec6_val]

theorem oxxxxx_dirac_conjugate_witness :
    (((1 : Int) = -1 ∨ (1 : Int) = 1) ∧ ((-1 : Int) = -1 ∨ (-1 : Int) = 1))
    ∧ (oxxxxx Real.sqrt pvec_transverse 3 1 (-1) 2
          = cxconj (ixxxxx Real.sqrt pvec_transverse 3 1 (-1) 4)
      ∧ oxxxxx Real.sqrt pvec_transverse 3 1 (-1) 3
          = cxconj (ixxxxx Real.sqrt pvec_transverse 3 1 (-1) 5)
      ∧ oxxxxx Real.sqrt pvec_transverse 3 1 (-1) 4
          = cxconj (ixxxxx Real.sqrt pvec_transverse 3 1 (-1) 2)
      ∧ oxxxxx Real.sqrt pvec_transverse 3 1 (-1) 5
          = cxconj (ixxxxx Real.sqrt pvec_transverse 3 1 (-1) 3)
      ∧ oxxxxx Real.sqrt pvec_transverse 3 1 (-1) 0
          = -(ixxxxx Real.sqrt pvec_transverse 3 1 (-1) 0)
      ∧ oxxxxx Real.sqrt pvec_transverse 3 1 (-1) 1
          = -(ixxxxx Real.sqrt pvec_transverse 3 1 (-1) 1)) :=
  ⟨⟨Or.inr rfl, Or.inl rfl⟩,
    oxxxxx_dirac_conjugate Real.sqrt pvec_transverse 3 1 (-1) (Or.inr rfl) (Or.inl rfl)⟩

/-- C26: for every momentum with `E >= 0`, every `fmass` (zero, positive or negative) and
all `nhel`, `nsf` in {-1, +1}, no guard of the guarded routine fails, so the value `ixxxxx`
returns is obtained without a division by zero, without the square root of a negative
number and without an array index other than 0 or 1; the indices `ip` and `im` are each 0
or 1 and `ip + im = 1`. The number type is the real numbers with their square root. -/
theorem ixxxxx_checked_eq_ixxxxx (pvec : pvec_t ℝ) (fmass : ℝ) (nhel nsf : Int)
    (hE : 0 ≤ pvec 0) (hnhel : nhel = -1 ∨ nhel = 1) (hnsf : nsf = -1 ∨ nsf = 1) :
    ixxxxx_checked Real.sqrt pvec fmass nhel nsf
        = some (ixxxxx Real.sqrt pvec fmass nhel nsf)
    ∧ (ixxxxx_ip (nhel * nsf) = 0 ∨ ixxxxx_ip (nhel * nsf) = 1)
    ∧ (ixxxxx_im (nhel * nsf) = 0 ∨ ixxxxx_im (nhel * nsf) = 1)
    ∧ ixxxxx_ip (nhel * nsf) + ixxxxx_im (nhel * nsf) = 1 := by
  refine ⟨?_, ixxxxx_indices nhel nsf hnhel hnsf⟩
  obtain ⟨hip, him, _⟩ := ixxxxx_indices nhel nsf hnhel hnsf
  have hsum : 0 ≤ pvec 1 * pvec 1 + pvec 2 * pvec 2 + pvec 3 * pvec 3 := by
    have h1 := mul_self_nonneg (pvec 1)
    have h2 := mul_self_nonneg (pvec 2)
    have h3 := mul_self_nonneg (pvec 3)
    linarith
  by_cases hm : fmass = 0
  · have h1 : (0 : ℝ) ≤ fpmax (pvec 0 + pvec 3) 0 := le_max_right _ _
    have h2 : (0 : ℝ) ≤ 2 * pvec 0 := by linarith
    simp only [ixxxxx_checked, ixxxxx, hm, ne_eq, not_true_eq_false, if_false,
      sqrt_checked_of_nonneg _ h1, sqrt_checked_of_nonneg _ h2, Option.some_bind]
    generalize (if pvec 1 = 0 ∧ pvec 2 = 0 ∧ pvec 3 < 0 then (0 : ℝ)
      else Real.sqrt (fpmax (pvec 0 + pvec 3) 0) * (nsf : ℝ)) = sq
    by_cases hs : sq = 0
    · simp only [hs, if_true, Option.some_bind]
    · simp only [hs, if_false, cxfpdiv_checked, Option.some_bind]
  · have hpp0 : 0 ≤ fpmin (pvec 0)
        (Real.sqrt (pvec 1 * pvec 1 + pvec 2 * pvec 2 + pvec 3 * pvec 3)) :=
      le_min hE (Real.sqrt_nonneg _)
    by_cases hpp : fpmin (pvec 0)
        (Real.sqrt (pvec 1 * pvec 1 + pvec 2 * pvec 2 + pvec 3 * pvec 3)) = 0
    · simp only [ixxxxx_checked, ixxxxx, hm, ne_eq, not_false_eq_true, if_true,
        sqrt_checked_of_nonneg _ hsum, sqrt_checked_of_nonneg _ (abs_nonneg fmass),
        Option.some_bind, hpp, arr2_checked_of_index _ _ _ hip,
        arr2_checked_of_index _ _ _ him]
    · have hpos : 0 < fpmin (pvec 0)
          (Real.sqrt (pvec 1 * pvec 1 + pvec 2 * pvec 2 + pvec 3 * pvec 3)) :=
        lt_of_le_of_ne hpp0 (Ne.symm hpp)
      have hEpp : 0 < pvec 0 + fpmin (pvec 0)
          (Real.sqrt (pvec 1 * pvec 1 + pvec 2 * pvec 2 + pvec 3 * pvec 3)) := by linarith
      have hom : Real.sqrt (pvec 0 + fpmin (pvec 0)
          (Real.sqrt (pvec 1 * pvec 1 + pvec 2 * pvec 2 + pvec 3 * pvec 3))) ≠ 0 :=
        ne_of_gt (Real.sqrt_pos.mpr hEpp)
      have hp3 : (0 : ℝ) ≤ fpmax (fpmin (pvec 0)
          (Real.sqrt (pvec 1 * pvec 1 + pvec 2 * pvec 2 + pvec 3 * pvec 3)) + pvec 3) 0 :=
        le_max_right _ _
      have hq : 0 ≤ fpmax (fpmin (pvec 0)
          (Real.sqrt (pvec 1 * pvec 1 + pvec 2 * pvec 2 + pvec 3 * pvec 3)) + pvec 3) 0
            * (1 / 2) / fpmin (pvec 0)
              (Real.sqrt (pvec 1 * pvec 1 + pvec 2 * pvec 2 + pvec 3 * pvec 3)) :=
        div_nonneg (mul_nonneg hp3 (by norm_num)) hpp0
      simp only [ixxxxx_checked, ixxxxx, hm, ne_eq, not_false_eq_true, if_true,
        sqrt_checked_of_nonneg _ hsum, Option.some_bind, hpp, if_false,
        sqrt_checked_of_nonneg _ hEpp.le, div_checked, hom,
        arr2_checked_of_index _ _ _ hip, arr2_checked_of_index _ _ _ him,
        sqrt_checked_of_nonneg _ hq]
      by_cases h3 : fpmax (fpmin (pvec 0)
          (Real.sqrt (pvec 1 * pvec 1 + pvec 2 * pvec 2 + pvec 3 * pvec 3)) + pvec 3) 0 = 0
      · simp only [h3, if_true, Option.some_bind, arr2_checked_of_index _ _ _ hip,
          arr2_checked_of_index _ _ _ him, arr2_zero, arr2_one]
      · have h3pos := lt_of_le_of_ne hp3 (Ne.symm h3)
        have hd : 0 < 2 * fpmin (pvec 0)
            (Real.sqrt (pvec 1 * pvec 1 + pvec 2 * pvec 2 + pvec 3 * pvec 3))
            * fpmax (fpmin (pvec 0)
              (Real.sqrt (pvec 1 * pvec 1 + pvec 2 * pvec 2 + pvec 3 * pvec 3)) + pvec 3) 0 :=
          mul_pos (by linarith) h3pos
        have hds := ne_of_gt (Real.sqrt_pos.mpr hd)
        simp only [h3, if_false, Option.some_bind, sqrt_checked_of_nonneg _ hd.le,
          cxfpdiv_checked, hds, arr2_checked_of_index _ _ _ hip,
          arr2_checked_of_index _ _ _ him, arr2_zero, arr2_one]

theorem ixxxxx_checked_eq_ixxxxx_witness :
    (0 ≤ (pvec_along_minus_z : pvec_t ℝ) 0 ∧ ((-1 : Int) = -1 ∨ (-1 : Int) = 1)
      ∧ ((1 : Int) = -1 ∨ (1 : Int) = 1))
    ∧ (ixxxxx_checked Real.sqrt pvec_along_minus_z (-3) (-1) 1
          = some (ixxxxx Real.sqrt pvec_along_minus_z (-3) (-1) 1)
      ∧ (ixxxxx_ip ((-1) * 1) = 0 ∨ ixxxxx_ip ((-1) * 1) = 1)
      ∧ (ixxxxx_im ((-1) * 1) = 0 ∨ ixxxxx_im ((-1) * 1) = 1)
      ∧ ixxxxx_ip ((-1) * 1) + ixxxxx_im ((-1) * 1) = 1) :=
  ⟨⟨pvec_along_minus_z_massless.2.le, Or.inl rfl, Or.inr rfl⟩,
    ixxxxx_checked_eq_ixxxxx pvec_along_minus_z (-3) (-1) 1 pvec_along_minus_z_massless.2.le
      (Or.inl rfl) (Or.inr rfl)⟩

end ClaimsWavefunctions

/-! ## Claims on the current-generating vertex routines -/

section ClaimsVertices

variable {K : Type} [LinearOrderedField K]

/-- C27: for all `F1`, `F2`, `COUP`, `M3`, `W3`, `FFV1P0_3` sets `V3[0] = F1[0] + F2[0]` and
`V3[1] = F1[1] + F2[1]`, and each of `V3[2..5]` equals `-i * COUP * J_k / D` with
`D = p^2 - M3 * ( M3 - i * W3 )`, whose real part is `p^2 - M3^2` and whose imaginary part
is `M3 * W3`, where `p = -( Re V3[0], Re V3[1], Im V3[1], Im V3[0] )`,
`p^2 = p0^2 - p1^2 - p2^2 - p3^2` and `J_0 .. J_3` are the four fermion bilinears of the
source lines 606-609. -/
theorem FFV1P0_3_formula (F1 F2 : wavefunction K) (COUP : cxtype K) (M3 W3 : K) :
    ∃ p : Fin 4 → K, ∃ D : cxtype K,
      p = ![-cxreal (FFV1P0_3 F1 F2 COUP M3 W3 0), -cxreal (FFV1P0_3 F1 F2 COUP M3 W3 1),
            -cximag (FFV1P0_3 F1 F2 COUP M3 W3 1), -cximag (FFV1P0_3 F1 F2 COUP M3 W3 0)]
      ∧ D = fpcxsub (p 0 ^ 2 - p 1 ^ 2 - p 2 ^ 2 - p 3 ^ 2)
              (fpcxmul M3 (fpcxsub M3 (cxfpmul (cxmake 0 1) W3)))
      ∧ D = cxmake (p 0 ^ 2 - p 1 ^ 2 - p 2 ^ 2 - p 3 ^ 2 - M3 ^ 2) (M3 * W3)
      ∧ FFV1P0_3 F1 F2 COUP M3 W3 0 = F1 0 + F2 0
      ∧ FFV1P0_3 F1 F2 COUP M3 W3 1 = F1 1 + F2 1
      ∧ FFV1P0_3 F1 F2 COUP M3 W3 2
          = -(cxmake 0 1) * COUP
              * ( F1 2 * F2 4 + F1 3 * F2 5 + F1 4 * F2 2 + F1 5 * F2 3 ) / D
      ∧ FFV1P0_3 F1 F2 COUP M3 W3 3
          = -(cxmake 0 1) * COUP
              * ( -F1 2 * F2 5 - F1 3 * F2 4 + F1 4 * F2 3 + F1 5 * F2 2 ) / D
      ∧ FFV1P0_3 F1 F2 COUP M3 W3 4
          = -(cxmake 0 1) * COUP
              * ( -(cxmake 0 1) * ( F1 2 * F2 5 + F1 5 * F2 2 )
                + cxmake 0 1 * ( F1 3 * F2 4 + F1 4 * F2 3 ) ) / D
      ∧ FFV1P0_3 F1 F2 COUP M3 W3 5
          = -(cxmake 0 1) * COUP
              * ( -F1 2 * F2 4 - F1 5 * F2 3 + F1 3 * F2 5 + F1 4 * F2 2 ) / D := by
  have hD : fpcxsub
        ((![-cxreal (F1 0 + F2 0), -cxreal (F1 1 + F2 1), -cximag (F1 1 + F2 1),
            -cximag (F1 0 + F2 0)] : Fin 4 → K) 0 ^ 2
          - (![-cxreal (F1 0 + F2 0), -cxreal (F1 1 + F2 1), -cximag (F1 1 + F2 1),
            -cximag (F1 0 + F2 0)] : Fin 4 → K) 1 ^ 2
          - (![-cxreal (F1 0 + F2 0), -cxreal (F1 1 + F2 1), -cximag (F1 1 + F2 1),
            -cximag (F1 0 + F2 0)] : Fin 4 → K) 2 ^ 2
          - (![-cxreal (F1 0 + F2 0), -cxreal (F1 1 + F2 1), -cximag (F1 1 + F2 1),
            -cximag (F1 0 + F2 0)] : Fin 4 → K) 3 ^ 2)
        (fpcxmul M3 (fpcxsub M3 (cxfpmul (cxmake 0 1) W3)))
      = propagator_denominator
          ![-cxreal (F1 0 + F2 0), -cxreal (F1 1 + F2 1), -cximag (F1 1 + F2 1),
            -cximag (F1 0 + F2 0)] M3 W3 := by
    simp only [propagator_denominator, pow_two]
  have h0 : FFV1P0_3 F1 F2 COUP M3 W3 0 = F1 0 + F2 0 := rfl
  have h1 : FFV1P0_3 F1 F2 COUP M3 W3 1 = F1 1 + F2 1 := rfl
  rw [h0, h1]
  refine ⟨_, _, rfl, rfl, ?_, rfl, rfl, ?_, ?_, ?_, ?_⟩
  · show fpcxsub _ _ = _
    rw [hD, propagator_denominator_eq]
    simp only [pow_two]
  all_goals
    show COUP / propagator_denominator _ M3 W3 * (-(cxmake 0 1)) * _ = _ / fpcxsub _ _
    rw [hD, cxtype.div_mul_mul]

/-- C28: for all `P3`, `M3` and `W3`, the propagator denominator
`p^2 - M3 * ( M3 - i * W3 )` by which `FFV1P0_3`, `FFV2_3`, `FFV4_3` and `FFV2_4_3` divide
is zero if and only if `p^2 = M3^2` and `M3 * W3 = 0`; so with nonzero mass and nonzero
width it is nonzero for every momentum, as is the real number `re^2 + im^2` by which the
complex quotient divides, and with zero width it is zero exactly on shell. -/
theorem propagator_denominator_zero_iff (P3 : Fin 4 → K) (M3 W3 : K) :
    (propagator_denominator P3 M3 W3 = 0
      ↔ (P3 0 * P3 0 - P3 1 * P3 1 - P3 2 * P3 2 - P3 3 * P3 3 = M3 * M3 ∧ M3 * W3 = 0))
    ∧ (M3 ≠ 0 → W3 ≠ 0 → propagator_denominator P3 M3 W3 ≠ 0
        ∧ (propagator_denominator P3 M3 W3).re * (propagator_denominator P3 M3 W3).re
          + (propagator_denominator P3 M3 W3).im * (propagator_denominator P3 M3 W3).im ≠ 0)
    ∧ (W3 = 0 → (propagator_denominator P3 M3 W3 = 0
        ↔ P3 0 * P3 0 - P3 1 * P3 1 - P3 2 * P3 2 - P3 3 * P3 3 = M3 * M3)) := by
  have hiff : propagator_denominator P3 M3 W3 = 0
      ↔ (P3 0 * P3 0 - P3 1 * P3 1 - P3 2 * P3 2 - P3 3 * P3 3 = M3 * M3 ∧ M3 * W3 = 0) := by
    rw [propagator_denominator_eq, cxtype.eq_zero_iff, cxmake_re, cxmake_im, sub_eq_zero]
  refine ⟨hiff, ?_, ?_⟩
  · intro hM hW
    have hne : propagator_denominator P3 M3 W3 ≠ 0 := by
      rw [Ne, hiff]
      rintro ⟨_, h⟩
      exact mul_ne_zero hM hW h
    refine ⟨hne, ?_⟩
    intro h
    apply hne
    rw [cxtype.eq_zero_iff]
    have h1 := mul_self_nonneg (propagator_denominator P3 M3 W3).re
    have h2 := mul_self_nonneg (propagator_denominator P3 M3 W3).im
    constructor
    · exact mul_self_eq_zero.mp (by linarith)
    · exact mul_self_eq_zero.mp (by linarith)
  · intro hW
    rw [hiff, hW, mul_zero]
    simp

end ClaimsVertices

/-! ## Claim on the averaging denominator -/

section ClaimsAveraging

/-- C29: the averaging denominator by which `sigmaKin` divides is the constant 512 of the
source, not the number `(2*2) * (8*8) * 1 = 256` of initial-state spin and colour
configurations of g g > t t~ times the identical-particle factor: on a one-event batch
whose cached list holds one helicity row with a nonzero contribution, `sigmaKin` writes
that contribution divided by 512, which differs from the contribution divided by 256. -/
theorem sigmaKin_denominators_value :
    denominators = 512 ∧ (2 * 2) * (8 * 8) * 1 = 256 ∧ denominators ≠ (2 * 2) * (8 * 8) * 1
    ∧ sigmaKin amps_example momenta_example (fun _ => 0) cHel_view cIPD_example
          cIPC_example iGoodHel_swap 1 1 1 0
        = contribution amps_example (momenta_example 0) (cHel_view 1) cIPD_example
            cIPC_example / 512
    ∧ sigmaKin amps_example momenta_example (fun _ => 0) cHel_view cIPD_example
          cIPC_example iGoodHel_swap 1 1 1 0
        ≠ contribution amps_example (momenta_example 0) (cHel_view 1) cIPD_example
            cIPC_example / 256 := by
  have hval : sigmaKin amps_example momenta_example (fun _ => 0) cHel_view cIPD_example
        cIPC_example iGoodHel_swap 1 1 1 0
      = contribution amps_example (momenta_example 0) (cHel_view 1) cIPD_example
          cIPC_example / 512 := by
    rw [sigmaKin_eq]
    simp [sigmaKin_value, iGoodHel_swap, List.range_succ]
  refine ⟨rfl, rfl, by decide, hval, ?_⟩
  rw [hval]
  intro h
  apply contribution_example_ne_zero
  have h2 : contribution amps_example (momenta_example 0) (cHel_view 1) cIPD_example
      cIPC_example / 512 * 512
      = contribution amps_example (momenta_example 0) (cHel_view 1) cIPD_example
        cIPC_example / 256 * 512 := by
    rw [h]
  rw [div_mul_cancel₀ _ (by norm_num : (512 : ℚ) ≠ 0)] at h2
  linarith

end ClaimsAveraging

/-! ## Claims on the norms of the wavefunctions -/

section ClaimsNorms

/-- C31: for every on-shell momentum (`E > 0`, `E^2 = px^2 + py^2 + pz^2 + fmass^2`), every
`fmass` and all `nhel`, `nsf` in {-1, +1}, the spinor components of `ixxxxx` satisfy
`|fi[2]|^2 + |fi[3]|^2 + |fi[4]|^2 + |fi[5]|^2 = 2 * E`, in the rest, moving-massive and
massless branches alike; the number type is the real numbers with their square root. -/
theorem ixxxxx_spinor_norm (pvec : pvec_t ℝ) (fmass : ℝ) (nhel nsf : Int)
    (hpos : 0 < pvec 0)
    (hshell : pvec 0 ^ 2 = pvec 1 ^ 2 + pvec 2 ^ 2 + pvec 3 ^ 2 + fmass ^ 2)
    (hnhel : nhel = -1 ∨ nhel = 1) (hnsf : nsf = -1 ∨ nsf = 1) :
    (ixxxxx Real.sqrt pvec fmass nhel nsf 2).re ^ 2
        + (ixxxxx Real.sqrt pvec fmass nhel nsf 2).im ^ 2
      + ((ixxxxx Real.sqrt pvec fmass nhel nsf 3).re ^ 2
        + (ixxxxx Real.sqrt pvec fmass nhel nsf 3).im ^ 2)
      + ((ixxxxx Real.sqrt pvec fmass nhel nsf 4).re ^ 2
        + (ixxxxx Real.sqrt pvec fmass nhel nsf 4).im ^ 2)
      + ((ixxxxx Real.sqrt pvec fmass nhel nsf 5).re ^ 2
        + (ixxxxx Real.sqrt pvec fmass nhel nsf 5).im ^ 2) = 2 * pvec 0 := by
  by_cases hm : fmass = 0
  · exact ixxxxx_norm_massless pvec fmass nhel nsf hpos hshell hnhel hnsf hm
  · by_cases hpp : fpmin (pvec 0)
        (Real.sqrt (pvec 1 * pvec 1 + pvec 2 * pvec 2 + pvec 3 * pvec 3)) = 0
    · exact ixxxxx_norm_rest pvec fmass nhel nsf hpos hshell hnhel hnsf hm hpp
    · exact ixxxxx_norm_moving pvec fmass nhel nsf hpos hshell hnhel hnsf hm hpp

theorem ixxxxx_spinor_norm_witness :
    ((0 : ℝ) < (pvec_massive : pvec_t ℝ) 0
      ∧ (pvec_massive : pvec_t ℝ) 0 ^ 2
          = (pvec_massive : pvec_t ℝ) 1 ^ 2 + (pvec_massive : pvec_t ℝ) 2 ^ 2
            + (pvec_massive : pvec_t ℝ) 3 ^ 2 + (-4 : ℝ) ^ 2
      ∧ ((1 : Int) = -1 ∨ (1 : Int) = 1) ∧ ((-1 : Int) = -1 ∨ (-1 : Int) = 1))
    ∧ (ixxxxx Real.sqrt pvec_massive (-4) 1 (-1) 2).re ^ 2
        + (ixxxxx Real.sqrt pvec_massive (-4) 1 (-1) 2).im ^ 2
      + ((ixxxxx Real.sqrt pvec_massive (-4) 1 (-1) 3).re ^ 2
        + (ixxxxx Real.sqrt pvec_massive (-4) 1 (-1) 3).im ^ 2)
      + ((ixxxxx Real.sqrt pvec_massive (-4) 1 (-1) 4).re ^ 2
        + (ixxxxx Real.sqrt pvec_massive (-4) 1 (-1) 4).im ^ 2)
      + ((ixxxxx Real.sqrt pvec_massive (-4) 1 (-1) 5).re ^ 2
        + (ixxxxx Real.sqrt pvec_massive (-4) 1 (-1) 5).im ^ 2)
      = 2 * (pvec_massive : pvec_t ℝ) 0 :=
  ⟨⟨pvec_massive_on_shell.1, pvec_massive_on_shell.2, Or.inr rfl, Or.inl rfl⟩,
    ixxxxx_spinor_norm pvec_massive (-4) 1 (-1) pvec_massive_on_shell.1
      pvec_massive_on_shell.2 (Or.inr rfl) (Or.inl rfl)⟩

/-- C32 as stated fails at `E = 0`: for the null momentum the massless branch of `vxxxxx`
divides `hel * pt` by `pp = E = 0`, so the guarded routine returns no vector (the source
evaluates `0. / 0.`, a NaN, into `vc[5]`, and the combination is NaN, not 0). -/
theorem vxxxxx_massless_null_momentum :
    ¬ (vxxxxx_checked Real.sqrt pvec_null 0 1 1 = some (vxxxxx Real.sqrt pvec_null 0 1 1)
      ∧ fpcxmul ((pvec_null : pvec_t ℝ) 0) (vxxxxx Real.sqrt pvec_null 0 1 1 2)
        - fpcxmul ((pvec_null : pvec_t ℝ) 1) (vxxxxx Real.sqrt pvec_null 0 1 1 3)
        - fpcxmul ((pvec_null : pvec_t ℝ) 2) (vxxxxx Real.sqrt pvec_null 0 1 1 4)
        - fpcxmul ((pvec_null : pvec_t ℝ) 3) (vxxxxx Real.sqrt pvec_null 0 1 1 5) = 0) := by
  rintro ⟨h, _⟩
  have hn : vxxxxx_checked Real.sqrt pvec_null 0 1 1 = none := by
    have hh : (0 : ℝ) ≤ 1 / 2 := by norm_num
    have h0 : (0 : ℝ) ≤ 0 * 0 + 0 * 0 := by norm_num
    simp only [vxxxxx_checked, pvec_null, ne_eq, not_true_eq_false, if_false,
      sqrt_checked_of_nonneg _ hh, sqrt_checked_of_nonneg _ h0, Option.some_bind]
    simp [div_checked]
  rw [hn] at h
  exact Option.noConfusion h

/-- C32 (amended): for every momentum with `E != 0`, every integer `nhel` and every `nsv`,
the massless branch of `vxxxxx` divides by no zero (the guarded routine returns the vector
of `vxxxxx`) and the vector is transverse to the momentum:
`E * vc[2] - px * vc[3] - py * vc[4] - pz * vc[5] = 0`, both when `pT != 0` and in the
`pT = 0` branch; the number type is the real numbers with their square root. -/
theorem vxxxxx_massless_transverse (pvec : pvec_t ℝ) (nhel nsv : Int) (hE : pvec 0 ≠ 0) :
    vxxxxx_checked Real.sqrt pvec 0 nhel nsv = some (vxxxxx Real.sqrt pvec 0 nhel nsv)
    ∧ fpcxmul (pvec 0) (vxxxxx Real.sqrt pvec 0 nhel nsv 2)
        - fpcxmul (pvec 1) (vxxxxx Real.sqrt pvec 0 nhel nsv 3)
        - fpcxmul (pvec 2) (vxxxxx Real.sqrt pvec 0 nhel nsv 4)
        - fpcxmul (pvec 3) (vxxxxx Real.sqrt pvec 0 nhel nsv 5) = 0 := by
  refine ⟨vxxxxx_checked_massless pvec nhel nsv hE, ?_⟩
  have hsum : 0 ≤ pvec 1 * pvec 1 + pvec 2 * pvec 2 := by
    have h1 := mul_self_nonneg (pvec 1)
    have h2 := mul_self_nonneg (pvec 2)
    linarith
  have hT2 := Real.mul_self_sqrt hsum
  rw [cxtype.eq_zero_iff]
  simp only [vxxxxx, ne_eq, not_true_eq_false, if_false]
  by_cases hpt : Real.sqrt (pvec 1 * pvec 1 + pvec 2 * pvec 2) = 0
  · have h0 : pvec 1 * pvec 1 + pvec 2 * pvec 2 = 0 := by
      rw [hpt, mul_zero] at hT2; exact hT2.symm
    have hx : pvec 1 = 0 := by
      have := mul_self_nonneg (pvec 2)
      exact mul_self_eq_zero.mp (by nlinarith [mul_self_nonneg (pvec 1)])
    have hy : pvec 2 = 0 := by
      have := mul_self_nonneg (pvec 1)
      exact mul_self_eq_zero.mp (by nlinarith [mul_self_nonneg (pvec 2)])
    simp only [hpt, not_true_eq_false, if_false, vec6_val, cxtype.sub_re, cxtype.sub_im,
      fpcxmul_re, fpcxmul_im, cxmake_re, cxmake_im, cxzero_sv_re, cxzero_sv_im]
    rw [hx, hy]
    constructor <;> ring
  · simp only [hpt, not_false_eq_true, if_true, vec6_val, cxtype.sub_re, cxtype.sub_im,
      fpcxmul_re, fpcxmul_im, cxmake_re, cxmake_im, cxzero_sv_re, cxzero_sv_im]
    generalize Real.sqrt (pvec 1 * pvec 1 + pvec 2 * pvec 2) = pt at hT2 hpt ⊢
    generalize Real.sqrt (1 / 2) = sqh
    constructor
    · field_simp
      linear_combination (-(pvec 3) * sqh * (nhel : ℝ) * pvec 0) * hT2
    · push_cast
      field_simp
      ring

theorem vxxxxx_massless_transverse_witness :
    (pvec_transverse : pvec_t ℝ) 0 ≠ 0
    ∧ (vxxxxx_checked Real.sqrt pvec_transverse 0 1 (-1)
        = some (vxxxxx Real.sqrt pvec_transverse 0 1 (-1))
      ∧ fpcxmul ((pvec_transverse : pvec_t ℝ) 0) (vxxxxx Real.sqrt pvec_transverse 0 1 (-1) 2)
        - fpcxmul ((pvec_transverse : pvec_t ℝ) 1) (vxxxxx Real.sqrt pvec_transverse 0 1 (-1) 3)
        - fpcxmul ((pvec_transverse : pvec_t ℝ) 2) (vxxxxx Real.sqrt pvec_transverse 0 1 (-1) 4)
        - fpcxmul ((pvec_transverse : pvec_t ℝ) 3) (vxxxxx Real.sqrt pvec_transverse 0 1 (-1) 5)
          = 0) :=
  ⟨by norm_num [pvec_transverse],
    vxxxxx_massless_transverse pvec_transverse 1 (-1) (by norm_num [pvec_transverse])⟩

/-- C33: for every massless momentum with `E = |p| > 0` and all `nhel`, `nsv` in {-1, +1},
the polarisation vector built by `vxxxxx( p, 0, nhel, nsv )` has `vc[2] = 0` and unit norm:
`|vc[3]|^2 + |vc[4]|^2 + |vc[5]|^2 = 1`; the number type is the real numbers with their
square root. -/
theorem vxxxxx_massless_unit_norm (pvec : pvec_t ℝ) (nhel nsv : Int)
    (hE : pvec 0 = Real.sqrt (pvec 1 * pvec 1 + pvec 2 * pvec 2 + pvec 3 * pvec 3))
    (hpos : 0 < pvec 0) (hnhel : nhel = -1 ∨ nhel = 1) (hnsv : nsv = -1 ∨ nsv = 1) :
    vxxxxx Real.sqrt pvec 0 nhel nsv 2 = 0
    ∧ (vxxxxx Real.sqrt pvec 0 nhel nsv 3).re ^ 2 + (vxxxxx Real.sqrt pvec 0 nhel nsv 3).im ^ 2
        + ((vxxxxx Real.sqrt pvec 0 nhel nsv 4).re ^ 2
          + (vxxxxx Real.sqrt pvec 0 nhel nsv 4).im ^ 2)
        + ((vxxxxx Real.sqrt pvec 0 nhel nsv 5).re ^ 2
          + (vxxxxx Real.sqrt pvec 0 nhel nsv 5).im ^ 2) = 1 := by
  have hsum : 0 ≤ pvec 1 * pvec 1 + pvec 2 * pvec 2 := by
    have h1 := mul_self_nonneg (pvec 1)
    have h2 := mul_self_nonneg (pvec 2)
    linarith
  have hsum3 : 0 ≤ pvec 1 * pvec 1 + pvec 2 * pvec 2 + pvec 3 * pvec 3 := by
    have h3 := mul_self_nonneg (pvec 3)
    linarith
  have hT2 := Real.mul_self_sqrt hsum
  have hE2 : pvec 0 * pvec 0 = pvec 1 * pvec 1 + pvec 2 * pvec 2 + pvec 3 * pvec 3 := by
    rw [hE]; exact Real.mul_self_sqrt hsum3
  have hh : Real.sqrt (1 / 2) ^ 2 = 1 / 2 := Real.sq_sqrt (by norm_num)
  have hne : pvec 0 ≠ 0 := ne_of_gt hpos
  constructor
  · simp only [vxxxxx, ne_eq, not_true_eq_false, if_false]
    split_ifs <;> exact (vec6_val _ _ _ _ _ _).2.2.1
  simp only [vxxxxx, ne_eq, not_true_eq_false, if_false]
  by_cases hpt : Real.sqrt (pvec 1 * pvec 1 + pvec 2 * pvec 2) = 0
  · simp only [hpt, not_true_eq_false, if_false, vec6_val, cxmake_re, cxmake_im]
    generalize Real.sqrt (1 / 2) = sqh at hh ⊢
    rcases hnhel with rfl | rfl <;> rcases hnsv with rfl | rfl <;>
      split_ifs <;> norm_num <;> linarith
  · simp only [hpt, not_false_eq_true, if_true, vec6_val, cxmake_re, cxmake_im]
    generalize Real.sqrt (pvec 1 * pvec 1 + pvec 2 * pvec 2) = pt at hT2 hpt ⊢
    generalize Real.sqrt (1 / 2) = sqh at hh ⊢
    rcases hnhel with rfl | rfl <;> rcases hnsv with rfl | rfl <;>
      push_cast <;> field_simp
    all_goals
      linear_combination
        (-(sqh ^ 2 * pt ^ 2 * pvec 0 ^ 2 * (pvec 3 ^ 2 + pvec 0 ^ 2))
            + sqh ^ 2 * pt ^ 4 * pvec 0 ^ 2) * hT2
          - (sqh ^ 2 * pt ^ 4 * pvec 0 ^ 2) * hE2 + (2 * pvec 0 ^ 4 * pt ^ 4) * hh

theorem vxxxxx_massless_unit_norm_witness :
    ((pvec_transverse : pvec_t ℝ) 0
        = Real.sqrt ((pvec_transverse : pvec_t ℝ) 1 * (pvec_transverse : pvec_t ℝ) 1
            + (pvec_transverse : pvec_t ℝ) 2 * (pvec_transverse : pvec_t ℝ) 2
            + (pvec_transverse : pvec_t ℝ) 3 * (pvec_transverse : pvec_t ℝ) 3)
      ∧ 0 < (pvec_transverse : pvec_t ℝ) 0
      ∧ ((1 : Int) = -1 ∨ (1 : Int) = 1) ∧ ((-1 : Int) = -1 ∨ (-1 : Int) = 1))
    ∧ (vxxxxx Real.sqrt pvec_transverse 0 1 (-1) 2 = 0
      ∧ (vxxxxx Real.sqrt pvec_transverse 0 1 (-1) 3).re ^ 2
          + (vxxxxx Real.sqrt pvec_transverse 0 1 (-1) 3).im ^ 2
        + ((vxxxxx Real.sqrt pvec_transverse 0 1 (-1) 4).re ^ 2
          + (vxxxxx Real.sqrt pvec_transverse 0 1 (-1) 4).im ^ 2)
        + ((vxxxxx Real.sqrt pvec_transverse 0 1 (-1) 5).re ^ 2
          + (vxxxxx Real.sqrt pvec_transverse 0 1 (-1) 5).im ^ 2) = 1) :=
  ⟨⟨pvec_transverse_massless, by norm_num [pvec_transverse], Or.inr rfl, Or.inl rfl⟩,
    vxxxxx_massless_unit_norm pvec_transverse 1 (-1) pvec_transverse_massless
      (by norm_num [pvec_transverse]) (Or.inr rfl) (Or.inl rfl)⟩

/-- C38: for every momentum and all `nhel`, `nsf` with `nhel * nsf = +1`, the massless
wavefunction `fi = ixxxxx( p, 0, nhel, nsf )` has `fi[2] = fi[3] = 0`, and then
`FFV2_0( fi, F2, V3, COUP ) = 0` for all `F2`, `V3`, `COUP`; with `nhel * nsf = -1` it has
`fi[4] = fi[5] = 0`. This holds for whatever square-root routine `ixxxxx` uses. -/
theorem ixxxxx_massless_chirality {K : Type} [LinearOrderedField K] (fpsqrt : K → K)
    (pvec : pvec_t K) (nhel nsf : Int) :
    (nhel * nsf = 1 →
        ixxxxx fpsqrt pvec 0 nhel nsf 2 = cxzero_sv ∧ ixxxxx fpsqrt pvec 0 nhel nsf 3 = cxzero_sv
        ∧ ∀ (F2 V3 : wavefunction K) (COUP : cxtype K),
            FFV2_0 (ixxxxx fpsqrt pvec 0 nhel nsf) F2 V3 COUP = 0)
    ∧ (nhel * nsf = -1 →
        ixxxxx fpsqrt pvec 0 nhel nsf 4 = cxzero_sv
        ∧ ixxxxx fpsqrt pvec 0 nhel nsf 5 = cxzero_sv) := by
  constructor
  · intro hnh
    have h2 : ixxxxx fpsqrt pvec 0 nhel nsf 2 = cxzero_sv := by
      simp only [ixxxxx, ne_eq, not_true_eq_false, if_false, hnh, if_true]
      exact (vec6_val _ _ _ _ _ _).2.2.1
    have h3 : ixxxxx fpsqrt pvec 0 nhel nsf 3 = cxzero_sv := by
      simp only [ixxxxx, ne_eq, not_true_eq_false, if_false, hnh, if_true]
      exact (vec6_val _ _ _ _ _ _).2.2.2.1
    refine ⟨h2, h3, ?_⟩
    intro F2 V3 COUP
    simp only [FFV2_0, h2, h3]
    rw [cxtype.ext_iff2]
    simp only [cxtype.add_re, cxtype.add_im, cxtype.mul_re, cxtype.mul_im, cxzero_sv_re,
      cxzero_sv_im, cxtype.zero_re, cxtype.zero_im]
    constructor <;> ring
  · intro hnh
    have hne : ¬ nhel * nsf = 1 := by omega
    constructor
    · simp only [ixxxxx, ne_eq, not_true_eq_false, if_false, hne]
      exact (vec6_val _ _ _ _ _ _).2.2.2.2.1
    · simp only [ixxxxx, ne_eq, not_true_eq_false, if_false, hne]
      exact (vec6_val _ _ _ _ _ _).2.2.2.2.2

end ClaimsNorms

/-! ## Claims on the relations between the vertex routines -/

section ClaimsRelations

variable {K : Type} [LinearOrderedField K]

/-- C34: for all `F1`, `F2`, `V`, `COUP`, `M3`, `W3` with `D = p^2 - M3 * ( M3 - i * W3 )`
nonzero, where `p = -( Re U[0], Re U[1], Im U[1], Im U[0] )` and
`U = FFV1P0_3( F1, F2, COUP, M3, W3 )`, the amplitude and the propagator function of the FFV1
vertex agree: `D * ( U[2] * V[2] - U[3] * V[3] - U[4] * V[4] - U[5] * V[5] )` is
`FFV1_0( F1, F2, V, COUP )`. -/
theorem FFV1P0_3_contracts_to_FFV1_0 (F1 F2 V : wavefunction K) (COUP : cxtype K) (M3 W3 : K)
    (hD : propagator_denominator
        ![-cxreal (FFV1P0_3 F1 F2 COUP M3 W3 0), -cxreal (FFV1P0_3 F1 F2 COUP M3 W3 1),
          -cximag (FFV1P0_3 F1 F2 COUP M3 W3 1), -cximag (FFV1P0_3 F1 F2 COUP M3 W3 0)]
        M3 W3 ≠ 0) :
    propagator_denominator
        ![-cxreal (FFV1P0_3 F1 F2 COUP M3 W3 0), -cxreal (FFV1P0_3 F1 F2 COUP M3 W3 1),
          -cximag (FFV1P0_3 F1 F2 COUP M3 W3 1), -cximag (FFV1P0_3 F1 F2 COUP M3 W3 0)]
        M3 W3
      * ( FFV1P0_3 F1 F2 COUP M3 W3 2 * V 2 - FFV1P0_3 F1 F2 COUP M3 W3 3 * V 3
          - FFV1P0_3 F1 F2 COUP M3 W3 4 * V 4 - FFV1P0_3 F1 F2 COUP M3 W3 5 * V 5 )
      = FFV1_0 F1 F2 V COUP := by
  simp only [FFV1P0_3, FFV1_0, vec6_val] at hD ⊢
  generalize propagator_denominator
      ![-cxreal (F1 0 + F2 0), -cxreal (F1 1 + F2 1), -cximag (F1 1 + F2 1),
        -cximag (F1 0 + F2 0)] M3 W3 = D at hD ⊢
  rw [cx_FFV1_contract, cxtype.mul_div_cancel_left COUP D hD]

theorem FFV1P0_3_contracts_to_FFV1_0_witness :
    (propagator_denominator
        ![-cxreal (FFV1P0_3 F1_example F2_example (cxmake 1 2) 1 1 0),
          -cxreal (FFV1P0_3 F1_example F2_example (cxmake 1 2) 1 1 1),
          -cximag (FFV1P0_3 F1_example F2_example (cxmake 1 2) 1 1 1),
          -cximag (FFV1P0_3 F1_example F2_example (cxmake 1 2) 1 1 0)]
        1 1 ≠ 0)
    ∧ propagator_denominator
        ![-cxreal (FFV1P0_3 F1_example F2_example (cxmake 1 2) 1 1 0),
          -cxreal (FFV1P0_3 F1_example F2_example (cxmake 1 2) 1 1 1),
          -cximag (FFV1P0_3 F1_example F2_example (cxmake 1 2) 1 1 1),
          -cximag (FFV1P0_3 F1_example F2_example (cxmake 1 2) 1 1 0)]
        1 1
      * ( FFV1P0_3 F1_example F2_example (cxmake 1 2) 1 1 2 * V3_example 2
          - FFV1P0_3 F1_example F2_example (cxmake 1 2) 1 1 3 * V3_example 3
          - FFV1P0_3 F1_example F2_example (cxmake 1 2) 1 1 4 * V3_example 4
          - FFV1P0_3 F1_example F2_example (cxmake 1 2) 1 1 5 * V3_example 5 )
      = FFV1_0 F1_example F2_example V3_example (cxmake 1 2) :=
  ⟨propagator_denominator_ne_zero_of_width _ 1 1 (by norm_num),
    FFV1P0_3_contracts_to_FFV1_0 F1_example F2_example V3_example (cxmake 1 2) 1 1
      (propagator_denominator_ne_zero_of_width _ 1 1 (by norm_num))⟩

/-- C35: for all `F1`, `F2`, `V3`, `COUP1`, `COUP2`, the combined amplitude equals the sum
of its parts: `FFV2_4_0( F1, F2, V3, COUP1, COUP2 )` is
`FFV2_0( F1, F2, V3, COUP1 ) + FFV4_0( F1, F2, V3, COUP2 )`. -/
theorem FFV2_4_0_eq_sum (F1 F2 V3 : wavefunction K) (COUP1 COUP2 : cxtype K) :
    FFV2_4_0 F1 F2 V3 COUP1 COUP2 = FFV2_0 F1 F2 V3 COUP1 + FFV4_0 F1 F2 V3 COUP2 := by
  simp only [FFV2_4_0, FFV2_0, FFV4_0]
  rw [cx_FFV2_4_0_combine]

/-- C36: for all `F1`, `F2`, `COUP1`, `COUP2`, `M3`, `W3`, the combined propagator function
equals the sum of its parts on the spin components: for `k = 2..5`,
`FFV2_4_3( F1, F2, COUP1, COUP2, M3, W3 )[k]` is
`FFV2_3( F1, F2, COUP1, M3, W3 )[k] + FFV4_3( F1, F2, COUP2, M3, W3 )[k]`, and its momentum
slots `[0]`, `[1]` equal those of `FFV2_3` and of `FFV4_3`. -/
theorem FFV2_4_3_eq_sum (F1 F2 : wavefunction K) (COUP1 COUP2 : cxtype K) (M3 W3 : K) :
    FFV2_4_3 F1 F2 COUP1 COUP2 M3 W3 2
        = FFV2_3 F1 F2 COUP1 M3 W3 2 + FFV4_3 F1 F2 COUP2 M3 W3 2
    ∧ FFV2_4_3 F1 F2 COUP1 COUP2 M3 W3 3
        = FFV2_3 F1 F2 COUP1 M3 W3 3 + FFV4_3 F1 F2 COUP2 M3 W3 3
    ∧ FFV2_4_3 F1 F2 COUP1 COUP2 M3 W3 4
        = FFV2_3 F1 F2 COUP1 M3 W3 4 + FFV4_3 F1 F2 COUP2 M3 W3 4
    ∧ FFV2_4_3 F1 F2 COUP1 COUP2 M3 W3 5
        = FFV2_3 F1 F2 COUP1 M3 W3 5 + FFV4_3 F1 F2 COUP2 M3 W3 5
    ∧ FFV2_4_3 F1 F2 COUP1 COUP2 M3 W3 0 = FFV2_3 F1 F2 COUP1 M3 W3 0
    ∧ FFV2_4_3 F1 F2 COUP1 COUP2 M3 W3 0 = FFV4_3 F1 F2 COUP2 M3 W3 0
    ∧ FFV2_4_3 F1 F2 COUP1 COUP2 M3 W3 1 = FFV2_3 F1 F2 COUP1 M3 W3 1
    ∧ FFV2_4_3 F1 F2 COUP1 COUP2 M3 W3 1 = FFV4_3 F1 F2 COUP2 M3 W3 1 := by
  refine ⟨?_, ?_, ?_, ?_, ?_, ?_, ?_, ?_⟩
  · simp only [FFV2_4_3, FFV2_3, FFV4_3, vec6_val]
    rw [cx_FFV2_4_3_combine2]
  · simp only [FFV2_4_3, FFV2_3, FFV4_3, vec6_val]
    rw [cx_FFV2_4_3_combine3]
  · simp only [FFV2_4_3, FFV2_3, FFV4_3, vec6_val]
    rw [cx_FFV2_4_3_combine4]
  · simp only [FFV2_4_3, FFV2_3, FFV4_3, vec6_val]
    rw [cx_FFV2_4_3_combine5]
  · simp only [FFV2_4_3, FFV2_3, vec6_val]
  · simp only [FFV2_4_3, FFV4_3, vec6_val]
  · simp only [FFV2_4_3, FFV2_3, vec6_val]
  · simp only [FFV2_4_3, FFV4_3, vec6_val]

/-- C37: for all `F1`, `F2`, `V3` and `COUP`, the three single-coupling amplitudes are
linearly related: `FFV4_0( F1, F2, V3, COUP )` is
`2 * FFV1_0( F1, F2, V3, COUP ) - FFV2_0( F1, F2, V3, COUP )`. -/
theorem FFV4_0_linear_relation (F1 F2 V3 : wavefunction K) (COUP : cxtype K) :
    FFV4_0 F1 F2 V3 COUP = fpcxmul 2 (FFV1_0 F1 F2 V3 COUP) - FFV2_0 F1 F2 V3 COUP := by
  simp only [FFV1_0, FFV2_0, FFV4_0]
  rw [cx_FFV4_0_linear]

/-- C39: for all colour-flow totals `jamp[0]`, `jamp[1]`, the full colour contraction, the
sum over `icol`, `jcol` of `cf[icol][jcol] * jamp[jcol] * conj( jamp[icol] ) / denom[icol]`,
has imaginary part 0 and real part `deltaMEs`, so taking `cxreal` of each term in
`calculate_wavefunctions` discards nothing from the total. -/
theorem colour_contraction_real (jamp : Fin 2 → cxtype K) :
    cximag (colour_contraction jamp) = 0
    ∧ cxreal (colour_contraction jamp) = deltaMEs jamp
    ∧ colour_contraction jamp = cxmake (deltaMEs jamp) 0 := by
  have h : colour_contraction jamp = cxmake (deltaMEs jamp) 0 := by
    rw [cxtype.ext_iff2, cxmake_re, cxmake_im, deltaMEs_eq]
    simp only [colour_contraction, finRange_ncolor, List.foldl_cons, List.foldl_nil, fpcxmul,
      cxfpdiv, cf, denom, cxreal, cximag, cxconj, Matrix.cons_val_zero, Matrix.cons_val_one,
      Matrix.head_cons, cxtype.add_re, cxtype.add_im, cxtype.mul_re, cxtype.mul_im,
      cxtype.div_re, cxtype.div_im, cxmake_re, cxmake_im, cxzero_sv_re, cxzero_sv_im]
    constructor <;> ring
  refine ⟨?_, ?_, h⟩
  · rw [h]; rfl
  · rw [h]; rfl

end ClaimsRelations

end mg5amcGpu
